import Mathlib

/-!
libgenders: a shallow embedding of `src/libgenders/genders.c`.

C strings are modelled by the list of their bytes before the terminating NUL
(`List Char`).  Pointers that may be NULL are `Option`s.  The handle pointer
`genders_t` is an `Option genders`: `none` is the NULL handle, `some h` a
pointer whose pointee currently holds `h`; every API function returns the new
pointee together with its C return value.  The `int` counters of the handle
only ever hold lengths and counts, and are kept in `Nat` (the model is about
files small enough that they stay below `2^31`).  Memory allocation is taken
to succeed.  The scratch buffer `valbuf` has the `maxvallen + 1` bytes that
`genders_load_data` allocates; a call that writes or reads past its end has
undefined behaviour in C and no result here: `_get_val` and the five queries
that call it return an `Option`, `none` for such a call.
-/

set_option autoImplicit false

namespace Genders

/-! ## Constants -/

/-- The valid magic number, `GENDERS_MAGIC_NUM`. -/
def GENDERS_MAGIC_NUM : Nat := 0xdeadbeef

/-- The line buffer length, `GENDERS_READLINE_BUFLEN`. -/
def GENDERS_READLINE_BUFLEN : Int := 65536

/-- The hash sizing factor, `GENDERS_HASH_MULTIPLIER`. -/
def GENDERS_HASH_MULTIPLIER : Nat := 2

/-- The longest node name, `MAXHOSTNAMELEN`. -/
def MAXHOSTNAMELEN : Nat := 64

/-- Modelled from the spec: `genders.h` is not among the sources; the error
codes are the "stable ordinals, contiguous from 0" of the spec's list. -/
def GENDERS_ERR_SUCCESS : Int := 0

/-- Modelled from the spec: error code 1 of the spec's list (`genders.h` is absent). -/
def GENDERS_ERR_NULLHANDLE : Int := 1

/-- Modelled from the spec: error code 2 of the spec's list (`genders.h` is absent). -/
def GENDERS_ERR_OPEN : Int := 2

/-- Modelled from the spec: error code 3 of the spec's list (`genders.h` is absent). -/
def GENDERS_ERR_READ : Int := 3

/-- Modelled from the spec: error code 4 of the spec's list (`genders.h` is absent). -/
def GENDERS_ERR_PARSE : Int := 4

/-- Modelled from the spec: error code 5 of the spec's list (`genders.h` is absent). -/
def GENDERS_ERR_NOTLOADED : Int := 5

/-- Modelled from the spec: error code 6 of the spec's list (`genders.h` is absent). -/
def GENDERS_ERR_ISLOADED : Int := 6

/-- Modelled from the spec: error code 7 of the spec's list (`genders.h` is absent). -/
def GENDERS_ERR_OVERFLOW : Int := 7

/-- Modelled from the spec: error code 8 of the spec's list (`genders.h` is absent). -/
def GENDERS_ERR_PARAMETERS : Int := 8

/-- Modelled from the spec: error code 9 of the spec's list (`genders.h` is absent). -/
def GENDERS_ERR_NULLPTR : Int := 9

/-- Modelled from the spec: error code 10 of the spec's list (`genders.h` is absent). -/
def GENDERS_ERR_NOTFOUND : Int := 10

/-- Modelled from the spec: error code 11 of the spec's list (`genders.h` is absent). -/
def GENDERS_ERR_OUTMEM : Int := 11

/-- Modelled from the spec: error code 12 of the spec's list (`genders.h` is absent). -/
def GENDERS_ERR_MAGIC : Int := 12

/-- Modelled from the spec: error code 13 of the spec's list (`genders.h` is absent). -/
def GENDERS_ERR_INTERNAL : Int := 13

/-- Modelled from the spec: error code 14 of the spec's list (`genders.h` is absent). -/
def GENDERS_ERR_ERRNUMRANGE : Int := 14

/-- Modelled from the spec: `GENDERS_DEFAULT_FILE` is defined outside the
sources; the spec names `/etc/genders` as the conventional default path. -/
def GENDERS_DEFAULT_FILE : List Char := "/etc/genders".toList

/-! ## Data model -/

/-- The record `struct genders_attrval`: attribute name and value (`val == NULL` when absent). -/
structure genders_attrval where
  attr : List Char
  val : Option (List Char)
deriving DecidableEq, Repr

/-- The record `struct genders_node`.  `attrlist` holds the referenced attrval
lists (the C pointers into `attrvalslist`) by value. -/
structure genders_node where
  name : List Char
  attrlist : List (List genders_attrval)
  attrcount : Nat
deriving DecidableEq, Repr

/-- The node index.  Modelled from the spec: the hash table (`hash.c`) is an
external collaborator, "string-keyed, chaining"; it is kept as the list of its
(key, data) entries, the data of an entry being the list of node records
stored under that name. -/
abbrev hash_t := List (List Char × List genders_node)

/-- The handle `struct genders`.  `valbuf` is `none` for a NULL pointer and
otherwise holds the bytes of the scratch buffer, which `genders_load_data`
allocates with `maxvallen + 1` bytes, from its start up to its first NUL:
at most `maxvallen` bytes when a NUL is among the `maxvallen + 1`, all
`maxvallen + 1` of them when none is. -/
structure genders where
  magic : Nat
  errnum : Int
  is_loaded : Nat
  numnodes : Nat
  numattrs : Nat
  maxattrs : Nat
  maxnodelen : Nat
  maxattrlen : Nat
  maxvallen : Nat
  nodename : List Char
  nodeslist : List genders_node
  attrvalslist : List (List genders_attrval)
  attrslist : List (List Char)
  node_index : Option hash_t
  valbuf : Option (List Char)
deriving DecidableEq, Repr

/-- A caller-owned array of string slots (`char *list[]`): slot `i` is `none`
when `list[i]` is NULL and otherwise holds the C string stored in it. -/
abbrev StrArray := Nat → Option (List Char)

/-! ## libc and collaborator helpers -/

/-- The predicate `isspace` of the C locale. -/
def isspace (c : Char) : Bool :=
  c == ' ' || c == '\t' || c == '\n' || c == Char.ofNat 11 || c == Char.ofNat 12 || c == '\r'

/-- Non-NULL result of `strstr(hay, needle)`. -/
def strstr : List Char → List Char → Bool
  | [], needle => needle.isEmpty
  | c :: cs, needle => needle.isPrefixOf (c :: cs) || strstr cs needle

/-- Non-NULL result of `strchr(s, c)`. -/
def strchr (s : List Char) (c : Char) : Bool := s.contains c

/-- The macro `MAX`. -/
def MAX (x y : Nat) : Nat := if x > y then x else y

/-- Lookup `hash_find`: the data stored under `key`, NULL when absent. -/
def hash_find : hash_t → List Char → Option (List genders_node)
  | [], _ => none
  | (k, l) :: rest, key => if k = key then some l else hash_find rest key

/-- Search `list_find_first(l, _is_node, key)` over node records. -/
def _is_node (x : genders_node) (key : List Char) : Bool := x.name == key

/-- Comparison `_is_str`. -/
def _is_str (x : List Char) (key : List Char) : Bool := x == key

/-- Comparison `_is_attr_in_attrvals`. -/
def _is_attr_in_attrvals (av : genders_attrval) (key : List Char) : Bool := av.attr == key

/-- Comparison `_is_attr_in_attrlist`: does the attrval list hold the attribute. -/
def _is_attr_in_attrlist (attrvals : List genders_attrval) (key : List Char) : Bool :=
  (attrvals.find? (fun av => _is_attr_in_attrvals av key)).isSome

/-! ## Handle checks -/

/-- Check `_handle_error_check`. -/
def _handle_error_check (handle : Option genders) : Int :=
  match handle with
  | none => -1
  | some h => if h.magic ≠ GENDERS_MAGIC_NUM then -1 else 0

/-- Check `_unloaded_handle_error_check`. -/
def _unloaded_handle_error_check (handle : Option genders) : Option genders × Int :=
  if _handle_error_check handle < 0 then (handle, -1)
  else match handle with
    | none => (none, -1)
    | some h =>
      if h.is_loaded ≠ 0 then (some { h with errnum := GENDERS_ERR_ISLOADED }, -1)
      else (some h, 0)

/-- Check `_loaded_handle_error_check`. -/
def _loaded_handle_error_check (handle : Option genders) : Option genders × Int :=
  if _handle_error_check handle < 0 then (handle, -1)
  else match handle with
    | none => (none, -1)
    | some h =>
      if h.is_loaded = 0 then (some { h with errnum := GENDERS_ERR_NOTLOADED }, -1)
      else (some h, 0)

/-- The search `_find_attrval_in_attrlist`: the first attrval named `attr` in
the first attrval list of `attrlist` that has one (`*avptr`, NULL when none). -/
def _find_attrval_in_attrlist (attrlist : List (List genders_attrval)) (attr : List Char) :
    Option genders_attrval :=
  match attrlist with
  | [] => none
  | attrvals :: rest =>
    match attrvals.find? (fun av => _is_attr_in_attrvals av attr) with
    | some av => some av
    | none => _find_attrval_in_attrlist rest attr

/-- The `while (*val != 0)` loop of `_get_val`.  `val` is the unread rest of
the value, `out` the bytes written so far into the buffer of `maxvallen + 1`
bytes that `memset` has cleared; `vlen` and `name` are `strlen(av->val)` and
`n->name`.  The loop writes through `valbufptr` with no bound: a write at an
offset `>= maxvallen + 1` is outside the buffer and the behaviour of the C
code is undefined from there on, which is the result `none`.  `some (out,
false)` is the `return -1` of the size guard, with the bytes written up to
it, `some (out, true)` the end of the value.  A byte that ends the string is
followed by the NUL, which is neither `%` nor `n`. -/
def _get_val_loop (vlen : Nat) (name : List Char) (maxvallen : Nat) :
    List Char → List Char → Option (List Char × Bool)
  | [], out => some (out, true)
  | [c], out =>
    if out.length < maxvallen + 1 then _get_val_loop vlen name maxvallen [] (out ++ [c])
    else none
  | c :: d :: rest, out =>
    if c = '%' then
      if d = '%' then
        if out.length < maxvallen + 1 then _get_val_loop vlen name maxvallen rest (out ++ ['%'])
        else none
      else if d = 'n' then
        if vlen - 2 + name.length > maxvallen + 1 then some (out, false)
        else if out.length + name.length ≤ maxvallen + 1 then
          _get_val_loop vlen name maxvallen rest (out ++ name)
        else none
      else
        if out.length < maxvallen + 1 then
          _get_val_loop vlen name maxvallen (d :: rest) (out ++ [c])
        else none
    else
      if out.length < maxvallen + 1 then
        _get_val_loop vlen name maxvallen (d :: rest) (out ++ [c])
      else none

/-- The function `_get_val` (caller guarantees `av->val != NULL`, passed as
`val`, and a loaded handle, whose `valbuf` points to `maxvallen + 1` bytes).
`none` is a run that writes past the end of the scratch buffer (undefined
behaviour).  Otherwise the handle and 1 if a substitution occurred (the
bytes written are in `valbuf`, which holds no NUL when they fill it), 0 if
not, -1 on error. -/
def _get_val (h : genders) (n : genders_node) (val : List Char) : Option (genders × Int) :=
  if !strstr val "%n".toList && !strstr val "%%".toList then some (h, 0)
  else
    match _get_val_loop val.length n.name h.maxvallen val [] with
    | none => none
    | some (out, true) => some ({ h with valbuf := some out }, 1)
    | some (out, false) =>
      some ({ h with valbuf := some out, errnum := GENDERS_ERR_INTERNAL }, -1)

/-- The C string that `strcmp`, `strlen` and `strcpy` find at
`handle->valbuf`: the bytes of the buffer when a NUL follows them within its
`maxvallen + 1` bytes.  `none` when the pointer is NULL or the bytes fill
the buffer: the read then runs past its end (undefined behaviour). -/
def valbuf_string (h : genders) : Option (List Char) :=
  match h.valbuf with
  | none => none
  | some out => if out.length ≤ h.maxvallen then some out else none

/-- The test `(rv > 0 && !strcmp(handle->valbuf, val)) || !strcmp(av->val, val)`
that `genders_getnodes`, `genders_testattrval` and `genders_isattrval` make
after `_get_val` returned `rv >= 0`; `none` when `strcmp` reads the scratch
buffer past its end. -/
def value_test (h : genders) (rv : Int) (avval val : List Char) : Option Bool :=
  if rv > 0 then
    match valbuf_string h with
    | none => none
    | some s => some (decide (s = val ∨ avval = val))
  else some (decide (avval = val))

/-- The initialiser `_initialize_handle_info`. -/
def _initialize_handle_info (h : genders) : genders :=
  { h with magic := GENDERS_MAGIC_NUM, is_loaded := 0, numnodes := 0, numattrs := 0,
           maxattrs := 0, maxnodelen := 0, maxattrlen := 0, maxvallen := 0, nodename := [] }

/-- The constructor `genders_handle_create` (allocation succeeding). -/
def genders_handle_create : genders :=
  { magic := GENDERS_MAGIC_NUM, errnum := GENDERS_ERR_SUCCESS, is_loaded := 0, numnodes := 0,
    numattrs := 0, maxattrs := 0, maxnodelen := 0, maxattrlen := 0, maxvallen := 0,
    nodename := [], nodeslist := [], attrvalslist := [], attrslist := [],
    node_index := none, valbuf := none }

/-! ## Environment of `load` and `lint` -/

/-- The collaborators of the parser.  `files name` is the outcome of
`open(name, O_RDONLY)`: `none` when it fails, otherwise the successive results
of `fd_read_line` on the descriptor, each a return value and the C string left
in the buffer (after the last one the reader returns 0, end of file).
`hostlist tok` is the sequence of names `hostlist_next` yields for
`hostlist_create(tok)`, `none` when the creation fails.  `gethostname` is the
local host name, `none` when the call fails. -/
structure Env where
  files : List Char → Option (List (Int × List Char))
  hostlist : List Char → Option (List (List Char))
  gethostname : Option (List Char)

/-- A diagnostic printed by lint, `fprintf(stream, "Line %d: ...")`, kept as
its line number, its kind and its argument. -/
inductive Diag where
  | white_space (line_num : Nat)
  | duplicate_attribute (line_num : Nat) (attr : List Char)
  | hostname_too_long (line_num : Nat)
  | not_shortened (line_num : Nat)
  | duplicate_for_node (line_num : Nat) (node : List Char)
  | exceeds_length (line_num : Nat)
  | no_nodes
deriving DecidableEq, Repr

/-! ## Parser -/

/-- The call `_readline`, given the result `(ret, buf)` of `fd_read_line`. -/
def _readline (h : genders) (ret : Int) (buflen : Int) : genders × Int :=
  if ret < 0 then ({ h with errnum := GENDERS_ERR_READ }, -1)
  else if ret ≥ buflen - 1 then ({ h with errnum := GENDERS_ERR_PARSE }, -1)
  else (h, ret)

/-- The call `_insert_node`: the node list after the call and the record `n`
it returns, the first one named `nodename`, appended when there was none. -/
def _insert_node (nodelist : List genders_node) (nodename : List Char) :
    List genders_node × genders_node :=
  match nodelist.find? (fun x => _is_node x nodename) with
  | some n => (nodelist, n)
  | none =>
    let n : genders_node := { name := nodename, attrlist := [], attrcount := 0 }
    (nodelist ++ [n], n)

/-- A write through the pointer `n` returned by `_insert_node`: the first
record of the list that bears the name is replaced by the new contents. -/
def node_store : List genders_node → genders_node → List genders_node
  | [], _ => []
  | x :: rest, n => if _is_node x n.name then n :: rest else x :: node_store rest n

/-- The call `_insert_attr`: the handle and 1 when the name was new, 0 when not. -/
def _insert_attr (h : genders) (attr : List Char) : genders × Nat :=
  if (h.attrslist.find? (fun x => _is_str x attr)).isSome then (h, 0)
  else ({ h with attrslist := h.attrslist ++ [attr] }, 1)

/-- The check `_duplicate_attr_check`: 1 when some attribute of `attrvals`
is already in one of the lists of `attrlist`, 0 otherwise. -/
def _duplicate_attr_check (attrlist : List (List genders_attrval)) :
    List genders_attrval → Int
  | [] => 0
  | av :: rest =>
    if (attrlist.find? (fun x => _is_attr_in_attrlist x av.attr)).isSome then 1
    else _duplicate_attr_check attrlist rest

/-- The call `strsep(&line, " \t")`: the token and the new `line`, NULL when
no delimiter was found. -/
def strsep (line : List Char) : List Char × Option (List Char) :=
  (line.takeWhile (fun c => !(c == ' ' || c == '\t')),
   match line.dropWhile (fun c => !(c == ' ' || c == '\t')) with
   | [] => none
   | _ :: rest => some rest)

/-- The tokens that `strtok_r(line, ",", ..)` and the following
`strtok_r(NULL, ",", ..)` calls return: the maximal runs without a comma.
`cur` is the token being read. -/
def strtok_r : List Char → List Char → List (List Char)
  | [], cur => if cur.isEmpty then [] else [cur]
  | c :: cs, cur =>
    if c = ',' then (if cur.isEmpty then strtok_r cs [] else cur :: strtok_r cs [])
    else strtok_r cs (cur ++ [c])

/-- The split of a token at its first `=` (`strchr(attr, '=')` and
`*val++ = 0`): the attribute name and the value, NULL when there is no `=`. -/
def split_attr (tok : List Char) : List Char × Option (List Char) :=
  (tok.takeWhile (fun c => c != '='),
   match tok.dropWhile (fun c => c != '=') with
   | [] => none
   | _ :: v => some v)

/-- State of the attribute loop of `_parse_line`; `ok = false` is its `goto cleanup`. -/
structure AttrsOut where
  handle : genders
  attrvals : List genders_attrval
  max_n_subst_vallen : Nat
  stream : List Diag
  ok : Bool
deriving DecidableEq, Repr

/-- One turn of the `while (attr)` loop of `_parse_line` (lines 661-695) for
the token `tok`. -/
def _parse_line_attr (line_num : Nat) (tok : List Char) (st : AttrsOut) : AttrsOut :=
  let attr := (split_attr tok).1
  let val := (split_attr tok).2
  if (st.attrvals.find? (fun av => _is_attr_in_attrvals av attr)).isSome then
    { st with
      handle := { st.handle with errnum := GENDERS_ERR_PARSE },
      stream := if line_num > 0 then st.stream ++ [Diag.duplicate_attribute line_num attr]
                else st.stream,
      ok := false }
  else
    let attrvals1 := st.attrvals ++ [{ attr := attr, val := val }]
    if line_num = 0 then
      let r := _insert_attr st.handle attr
      let h1 := { r.1 with numattrs := r.1.numattrs + r.2 }
      let h2 := { h1 with maxattrlen := MAX attr.length h1.maxattrlen }
      match val with
      | some v =>
        if strstr v "%n".toList then
          { st with handle := h2, attrvals := attrvals1, max_n_subst_vallen := v.length }
        else
          { st with handle := { h2 with maxvallen := MAX v.length h2.maxvallen },
                    attrvals := attrvals1 }
      | none => { st with handle := h2, attrvals := attrvals1 }
    else { st with attrvals := attrvals1 }

/-- The `while (attr)` loop of `_parse_line` (lines 660-696) over the tokens
of the attribute list. -/
def _parse_line_attrs (line_num : Nat) : List (List Char) → AttrsOut → AttrsOut
  | [], st => st
  | tok :: rest, st =>
    if (_parse_line_attr line_num tok st).ok then
      _parse_line_attrs line_num rest (_parse_line_attr line_num tok st)
    else _parse_line_attr line_num tok st

/-- State of the node loop of `_parse_line`; `exit` is `none` while the loop
runs and `some retval` at a `goto cleanup`. -/
structure NodesOut where
  nodelist : List genders_node
  handle : genders
  line_maxnodelen : Nat
  stream : List Diag
  exit : Option Int
deriving DecidableEq, Repr

/-- One turn of the `while ((node = hostlist_next(hlitr)))` loop of
`_parse_line` (lines 720-767) for the name `node`.  `attrvals` is the line's
attrval list, NULL when the line has no attributes. -/
def _parse_line_node (line_num : Nat) (attrvals : Option (List genders_attrval))
    (node : List Char) (st : NodesOut) : NodesOut :=
  if node.length > MAXHOSTNAMELEN then
    { st with
      handle := { st.handle with errnum := GENDERS_ERR_PARSE },
      stream := if line_num > 0 then st.stream ++ [Diag.hostname_too_long line_num]
                else st.stream,
      exit := some (if line_num > 0 then 1 else -1) }
  else if strchr node '.' then
    { st with
      handle := { st.handle with errnum := GENDERS_ERR_PARSE },
      stream := if line_num > 0 then st.stream ++ [Diag.not_shortened line_num]
                else st.stream,
      exit := some (if line_num > 0 then 1 else -1) }
  else
    let r := _insert_node st.nodelist node
    match attrvals with
    | some avs =>
      if _duplicate_attr_check r.2.attrlist avs = 1 then
        { st with
          nodelist := r.1,
          handle := { st.handle with errnum := GENDERS_ERR_PARSE },
          stream := if line_num > 0 then st.stream ++ [Diag.duplicate_for_node line_num node]
                    else st.stream,
          exit := some (if line_num > 0 then 1 else -1) }
      else
        let n : genders_node :=
          { r.2 with attrlist := r.2.attrlist ++ [avs], attrcount := r.2.attrcount + avs.length }
        if line_num = 0 then
          { st with
            nodelist := node_store r.1 n,
            handle := { st.handle with maxattrs := MAX n.attrcount st.handle.maxattrs,
                                       maxnodelen := MAX node.length st.handle.maxnodelen },
            line_maxnodelen := MAX node.length st.line_maxnodelen }
        else { st with nodelist := node_store r.1 n }
    | none =>
      if line_num = 0 then
        { st with
          nodelist := r.1,
          handle := { st.handle with maxattrs := MAX r.2.attrcount st.handle.maxattrs,
                                     maxnodelen := MAX node.length st.handle.maxnodelen },
          line_maxnodelen := MAX node.length st.line_maxnodelen }
      else { st with nodelist := r.1 }

/-- The `while ((node = hostlist_next(hlitr)))` loop of `_parse_line`
(lines 719-768) over the names of the host list. -/
def _parse_line_nodes (line_num : Nat) (attrvals : Option (List genders_attrval)) :
    List (List Char) → NodesOut → NodesOut
  | [], st => st
  | node :: rest, st =>
    if (_parse_line_node line_num attrvals node st).exit = none then
      _parse_line_nodes line_num attrvals rest (_parse_line_node line_num attrvals node st)
    else _parse_line_node line_num attrvals node st

/-- Result of `_parse_line`: the handle, the two debug lists, the stream and
the return value. -/
structure ParseOut where
  handle : genders
  debugnodeslist : List genders_node
  debugattrvalslist : List (List genders_attrval)
  stream : List Diag
  retval : Int
deriving DecidableEq, Repr

/-- The attribute part of `_parse_line` (lines 636-698): `line` is what
`strsep` left.  The attrval list is NULL (`none`) when the line has no
attributes; `ok = false` is a `goto cleanup`, with `retval` the value the
variable has there. -/
def _parse_line_attrlist (h : genders) (line : Option (List Char)) (line_num : Nat)
    (stream : List Diag) : AttrsOut × Option (List genders_attrval) × Int :=
  match line with
  | none => (⟨h, [], 0, stream, true⟩, none, -1)
  | some l =>
    let l1 := l.dropWhile isspace
    if l1 ≠ [] then
      if strchr l1 ' ' || strchr l1 '\t' then
        (⟨{ h with errnum := GENDERS_ERR_PARSE }, [], 0,
          if line_num > 0 then stream ++ [Diag.white_space line_num] else stream, false⟩,
         none, if line_num > 0 then 1 else -1)
      else
        let a := _parse_line_attrs line_num (strtok_r l1 []) ⟨h, [], 0, stream, true⟩
        (a, some a.attrvals, -1)
    else (⟨h, [], 0, stream, true⟩, none, -1)

/-- The function `_parse_line`.  `line_num = 0` parses into the handle,
`line_num > 0` into the debug lists. -/
def _parse_line (env : Env) (handle : genders) (line : List Char) (line_num : Nat)
    (stream : List Diag) (debugnodeslist : List genders_node)
    (debugattrvalslist : List (List genders_attrval)) : ParseOut :=
  let line1 := line.takeWhile (fun c => c != '#')
  let line2 := (line1.reverse.dropWhile isspace).reverse
  if line2 = [] then ⟨handle, debugnodeslist, debugattrvalslist, stream, 0⟩
  else
    let line3 := line2.dropWhile isspace
    let nodenames := (strsep line3).1
    let a := _parse_line_attrlist handle (strsep line3).2 line_num stream
    if a.1.ok = false then
      ⟨a.1.handle, debugnodeslist, debugattrvalslist, a.1.stream, a.2.2⟩
    else
      let h := a.1.handle
      let attrvals := a.2.1
      let nodelist := if line_num = 0 then h.nodeslist else debugnodeslist
      match env.hostlist nodenames with
      | none =>
        ⟨{ h with errnum := GENDERS_ERR_OUTMEM }, debugnodeslist, debugattrvalslist,
          a.1.stream, -1⟩
      | some names =>
        let r := _parse_line_nodes line_num attrvals names ⟨nodelist, h, 0, a.1.stream, none⟩
        match r.exit with
        | some rv =>
          if line_num = 0 then
            ⟨{ r.handle with nodeslist := r.nodelist }, debugnodeslist, debugattrvalslist,
              r.stream, rv⟩
          else ⟨r.handle, r.nodelist, debugattrvalslist, r.stream, rv⟩
        | none =>
          let h1 :=
            if a.1.max_n_subst_vallen ≠ 0 then
              { r.handle with
                maxvallen := MAX (a.1.max_n_subst_vallen - 2 + r.line_maxnodelen)
                  r.handle.maxvallen }
            else r.handle
          if line_num = 0 then
            ⟨{ h1 with nodeslist := r.nodelist,
                       attrvalslist := match attrvals with
                         | some avs => h1.attrvalslist ++ [avs]
                         | none => h1.attrvalslist },
              debugnodeslist, debugattrvalslist, r.stream, 0⟩
          else
            ⟨h1, r.nodelist,
              match attrvals with
              | some avs => debugattrvalslist ++ [avs]
              | none => debugattrvalslist,
              r.stream, 0⟩

/-! ## Loader -/

/-- The insertion `hash_insert(index, key, data)`. -/
def hash_insert (index : hash_t) (key : List Char) (data : List genders_node) : hash_t :=
  index ++ [(key, data)]

/-- The call `list_append(l, n)` on the list `l` that `hash_find` returned
for `key`: the data of that entry grows by `n`. -/
def hash_list_append : hash_t → List Char → genders_node → hash_t
  | [], _, _ => []
  | (k, l) :: rest, key, n =>
    if k = key then (k, l ++ [n]) :: rest else (k, l) :: hash_list_append rest key n

/-- The index loop of `genders_load_data` (lines 862-892). -/
def genders_load_data_index : List genders_node → hash_t → hash_t
  | [], index => index
  | n :: rest, index =>
    match hash_find index n.name with
    | none =>
      genders_load_data_index rest (hash_list_append (hash_insert index n.name []) n.name n)
    | some _ => genders_load_data_index rest (hash_list_append index n.name n)

/-- The read loop of `genders_load_data` (lines 817-823): the handle and 0
when the end of the file was reached, -1 at a `goto cleanup`. -/
def genders_load_data_lines (env : Env) : List (Int × List Char) → genders → genders × Int
  | [], h => (h, 0)
  | (ret, buf) :: rest, h =>
    let r := _readline h ret GENDERS_READLINE_BUFLEN
    if r.2 > 0 then
      let p := _parse_line env r.1 buf 0 [] [] []
      if p.retval < 0 then (p.handle, -1)
      else genders_load_data_lines env rest p.handle
    else if r.2 < 0 then (r.1, -1)
    else (r.1, 0)

/-- The `cleanup:` block of `genders_load_data` (lines 907-925). -/
def genders_load_data_cleanup (h : genders) : genders :=
  _initialize_handle_info
    { h with node_index := none, valbuf := none, nodeslist := [], attrvalslist := [],
             attrslist := [] }

/-- The part of `genders_load_data` after the read loop (lines 825-905):
the node count, the host name, the index and the scratch buffer; each failure
runs the cleanup block.  The contents of the freshly allocated `valbuf` are
indeterminate; no query reads them before `_get_val` has cleared the buffer,
and they are modelled as empty. -/
def genders_load_data_finish (env : Env) (h : genders) : genders × Int :=
  if h.nodeslist.length = 0 then
    (genders_load_data_cleanup
      { h with numnodes := h.nodeslist.length, errnum := GENDERS_ERR_PARSE }, -1)
  else
    match env.gethostname with
    | none =>
      (genders_load_data_cleanup
        { h with numnodes := h.nodeslist.length, errnum := GENDERS_ERR_INTERNAL }, -1)
    | some host =>
      ({ h with
          numnodes := h.nodeslist.length,
          nodename := (host.take MAXHOSTNAMELEN).takeWhile (fun c => c != '.'),
          maxnodelen :=
            MAX ((host.take MAXHOSTNAMELEN).takeWhile (fun c => c != '.')).length h.maxnodelen,
          node_index := some (genders_load_data_index h.nodeslist []),
          valbuf := some [],
          is_loaded := h.is_loaded + 1,
          errnum := GENDERS_ERR_SUCCESS }, 0)

/-- The function `genders_load_data`.  A failed handle check jumps to the
cleanup block like every other failure.  (On a NULL handle the C block
dereferences the pointer; the model has no pointee to change there and
reports the block's -1.) -/
def genders_load_data (env : Env) (handle : Option genders) (filename : Option (List Char)) :
    Option genders × Int :=
  match _unloaded_handle_error_check handle with
  | (none, _) => (none, -1)
  | (some h, rc) =>
    if rc < 0 then (some (genders_load_data_cleanup h), -1)
    else
      match env.files (filename.getD GENDERS_DEFAULT_FILE) with
      | none => (some (genders_load_data_cleanup { h with errnum := GENDERS_ERR_OPEN }), -1)
      | some file =>
        if (genders_load_data_lines env file h).2 < 0 then
          (some (genders_load_data_cleanup (genders_load_data_lines env file h).1), -1)
        else
          (some (genders_load_data_finish env (genders_load_data_lines env file h).1).1,
           (genders_load_data_finish env (genders_load_data_lines env file h).1).2)

/-! ## Queries -/

/-- The six getters `genders_getnumnodes` .. `genders_getmaxvallen` share one
body; `field` reads the statistic. -/
def genders_getstat (field : genders → Nat) (handle : Option genders) : Option genders × Int :=
  let c := _loaded_handle_error_check handle
  if c.2 < 0 then (c.1, -1)
  else match c.1 with
    | none => (none, -1)
    | some h => (some { h with errnum := GENDERS_ERR_SUCCESS }, (field h : Int))

/-- The getter `genders_getnumnodes`. -/
def genders_getnumnodes (handle : Option genders) : Option genders × Int :=
  genders_getstat (fun h => h.numnodes) handle

/-- The getter `genders_getnumattrs`. -/
def genders_getnumattrs (handle : Option genders) : Option genders × Int :=
  genders_getstat (fun h => h.numattrs) handle

/-- The getter `genders_getmaxattrs`. -/
def genders_getmaxattrs (handle : Option genders) : Option genders × Int :=
  genders_getstat (fun h => h.maxattrs) handle

/-- The getter `genders_getmaxnodelen`. -/
def genders_getmaxnodelen (handle : Option genders) : Option genders × Int :=
  genders_getstat (fun h => h.maxnodelen) handle

/-- The getter `genders_getmaxattrlen`. -/
def genders_getmaxattrlen (handle : Option genders) : Option genders × Int :=
  genders_getstat (fun h => h.maxattrlen) handle

/-- The getter `genders_getmaxvallen`. -/
def genders_getmaxvallen (handle : Option genders) : Option genders × Int :=
  genders_getstat (fun h => h.maxvallen) handle

/-- The helper `_list_create`.  `list` is the `char ***` argument: `none`
for NULL, otherwise the current value of the variable it points to; the
result holds the variable's new value.  The `len` buffers are zero filled. -/
def _list_create (h : genders) (list : Option (Option StrArray)) (len : Int) :
    genders × Option (Option StrArray) × Int :=
  if len > 0 then
    match list with
    | none => ({ h with errnum := GENDERS_ERR_PARAMETERS }, none, -1)
    | some _ =>
      ({ h with errnum := GENDERS_ERR_SUCCESS },
       some (some (fun i => if (i : Int) < len then some [] else none)), len)
  else ({ h with errnum := GENDERS_ERR_SUCCESS }, list, len)

/-- The `for` loop of `_list_clear` from index `i`, `k` slots to go; `false`
is the `return -1` at a NULL slot. -/
def _list_clear_loop : Nat → Nat → StrArray → StrArray × Bool
  | 0, _, list => (list, true)
  | k + 1, i, list =>
    match list i with
    | none => (list, false)
    | some _ => _list_clear_loop k (i + 1) (Function.update list i (some []))

/-- The helper `_list_clear`. -/
def _list_clear (h : genders) (list : Option StrArray) (len : Int) :
    genders × Option StrArray × Int :=
  if len > 0 then
    match list with
    | none => ({ h with errnum := GENDERS_ERR_PARAMETERS }, none, -1)
    | some l =>
      match _list_clear_loop len.toNat 0 l with
      | (l1, false) => ({ h with errnum := GENDERS_ERR_NULLPTR }, some l1, -1)
      | (l1, true) => ({ h with errnum := GENDERS_ERR_SUCCESS }, some l1, 0)
  else ({ h with errnum := GENDERS_ERR_SUCCESS }, list, 0)

/-- The helper `_list_destroy` (the array is released, nothing is returned for it). -/
def _list_destroy (h : genders) (list : Option StrArray) (len : Int) : genders × Int :=
  if len > 0 then
    match list with
    | none => ({ h with errnum := GENDERS_ERR_PARAMETERS }, -1)
    | some _ => ({ h with errnum := GENDERS_ERR_SUCCESS }, 0)
  else ({ h with errnum := GENDERS_ERR_SUCCESS }, 0)

/-- The three calls `genders_nodelist_create`, `genders_attrlist_create`,
`genders_vallist_create`; `count` reads the length they pass. -/
def genders_list_create (count : genders → Nat) (handle : Option genders)
    (list : Option (Option StrArray)) : Option genders × Option (Option StrArray) × Int :=
  let c := _loaded_handle_error_check handle
  if c.2 < 0 then (c.1, list, -1)
  else match c.1 with
    | none => (none, list, -1)
    | some h => let r := _list_create h list (count h); (some r.1, r.2.1, r.2.2)

/-- The three calls `genders_nodelist_clear`, `genders_attrlist_clear`,
`genders_vallist_clear`. -/
def genders_list_clear (count : genders → Nat) (handle : Option genders)
    (list : Option StrArray) : Option genders × Option StrArray × Int :=
  let c := _loaded_handle_error_check handle
  if c.2 < 0 then (c.1, list, -1)
  else match c.1 with
    | none => (none, list, -1)
    | some h => let r := _list_clear h list (count h); (some r.1, r.2.1, r.2.2)

/-- The three calls `genders_nodelist_destroy`, `genders_attrlist_destroy`,
`genders_vallist_destroy`. -/
def genders_list_destroy (count : genders → Nat) (handle : Option genders)
    (list : Option StrArray) : Option genders × Int :=
  let c := _loaded_handle_error_check handle
  if c.2 < 0 then (c.1, -1)
  else match c.1 with
    | none => (none, -1)
    | some h => let r := _list_destroy h list (count h); (some r.1, r.2)

/-- The call `genders_nodelist_create`. -/
def genders_nodelist_create (handle : Option genders) (list : Option (Option StrArray)) :
    Option genders × Option (Option StrArray) × Int :=
  genders_list_create (fun h => h.numnodes) handle list

/-- The call `genders_nodelist_clear`. -/
def genders_nodelist_clear (handle : Option genders) (list : Option StrArray) :
    Option genders × Option StrArray × Int :=
  genders_list_clear (fun h => h.numnodes) handle list

/-- The call `genders_nodelist_destroy`. -/
def genders_nodelist_destroy (handle : Option genders) (list : Option StrArray) :
    Option genders × Int :=
  genders_list_destroy (fun h => h.numnodes) handle list

/-- The call `genders_attrlist_create`. -/
def genders_attrlist_create (handle : Option genders) (list : Option (Option StrArray)) :
    Option genders × Option (Option StrArray) × Int :=
  genders_list_create (fun h => h.numattrs) handle list

/-- The call `genders_attrlist_clear`. -/
def genders_attrlist_clear (handle : Option genders) (list : Option StrArray) :
    Option genders × Option StrArray × Int :=
  genders_list_clear (fun h => h.numattrs) handle list

/-- The call `genders_attrlist_destroy`. -/
def genders_attrlist_destroy (handle : Option genders) (list : Option StrArray) :
    Option genders × Int :=
  genders_list_destroy (fun h => h.numattrs) handle list

/-- The call `genders_vallist_create`. -/
def genders_vallist_create (handle : Option genders) (list : Option (Option StrArray)) :
    Option genders × Option (Option StrArray) × Int :=
  genders_list_create (fun h => h.numattrs) handle list

/-- The call `genders_vallist_clear`. -/
def genders_vallist_clear (handle : Option genders) (list : Option StrArray) :
    Option genders × Option StrArray × Int :=
  genders_list_clear (fun h => h.numattrs) handle list

/-- The call `genders_vallist_destroy`. -/
def genders_vallist_destroy (handle : Option genders) (list : Option StrArray) :
    Option genders × Int :=
  genders_list_destroy (fun h => h.numattrs) handle list

/-- The call `genders_getnodename`; `node` is the caller's buffer. -/
def genders_getnodename (handle : Option genders) (node : Option (List Char)) (len : Int) :
    Option genders × Option (List Char) × Int :=
  let c := _loaded_handle_error_check handle
  if c.2 < 0 then (c.1, node, -1)
  else match c.1 with
    | none => (none, node, -1)
    | some h =>
      if node = none ∨ len ≤ 0 then
        (some { h with errnum := GENDERS_ERR_PARAMETERS }, node, -1)
      else if ((h.nodename.length : Int) + 1) > len then
        (some { h with errnum := GENDERS_ERR_OVERFLOW }, node, -1)
      else (some { h with errnum := GENDERS_ERR_SUCCESS }, some h.nodename, 0)

/-- The helper `_put_in_list`.  (A NULL `list` with `index < len` does not
occur: every caller rejects a NULL array when `len > 0`.) -/
def _put_in_list (h : genders) (str : List Char) (list : Option StrArray) (index : Nat)
    (len : Int) : genders × Option StrArray × Int :=
  if (index : Int) ≥ len then ({ h with errnum := GENDERS_ERR_OVERFLOW }, list, -1)
  else
    match list with
    | none => (h, none, -1)
    | some l =>
      match l index with
      | none => ({ h with errnum := GENDERS_ERR_NULLPTR }, list, -1)
      | some _ => (h, some (Function.update l index (some str)), 0)

/-- The selection step of `genders_getnodes` for one node (lines 1249-1267):
the handle and the flag `save`, with `none` for the flag at a `goto cleanup`;
the result `none` is undefined behaviour in `_get_val` or in the `strcmp`
on the scratch buffer. -/
def genders_getnodes_save (h : genders) (n : genders_node) (attr val : Option (List Char)) :
    Option (genders × Option Bool) :=
  match attr with
  | none => some (h, some true)
  | some a =>
    match _find_attrval_in_attrlist n.attrlist a with
    | none => some (h, some false)
    | some av =>
      match val with
      | none => some (h, some true)
      | some v =>
        match av.val with
        | none => some (h, some false)
        | some avval =>
          match _get_val h n avval with
          | none => none
          | some r =>
            if r.2 < 0 then some (r.1, none)
            else
              match value_test r.1 r.2 avval v with
              | none => none
              | some b => some (r.1, some b)

/-- The `while ((n = list_next(itr)))` loop of `genders_getnodes`; the last
component is `index` at the end of the loop, `none` at a `goto cleanup`.
The result `none` is undefined behaviour in the selection step. -/
def genders_getnodes_loop (attr val : Option (List Char)) (len : Int) :
    List genders_node → genders → Option StrArray → Nat →
    Option (genders × Option StrArray × Option Nat)
  | [], h, nodes, index => some (h, nodes, some index)
  | n :: rest, h, nodes, index =>
    match genders_getnodes_save h n attr val with
    | none => none
    | some (h1, none) => some (h1, nodes, none)
    | some (h1, some false) => genders_getnodes_loop attr val len rest h1 nodes index
    | some (h1, some true) =>
      let p := _put_in_list h1 n.name nodes index len
      if p.2.2 < 0 then some (p.1, p.2.1, none)
      else genders_getnodes_loop attr val len rest p.1 p.2.1 (index + 1)

/-- The query `genders_getnodes`: the pointee of the handle, the array and
the return value; `none` when the behaviour of the call is undefined (a
write or read past the end of the scratch buffer). -/
def genders_getnodes (handle : Option genders) (nodes : Option StrArray) (len : Int)
    (attr val : Option (List Char)) : Option (Option genders × Option StrArray × Int) :=
  let c := _loaded_handle_error_check handle
  if c.2 < 0 then some (c.1, nodes, -1)
  else match c.1 with
    | none => some (none, nodes, -1)
    | some h =>
      if (nodes.isNone ∧ len > 0) ∨ len < 0 then
        some (some { h with errnum := GENDERS_ERR_PARAMETERS }, nodes, -1)
      else
        match genders_getnodes_loop attr val len h.nodeslist h nodes 0 with
        | none => none
        | some (h1, nodes1, none) => some (some h1, nodes1, -1)
        | some (h1, nodes1, some index) =>
          some (some { h1 with errnum := GENDERS_ERR_SUCCESS }, nodes1, (index : Int))

/-- The lookup shared by the node queries: `hash_find(handle->node_index, node)`
followed by `list_find_first(l, _is_node, node)`; `none` when either is NULL. -/
def node_lookup (h : genders) (node : List Char) : Option genders_node :=
  match h.node_index with
  | none => none
  | some index =>
    match hash_find index node with
    | none => none
    | some l => l.find? (fun x => _is_node x node)

/-- State of the loops of `genders_getattr`; `index` is `none` at a `goto cleanup`. -/
structure GetattrOut where
  handle : genders
  attrs : Option StrArray
  vals : Option StrArray
  index : Option Nat

/-- The inner loop of `genders_getattr` over the attrvals of one list (lines
1327-1340).  `_put_in_list` copies the scratch buffer with `strcpy` only
after its two tests have passed; the result `none` is undefined behaviour
in `_get_val` or in that copy. -/
def genders_getattr_avs (n : genders_node) (len : Int) :
    List genders_attrval → genders → Option StrArray → Option StrArray → Nat →
    Option GetattrOut
  | [], h, attrs, vals, index => some ⟨h, attrs, vals, some index⟩
  | av :: rest, h, attrs, vals, index =>
    let p := _put_in_list h av.attr attrs index len
    if p.2.2 < 0 then some ⟨p.1, p.2.1, vals, none⟩
    else
      match vals, av.val with
      | some _, some avval =>
        match _get_val p.1 n avval with
        | none => none
        | some r =>
          if r.2 < 0 then some ⟨r.1, p.2.1, vals, none⟩
          else
            let str := if r.2 ≠ 0 then valbuf_string r.1 else some avval
            let q := _put_in_list r.1 (str.getD []) vals index len
            if q.2.2 < 0 then some ⟨q.1, p.2.1, q.2.1, none⟩
            else
              match str with
              | none => none
              | some _ => genders_getattr_avs n len rest q.1 p.2.1 q.2.1 (index + 1)
      | _, _ => genders_getattr_avs n len rest p.1 p.2.1 vals (index + 1)

/-- The outer loop of `genders_getattr` over the attrval lists of the node (lines 1319-1342). -/
def genders_getattr_lists (n : genders_node) (len : Int) :
    List (List genders_attrval) → genders → Option StrArray → Option StrArray → Nat →
    Option GetattrOut
  | [], h, attrs, vals, index => some ⟨h, attrs, vals, some index⟩
  | attrvals :: rest, h, attrs, vals, index =>
    match genders_getattr_avs n len attrvals h attrs vals index with
    | none => none
    | some ⟨h1, attrs1, vals1, none⟩ => some ⟨h1, attrs1, vals1, none⟩
    | some ⟨h1, attrs1, vals1, some index1⟩ =>
      genders_getattr_lists n len rest h1 attrs1 vals1 index1

/-- The query `genders_getattr`: the pointee of the handle, the two arrays
and the return value; `none` when the behaviour of the call is undefined. -/
def genders_getattr (handle : Option genders) (attrs vals : Option StrArray) (len : Int)
    (node : Option (List Char)) :
    Option (Option genders × Option StrArray × Option StrArray × Int) :=
  let c := _loaded_handle_error_check handle
  if c.2 < 0 then some (c.1, attrs, vals, -1)
  else match c.1 with
    | none => some (none, attrs, vals, -1)
    | some h =>
      if (attrs.isNone ∧ len > 0) ∨ len < 0 then
        some (some { h with errnum := GENDERS_ERR_PARAMETERS }, attrs, vals, -1)
      else
        match node_lookup h (node.getD h.nodename) with
        | none => some (some { h with errnum := GENDERS_ERR_NOTFOUND }, attrs, vals, -1)
        | some n =>
          match genders_getattr_lists n len n.attrlist h attrs vals 0 with
          | none => none
          | some ⟨h1, attrs1, vals1, none⟩ => some (some h1, attrs1, vals1, -1)
          | some ⟨h1, attrs1, vals1, some index⟩ =>
            some (some { h1 with errnum := GENDERS_ERR_SUCCESS }, attrs1, vals1, (index : Int))

/-- The loop of `genders_getattr_all` over the attribute-name list. -/
def genders_getattr_all_loop (len : Int) :
    List (List Char) → genders → Option StrArray → Nat → genders × Option StrArray × Option Nat
  | [], h, attrs, index => (h, attrs, some index)
  | attr :: rest, h, attrs, index =>
    let p := _put_in_list h attr attrs index len
    if p.2.2 < 0 then (p.1, p.2.1, none)
    else genders_getattr_all_loop len rest p.1 p.2.1 (index + 1)

/-- The query `genders_getattr_all`. -/
def genders_getattr_all (handle : Option genders) (attrs : Option StrArray) (len : Int) :
    Option genders × Option StrArray × Int :=
  let c := _loaded_handle_error_check handle
  if c.2 < 0 then (c.1, attrs, -1)
  else match c.1 with
    | none => (none, attrs, -1)
    | some h =>
      if (attrs.isNone ∧ len > 0) ∨ len < 0 then
        (some { h with errnum := GENDERS_ERR_PARAMETERS }, attrs, -1)
      else if (h.numattrs : Int) > len then
        (some { h with errnum := GENDERS_ERR_OVERFLOW }, attrs, -1)
      else
        match genders_getattr_all_loop len h.attrslist h attrs 0 with
        | (h1, attrs1, none) => (some h1, attrs1, -1)
        | (h1, attrs1, some index) =>
          (some { h1 with errnum := GENDERS_ERR_SUCCESS }, attrs1, (index : Int))

/-- The query `genders_testattr`; `val` is the caller's buffer.  The size
test is the C expression `((rv > 0 && strlen(valbuf) + 1) > len) ||
(strlen(av->val) + 1) > len`, whose first operand compares the truth value
of the conjunction with `len`; it reads the scratch buffer with `strlen`
when `rv > 0`, as the `strcpy` after it does.  `none` is a call whose
behaviour is undefined (a write or read past the end of the scratch
buffer). -/
def genders_testattr (handle : Option genders) (node : Option (List Char))
    (attr : Option (List Char)) (val : Option (List Char)) (len : Int) :
    Option (Option genders × Option (List Char) × Int) :=
  let c := _loaded_handle_error_check handle
  if c.2 < 0 then some (c.1, val, -1)
  else match c.1 with
    | none => some (none, val, -1)
    | some h =>
      match attr with
      | none => some (some { h with errnum := GENDERS_ERR_PARAMETERS }, val, -1)
      | some a =>
        if val ≠ none ∧ len ≤ 0 then
          some (some { h with errnum := GENDERS_ERR_PARAMETERS }, val, -1)
        else
          match node_lookup h (node.getD h.nodename) with
          | none => some (some { h with errnum := GENDERS_ERR_NOTFOUND }, val, -1)
          | some n =>
            match _find_attrval_in_attrlist n.attrlist a with
            | none => some (some { h with errnum := GENDERS_ERR_SUCCESS }, val, 0)
            | some av =>
              match val, av.val with
              | some _, some avval =>
                match _get_val h n avval with
                | none => none
                | some r =>
                  if r.2 < 0 then some (some r.1, val, -1)
                  else
                    match (if r.2 > 0 then valbuf_string r.1 else some avval) with
                    | none => none
                    | some str =>
                      if ((if r.2 > 0 ∧ (str.length + 1 ≠ 0) then (1 : Int) else 0) > len)
                          ∨ ((avval.length : Int) + 1) > len then
                        some (some { r.1 with errnum := GENDERS_ERR_OVERFLOW }, val, -1)
                      else
                        some (some { r.1 with errnum := GENDERS_ERR_SUCCESS }, some str, 1)
              | _, _ => some (some { h with errnum := GENDERS_ERR_SUCCESS }, val, 1)

/-- The query `genders_testattrval`; `none` is a call whose behaviour is
undefined (a write or read past the end of the scratch buffer). -/
def genders_testattrval (handle : Option genders) (node : Option (List Char))
    (attr : Option (List Char)) (val : Option (List Char)) : Option (Option genders × Int) :=
  let c := _loaded_handle_error_check handle
  if c.2 < 0 then some (c.1, -1)
  else match c.1 with
    | none => some (none, -1)
    | some h =>
      match attr with
      | none => some (some { h with errnum := GENDERS_ERR_PARAMETERS }, -1)
      | some a =>
        match node_lookup h (node.getD h.nodename) with
        | none => some (some { h with errnum := GENDERS_ERR_NOTFOUND }, -1)
        | some n =>
          match _find_attrval_in_attrlist n.attrlist a with
          | none => some (some { h with errnum := GENDERS_ERR_SUCCESS }, 0)
          | some av =>
            match val with
            | none => some (some { h with errnum := GENDERS_ERR_SUCCESS }, 1)
            | some v =>
              match av.val with
              | none => some (some { h with errnum := GENDERS_ERR_SUCCESS }, 0)
              | some avval =>
                match _get_val h n avval with
                | none => none
                | some r =>
                  if r.2 < 0 then some (some r.1, -1)
                  else
                    match value_test r.1 r.2 avval v with
                    | none => none
                    | some true => some (some { r.1 with errnum := GENDERS_ERR_SUCCESS }, 1)
                    | some false => some (some { r.1 with errnum := GENDERS_ERR_SUCCESS }, 0)

/-- The query `genders_isnode`. -/
def genders_isnode (handle : Option genders) (node : Option (List Char)) :
    Option genders × Int :=
  let c := _loaded_handle_error_check handle
  if c.2 < 0 then (c.1, -1)
  else match c.1 with
    | none => (none, -1)
    | some h =>
      match h.node_index.bind (fun index => hash_find index (node.getD h.nodename)) with
      | none => (some h, 0)
      | some l =>
        (some { h with errnum := GENDERS_ERR_SUCCESS },
         if (l.find? (fun x => _is_node x (node.getD h.nodename))).isSome then 1 else 0)

/-- The query `genders_isattr`. -/
def genders_isattr (handle : Option genders) (attr : Option (List Char)) :
    Option genders × Int :=
  let c := _loaded_handle_error_check handle
  if c.2 < 0 then (c.1, -1)
  else match c.1 with
    | none => (none, -1)
    | some h =>
      match attr with
      | none => (some { h with errnum := GENDERS_ERR_PARAMETERS }, -1)
      | some a =>
        (some { h with errnum := GENDERS_ERR_SUCCESS },
         if (h.attrslist.find? (fun x => _is_str x a)).isSome then 1 else 0)

/-- The `while ((n = list_next(itr)))` loop of `genders_isattrval`: the
handle and `retval` at the exit (1 found, 0 end of list, -1 failure of
`_get_val`); `none` is undefined behaviour in `_get_val` or in the `strcmp`
on the scratch buffer. -/
def genders_isattrval_loop (attr val : List Char) :
    List genders_node → genders → Option (genders × Int)
  | [], h => some ({ h with errnum := GENDERS_ERR_SUCCESS }, 0)
  | n :: rest, h =>
    match _find_attrval_in_attrlist n.attrlist attr with
    | none => genders_isattrval_loop attr val rest h
    | some av =>
      match av.val with
      | none => genders_isattrval_loop attr val rest h
      | some avval =>
        match _get_val h n avval with
        | none => none
        | some r =>
          if r.2 < 0 then some (r.1, -1)
          else
            match value_test r.1 r.2 avval val with
            | none => none
            | some true => some (r.1, 1)
            | some false => genders_isattrval_loop attr val rest r.1

/-- The query `genders_isattrval`; `none` is a call whose behaviour is
undefined. -/
def genders_isattrval (handle : Option genders) (attr val : Option (List Char)) :
    Option (Option genders × Int) :=
  let c := _loaded_handle_error_check handle
  if c.2 < 0 then some (c.1, -1)
  else match c.1 with
    | none => some (none, -1)
    | some h =>
      match attr, val with
      | some a, some v =>
        match genders_isattrval_loop a v h.nodeslist h with
        | none => none
        | some r => some (some r.1, r.2)
      | _, _ => some (some { h with errnum := GENDERS_ERR_PARAMETERS }, -1)

/-- The accessor `genders_errnum`. -/
def genders_errnum (handle : Option genders) : Int :=
  match handle with
  | none => GENDERS_ERR_NULLHANDLE
  | some h => if h.magic ≠ GENDERS_MAGIC_NUM then GENDERS_ERR_MAGIC else h.errnum

/-- The setter `genders_set_errnum` (a `void` function: the pointee afterwards). -/
def genders_set_errnum (handle : Option genders) (errnum : Int) : Option genders :=
  if _handle_error_check handle < 0 then handle
  else
    match handle with
    | none => none
    | some h =>
      if errnum ≥ GENDERS_ERR_SUCCESS ∧ errnum ≤ GENDERS_ERR_ERRNUMRANGE then
        some { h with errnum := errnum }
      else some { h with errnum := GENDERS_ERR_INTERNAL }

/-- The destructor `genders_handle_destroy`: its return value and the pointee
as the call leaves it at `free(handle)`.  The three lists and the index are
released and their pointers set to NULL (empty here); `valbuf` is freed but
its pointer is not reset; the magic number becomes `~GENDERS_MAGIC_NUM`
(32 bits). -/
def genders_handle_destroy (handle : Option genders) : Option genders × Int :=
  if _handle_error_check handle < 0 then (handle, -1)
  else
    match handle with
    | none => (none, -1)
    | some h =>
      (some { (_initialize_handle_info h) with
                magic := 2 ^ 32 - 1 - GENDERS_MAGIC_NUM, is_loaded := 0, nodeslist := [],
                attrvalslist := [], attrslist := [], node_index := none }, 0)

/-! ## Error messages -/

/-- The table `errmsg` (lines 139-155).  In the C initialiser no comma stands
between the literals "unknown internal error" and "error number out of
range"; adjacent string literals are one string, so the table ends with their
concatenation and has 14 entries. -/
def errmsg : List (List Char) :=
  [ "success".toList,
    "genders handle is null".toList,
    "error opening genders file".toList,
    "error reading genders file".toList,
    "genders file parse error".toList,
    "genders data not loaded".toList,
    "genders data already loaded".toList,
    "array or string passed in not large enough to store result".toList,
    "incorrect parameters passed in".toList,
    "null pointer reached in list".toList,
    "node not found".toList,
    "out of memory".toList,
    "genders handle magic number incorrect, improper handle passed in".toList,
    "unknown internal error".toList ++ "error number out of range".toList ]

/-- The lookup `genders_strerror`: the entry `errmsg[i]` it returns, `none`
when the index `i` is past the end of the table. -/
def genders_strerror (errnum : Int) : Option (List Char) :=
  if errnum ≥ GENDERS_ERR_SUCCESS ∧ errnum ≤ GENDERS_ERR_ERRNUMRANGE then
    errmsg[errnum.toNat]?
  else errmsg[GENDERS_ERR_ERRNUMRANGE.toNat]?

/-! ## Lint -/

/-- State of the read loop of `genders_parse`.  `ret` is the result of the
`_readline` call that ended the loop; `ok = false` is the `goto cleanup`
inside the loop. -/
structure ParseLoop where
  handle : genders
  line_count : Nat
  errcount : Int
  stream : List Diag
  debugnodeslist : List genders_node
  debugattrvalslist : List (List genders_attrval)
  ret : Int
  ok : Bool
deriving DecidableEq, Repr

/-- The read loop of `genders_parse` (lines 1611-1619). -/
def genders_parse_loop (env : Env) : List (Int × List Char) → ParseLoop → ParseLoop
  | [], st => { st with ret := 0 }
  | (ret, buf) :: rest, st =>
    let r := _readline st.handle ret GENDERS_READLINE_BUFLEN
    if r.2 > 0 then
      let p := _parse_line env r.1 buf st.line_count st.stream st.debugnodeslist
        st.debugattrvalslist
      if p.retval < 0 then
        { st with handle := p.handle, stream := p.stream, debugnodeslist := p.debugnodeslist,
                  debugattrvalslist := p.debugattrvalslist, ok := false }
      else
        genders_parse_loop env rest
          { st with handle := p.handle, line_count := st.line_count + 1,
                    errcount := st.errcount + p.retval, stream := p.stream,
                    debugnodeslist := p.debugnodeslist,
                    debugattrvalslist := p.debugattrvalslist }
    else { st with handle := r.1, ret := r.2 }

/-- Result of `genders_parse`: the handle, what the caller's stream holds
(`none` when the caller passed NULL), what `stderr` holds, and the return value. -/
structure LintOut where
  handle : Option genders
  stream : Option (List Diag)
  stderr : List Diag
  retval : Int
deriving DecidableEq, Repr

/-- The function `genders_parse` (lint).  `stream` is the caller's stream
with what it already holds, NULL (`none`) standing for `stderr`; the two
messages of lines 1622 and 1627 always go to `stderr`. -/
def genders_parse (env : Env) (handle : Option genders) (filename : Option (List Char))
    (stream : Option (List Diag)) (stderr : List Diag) : LintOut :=
  if _handle_error_check handle < 0 then ⟨handle, stream, stderr, -1⟩
  else
    match handle with
    | none => ⟨none, stream, stderr, -1⟩
    | some h =>
      match env.files (filename.getD GENDERS_DEFAULT_FILE) with
      | none => ⟨some { h with errnum := GENDERS_ERR_OPEN }, stream, stderr, -1⟩
      | some file =>
        let st := genders_parse_loop env file ⟨h, 1, 0, stream.getD stderr, [], [], 0, true⟩
        let stream1 := stream.map (fun _ => st.stream)
        let stderr1 := if stream.isSome then stderr else st.stream
        if st.ok = false then ⟨some st.handle, stream1, stderr1, -1⟩
        else if st.ret < 0 ∧ st.handle.errnum = GENDERS_ERR_OVERFLOW then
          ⟨some st.handle, stream1, stderr1 ++ [Diag.exceeds_length st.line_count], -1⟩
        else if st.debugnodeslist.length = 0 then
          ⟨some st.handle, stream1, stderr1 ++ [Diag.no_nodes], -1⟩
        else
          ⟨some { st.handle with errnum := GENDERS_ERR_SUCCESS }, stream1, stderr1, st.errcount⟩

/-! ## Specification-level notions -/

/-- The expansion of a value as the specification words it: scanning left to
right, `%%` yields `%` and `%n` yields the node name (two bytes consumed),
every other byte, a lone `%` included, is copied. -/
def expandSpec (name : List Char) : List Char → List Char
  | [] => []
  | [c] => [c]
  | c :: d :: rest =>
    if c = '%' ∧ d = '%' then '%' :: expandSpec name rest
    else if c = '%' ∧ d = 'n' then name ++ expandSpec name rest
    else c :: expandSpec name (d :: rest)

/-- A loaded handle: the outcome of a successful `genders_load_data` on a
freshly created handle (whatever error code earlier failures left in it), up
to the two fields queries overwrite, `errnum` and `valbuf`. -/
def LoadedHandle (env : Env) (h : genders) : Prop :=
  ∃ (e : Int) (filename : Option (List Char)) (hL : genders),
    genders_load_data env (some { genders_handle_create with errnum := e }) filename
      = (some hL, 0) ∧
    h = { hL with errnum := h.errnum, valbuf := h.valbuf }

/-- The invariant of a node list: names pairwise distinct, and no attribute
name twice among the attrval lists of one node. -/
def NodesInv (l : List genders_node) : Prop :=
  (l.map (fun n => n.name)).Nodup ∧
  ∀ n ∈ l, (n.attrlist.flatten.map (fun av => av.attr)).Nodup

/-- The fields of the handle that parsing a line never changes. -/
def SameCore (h h1 : genders) : Prop :=
  h1.magic = h.magic ∧ h1.is_loaded = h.is_loaded

/-- The lookup of a name through an index: `hash_find`, then the first record
of the entry that bears the name. -/
def index_lookup (index : hash_t) (name : List Char) : Option genders_node :=
  match hash_find index name with
  | none => none
  | some l => l.find? (fun x => _is_node x name)

/-- Every entry of the index is a non-empty list of records named by its key. -/
def IndexInv (index : hash_t) : Prop :=
  ∀ k l, hash_find index k = some l → l ≠ [] ∧ ∀ x ∈ l, x.name = k

/-- The facts about a loaded handle that the query proofs rest on. -/
structure LoadedInv (h : genders) : Prop where
  magic : h.magic = GENDERS_MAGIC_NUM
  loaded : h.is_loaded ≠ 0
  numnodes : h.numnodes = h.nodeslist.length
  nodes : NodesInv h.nodeslist
  nonempty : h.nodeslist ≠ []
  lookup : ∀ name, node_lookup h name = h.nodeslist.find? (fun x => _is_node x name)

/-- The cached count of every node of the list is the number of attrvals in
the attrval lists the node references, and is at most `maxattrs`. -/
def CountInv (maxattrs : Nat) (l : List genders_node) : Prop :=
  ∀ n ∈ l, n.attrcount = (n.attrlist.map List.length).sum ∧ n.attrcount ≤ maxattrs

/-- The handle `h1` is `h` up to the error code. -/
def ErrFrame (h h1 : genders) : Prop := h1 = { h with errnum := h1.errnum }

/-- The handle `h1` is `h` up to the error code and the scratch buffer: the
magic number, the loaded flag, the six statistics, the host name, the three
tables and the node index are those of `h`. -/
def QueryFrame (h h1 : genders) : Prop :=
  h1 = { h with errnum := h1.errnum, valbuf := h1.valbuf }

/-- The names of a sequence in order of first appearance, after the names
already `seen`. -/
def firstSeen (seen : List (List Char)) : List (List Char) → List (List Char)
  | [] => seen
  | a :: rest => if a ∈ seen then firstSeen seen rest else firstSeen (seen ++ [a]) rest

/-- No byte of the attribute name is `=`, `,`, a space or a tab. -/
def attrCharsOk (a : List Char) : Prop :=
  ∀ c ∈ a, c ≠ '=' ∧ c ≠ ',' ∧ c ≠ ' ' ∧ c ≠ '\t'

/-- The lines of a file: the results of the line reader up to the first that
is not a line (end of file, read error or over-long line). -/
def fileLines (file : List (Int × List Char)) : List (List Char) :=
  (file.takeWhile (fun r => decide (0 < r.1 ∧ r.1 < GENDERS_READLINE_BUFLEN - 1))).map
    (fun r => r.2)

/-- The node-range token of a line (steps 1 to 3 of the line format): the
line is cut at the first `#` and stripped of trailing white space; an empty
line has no token; otherwise leading white space is skipped and the token
runs to the first space or tab. -/
def lineNodeToken (line : List Char) : Option (List Char) :=
  if ((line.takeWhile (fun c => c != '#')).reverse.dropWhile isspace).reverse = [] then none
  else
    some (strsep
      (((line.takeWhile (fun c => c != '#')).reverse.dropWhile isspace).reverse.dropWhile
        isspace)).1

/-- The node names a line lists: the expansion of its node-range token. -/
def lineNodeNames (env : Env) (line : List Char) : List (List Char) :=
  match lineNodeToken line with
  | none => []
  | some tok => (env.hostlist tok).getD []

/-- The attribute names of a line (steps 4 and 5 of the line format): what
follows the node-range token, leading white space skipped, is split on `,`
and each element is cut at its first `=`; the left sides, in order. -/
def lineAttrNames (line : List Char) : List (List Char) :=
  if ((line.takeWhile (fun c => c != '#')).reverse.dropWhile isspace).reverse = [] then []
  else
    match (strsep
      (((line.takeWhile (fun c => c != '#')).reverse.dropWhile isspace).reverse.dropWhile
        isspace)).2 with
    | none => []
    | some l => (strtok_r (l.dropWhile isspace) []).map (fun tok => (split_attr tok).1)

/-- The pairs (node name, attribute name) that a line gives: each node name
it lists with each attribute name it holds, with repetition. -/
def lineGives (env : Env) (line : List Char) : List (List Char × List Char) :=
  ((lineNodeNames env line).map (fun N => (lineAttrNames line).map (fun A => (N, A)))).flatten

/-- Some node would receive the same attribute name twice from the lines:
a pair occurs twice among those the lines give, on one line or on two. -/
def givesAttrTwice (env : Env) (lines : List (List Char)) : Prop :=
  ¬ ((lines.map (lineGives env)).flatten).Nodup

/-- The node list gives the node named `N` the attribute `A`: the record
found for `N` has an attrval named `A` in one of its attrval lists. -/
def carriesAttr (l : List genders_node) (N A : List Char) : Prop :=
  ∃ n, l.find? (fun x => _is_node x N) = some n ∧
    A ∈ n.attrlist.flatten.map (fun av => av.attr)

/-- What the loader maintains about the attribute tables and the statistics:
the attribute-name list holds the names of the attrval lists in order of
first appearance and `numattrs` is its length; every attrval list of a node
is in the attrval-list table; `maxattrlen` and `maxnodelen` bound the names;
no attribute name has a forbidden byte or occurs twice in one attrval list;
`maxattrs` is 0 or the count of some node. -/
structure TablesInv (h : genders) : Prop where
  attrs : h.attrslist = firstSeen [] (h.attrvalslist.flatten.map (fun av => av.attr))
  numattrs : h.numattrs = h.attrslist.length
  groups : ∀ n ∈ h.nodeslist, ∀ g ∈ n.attrlist, g ∈ h.attrvalslist
  attrlen : ∀ g ∈ h.attrvalslist, ∀ av ∈ g, av.attr.length ≤ h.maxattrlen
  chars : ∀ g ∈ h.attrvalslist, ∀ av ∈ g, attrCharsOk av.attr
  nodup : ∀ g ∈ h.attrvalslist, (g.map (fun av => av.attr)).Nodup
  nodelen : ∀ n ∈ h.nodeslist, n.name.length ≤ h.maxnodelen
  maxattained : h.maxattrs = 0 ∨ ∃ n ∈ h.nodeslist, n.attrcount = h.maxattrs

/-- An expander for the worked examples: `n[1-2]` yields `n1, n2`,
`nodename[1-2]` yields `nodename1, nodename2`, every other token itself. -/
def exampleHostlist (tok : List Char) : Option (List (List Char)) :=
  if tok = "n[1-2]".toList then some ["n1".toList, "n2".toList]
  else if tok = "nodename[1-2]".toList then some ["nodename1".toList, "nodename2".toList]
  else some [tok]

/-- An environment holding one file, `/etc/genders`, made of the given lines
(each read with its newline), on the host `localhost`. -/
def exampleEnv (lines : List String) : Env :=
  { files := fun name =>
      if name = GENDERS_DEFAULT_FILE then
        some (lines.map (fun l => (((l.toList.length : Nat) : Int) + 1, l.toList ++ ['\n'])))
      else none,
    hostlist := exampleHostlist,
    gethostname := some "localhost".toList }

/-- The handle after `create` and `load` of the default file in `exampleEnv lines`. -/
def exampleLoad (lines : List String) : Option genders × Int :=
  genders_load_data (exampleEnv lines) (some genders_handle_create) none

/-- The pointee of the handle after `exampleLoad` (the created handle when
the pointer is NULL, which does not occur). -/
def exampleHandle (lines : List String) : genders :=
  (exampleLoad lines).1.getD genders_handle_create

/-- An environment holding one file, `/etc/genders`, given by the successive
results of the line reader (return value and buffer), on the host `localhost`. -/
def exampleReads (reads : List (Int × List Char)) : Env :=
  { files := fun name => if name = GENDERS_DEFAULT_FILE then some reads else none,
    hostlist := exampleHostlist,
    gethostname := some "localhost".toList }

/-- Lint of the default file in `exampleEnv lines` on a freshly created
handle, the diagnostics going to an empty caller stream. -/
def exampleLint (lines : List String) : LintOut :=
  genders_parse (exampleEnv lines) (some genders_handle_create) none (some []) []

/-- A caller array whose slots are all allocated and empty. -/
def blankArray : StrArray := fun _ => some []

/-! ## Handle checks -/

theorem handle_check_valid (h : genders) (hm : h.magic = GENDERS_MAGIC_NUM) :
    _handle_error_check (some h) = 0 := by
  simp [_handle_error_check, hm]

theorem loaded_check_unloaded (h : genders) (hm : h.magic = GENDERS_MAGIC_NUM)
    (hu : h.is_loaded = 0) :
    _loaded_handle_error_check (some h)
      = (some { h with errnum := GENDERS_ERR_NOTLOADED }, -1) := by
  simp [_loaded_handle_error_check, handle_check_valid h hm, hu]

theorem loaded_check_loaded (h : genders) (hm : h.magic = GENDERS_MAGIC_NUM)
    (hl : h.is_loaded ≠ 0) :
    _loaded_handle_error_check (some h) = (some h, 0) := by
  simp [_loaded_handle_error_check, handle_check_valid h hm, hl]

theorem unloaded_check_loaded (h : genders) (hm : h.magic = GENDERS_MAGIC_NUM)
    (hl : h.is_loaded ≠ 0) :
    _unloaded_handle_error_check (some h)
      = (some { h with errnum := GENDERS_ERR_ISLOADED }, -1) := by
  simp [_unloaded_handle_error_check, handle_check_valid h hm, hl]

/-- On a loaded handle `genders_load_data` runs its cleanup block on the
handle marked `ISLOADED`. -/
theorem load_on_loaded (env : Env) (h : genders) (filename : Option (List Char))
    (hm : h.magic = GENDERS_MAGIC_NUM) (hl : h.is_loaded ≠ 0) :
    genders_load_data env (some h) filename
      = (some (genders_load_data_cleanup { h with errnum := GENDERS_ERR_ISLOADED }), -1) := by
  simp [genders_load_data, unloaded_check_loaded h hm hl]

/-! ## What load establishes -/

theorem is_node_iff (x : genders_node) (key : List Char) : _is_node x key = true ↔ x.name = key := by
  simp [_is_node]

theorem insert_node_spec (nodelist : List genders_node) (node : List Char)
    (hinv : NodesInv nodelist) :
    NodesInv (_insert_node nodelist node).1 ∧
    (_insert_node nodelist node).2 ∈ (_insert_node nodelist node).1 ∧
    (_insert_node nodelist node).2.name = node := by
  unfold _insert_node
  cases hf : nodelist.find? (fun x => _is_node x node) with
  | some n =>
    have hp : _is_node n node = true :=
      @List.find?_some _ (fun x => _is_node x node) n nodelist hf
    exact ⟨hinv, List.mem_of_find?_eq_some hf, (is_node_iff n node).mp hp⟩
  | none =>
    have hnot : ∀ x ∈ nodelist, x.name ≠ node := by
      intro x hx hxn
      have := List.find?_eq_none.mp hf x hx
      exact this ((is_node_iff x node).mpr hxn)
    refine ⟨⟨?_, ?_⟩, by simp, rfl⟩
    · simp only [List.map_append, List.map_cons, List.map_nil]
      rw [List.nodup_append]
      refine ⟨hinv.1, by simp, ?_⟩
      intro a ha hb
      simp at hb
      obtain ⟨x, hx, rfl⟩ := List.mem_map.mp ha
      exact hnot x hx hb
    · intro n hn
      rcases List.mem_append.mp hn with h1 | h1
      · exact hinv.2 n h1
      · simp at h1
        subst h1
        simp

theorem node_store_names (l : List genders_node) (n : genders_node) :
    (node_store l n).map (fun x => x.name) = l.map (fun x => x.name) := by
  induction l with
  | nil => rfl
  | cons x rest ih =>
    unfold node_store
    by_cases hx : _is_node x n.name = true
    · simp [hx, ((is_node_iff x n.name).mp hx)]
    · simp [hx, ih]

theorem node_store_mem (l : List genders_node) (n x : genders_node)
    (hx : x ∈ node_store l n) : x = n ∨ x ∈ l := by
  induction l with
  | nil => simp [node_store] at hx
  | cons y rest ih =>
    unfold node_store at hx
    by_cases hy : _is_node y n.name = true
    · simp [hy] at hx
      rcases hx with h | h
      · exact Or.inl h
      · exact Or.inr (List.mem_cons_of_mem _ h)
    · simp [hy] at hx
      rcases hx with h | h
      · exact Or.inr (h ▸ List.mem_cons_self _ _)
      · rcases ih h with h | h
        · exact Or.inl h
        · exact Or.inr (List.mem_cons_of_mem _ h)

theorem node_store_inv (l : List genders_node) (n : genders_node) (hinv : NodesInv l)
    (hn : (n.attrlist.flatten.map (fun av => av.attr)).Nodup) : NodesInv (node_store l n) := by
  refine ⟨by rw [node_store_names]; exact hinv.1, ?_⟩
  intro x hx
  rcases node_store_mem l n x hx with h | h
  · exact h ▸ hn
  · exact hinv.2 x h

theorem duplicate_attr_check_zero (attrlist : List (List genders_attrval))
    (avs : List genders_attrval) (h : _duplicate_attr_check attrlist avs ≠ 1) :
    ∀ av ∈ avs, ∀ g ∈ attrlist, ∀ x ∈ g, x.attr ≠ av.attr := by
  induction avs with
  | nil => simp
  | cons a rest ih =>
    unfold _duplicate_attr_check at h
    by_cases hf : (attrlist.find? (fun x => _is_attr_in_attrlist x a.attr)).isSome = true
    · simp [hf] at h
    · simp only [hf, if_false] at h
      intro av hav g hg x hx hxa
      rcases List.mem_cons.mp hav with rfl | hmem
      · apply hf
        rw [List.find?_isSome]
        refine ⟨g, hg, ?_⟩
        unfold _is_attr_in_attrlist
        rw [List.find?_isSome]
        exact ⟨x, hx, by simp [_is_attr_in_attrvals, hxa]⟩
      · exact ih h av hmem g hg x hx hxa

theorem attrs_nodup_append (attrlist : List (List genders_attrval))
    (avs : List genders_attrval)
    (h1 : (attrlist.flatten.map (fun av => av.attr)).Nodup)
    (h2 : (avs.map (fun av => av.attr)).Nodup)
    (h3 : _duplicate_attr_check attrlist avs ≠ 1) :
    ((attrlist ++ [avs]).flatten.map (fun av => av.attr)).Nodup := by
  simp only [List.flatten_append, List.map_append, List.flatten_cons, List.flatten_nil,
    List.append_nil]
  rw [List.nodup_append]
  refine ⟨h1, h2, ?_⟩
  intro a ha hb
  obtain ⟨x, hx, rfl⟩ := List.mem_map.mp ha
  obtain ⟨y, hy, hyx⟩ := List.mem_map.mp hb
  obtain ⟨g, hg, hxg⟩ := List.mem_flatten.mp hx
  exact duplicate_attr_check_zero attrlist avs h3 y hy g hg x hxg hyx.symm

theorem sameCore_refl (h : genders) : SameCore h h := ⟨rfl, rfl⟩

theorem sameCore_trans {a b c : genders} (h1 : SameCore a b) (h2 : SameCore b c) :
    SameCore a c := ⟨h2.1.trans h1.1, h2.2.trans h1.2⟩

theorem insert_attr_frame (h : genders) (a : List Char) :
    SameCore h (_insert_attr h a).1 ∧ (_insert_attr h a).1.nodeslist = h.nodeslist := by
  unfold _insert_attr
  split <;> simp [SameCore]

theorem parse_line_attr_inv (tok : List Char) (st : AttrsOut)
    (hnd : (st.attrvals.map (fun av => av.attr)).Nodup)
    (hok : (_parse_line_attr 0 tok st).ok = true) :
    ((_parse_line_attr 0 tok st).attrvals.map (fun av => av.attr)).Nodup ∧
    SameCore st.handle (_parse_line_attr 0 tok st).handle ∧
    (_parse_line_attr 0 tok st).handle.nodeslist = st.handle.nodeslist := by
  unfold _parse_line_attr at hok ⊢
  by_cases hfind : (st.attrvals.find?
      (fun av => _is_attr_in_attrvals av (split_attr tok).1)).isSome = true
  · simp [hfind] at hok
  · have hnd1 : ((st.attrvals ++ [(⟨(split_attr tok).1, (split_attr tok).2⟩ : genders_attrval)]).map
        (fun av => av.attr)).Nodup := by
      simp only [List.map_append, List.map_cons, List.map_nil]
      rw [List.nodup_append]
      refine ⟨hnd, by simp, ?_⟩
      intro a ha hb
      simp at hb
      obtain ⟨x, hx, rfl⟩ := List.mem_map.mp ha
      apply hfind
      rw [List.find?_isSome]
      exact ⟨x, hx, by simp [_is_attr_in_attrvals, hb]⟩
    have hf := insert_attr_frame st.handle (split_attr tok).1
    simp only [hfind, if_true, Bool.false_eq_true, if_false]
    cases hv : (split_attr tok).2 with
    | none => exact ⟨hnd1 |> (by simpa [hv] using ·), ⟨hf.1.1, hf.1.2⟩, hf.2⟩
    | some v =>
      by_cases hs : strstr v "%n".toList = true
      · simp only [hs, if_true]
        exact ⟨by simpa [hv] using hnd1, ⟨hf.1.1, hf.1.2⟩, hf.2⟩
      · simp only [hs, if_false]
        exact ⟨by simpa [hv] using hnd1, ⟨hf.1.1, hf.1.2⟩, hf.2⟩

theorem parse_line_attrs_inv (toks : List (List Char)) (st : AttrsOut)
    (hnd : (st.attrvals.map (fun av => av.attr)).Nodup)
    (hok : (_parse_line_attrs 0 toks st).ok = true) :
    ((_parse_line_attrs 0 toks st).attrvals.map (fun av => av.attr)).Nodup ∧
    SameCore st.handle (_parse_line_attrs 0 toks st).handle ∧
    (_parse_line_attrs 0 toks st).handle.nodeslist = st.handle.nodeslist := by
  induction toks generalizing st with
  | nil => exact ⟨hnd, sameCore_refl _, rfl⟩
  | cons tok rest ih =>
    unfold _parse_line_attrs at hok ⊢
    by_cases h1 : (_parse_line_attr 0 tok st).ok = true
    · simp only [h1, if_true] at hok ⊢
      have s1 := parse_line_attr_inv tok st hnd h1
      have s2 := ih _ s1.1 hok
      exact ⟨s2.1, sameCore_trans s1.2.1 s2.2.1, s2.2.2.trans s1.2.2⟩
    · simp only [h1, if_false] at hok
      exact absurd hok h1

theorem parse_line_node_inv (attrvals : Option (List genders_attrval)) (node : List Char)
    (st : NodesOut) (hinv : NodesInv st.nodelist)
    (havs : ∀ avs, attrvals = some avs → (avs.map (fun av => av.attr)).Nodup)
    (hex : (_parse_line_node 0 attrvals node st).exit = none) :
    NodesInv (_parse_line_node 0 attrvals node st).nodelist ∧
    SameCore st.handle (_parse_line_node 0 attrvals node st).handle ∧
    (_parse_line_node 0 attrvals node st).handle.nodeslist = st.handle.nodeslist := by
  unfold _parse_line_node at hex ⊢
  by_cases h1 : node.length > MAXHOSTNAMELEN
  · simp [h1] at hex
  · by_cases h2 : strchr node '.' = true
    · simp [h1, h2] at hex
    · simp only [h1, h2, if_false, Bool.false_eq_true] at hex ⊢
      have hi := insert_node_spec st.nodelist node hinv
      cases attrvals with
      | none =>
        refine ⟨?_, ?_, ?_⟩
        · simpa using hi.1
        · simp [SameCore]
        · simp
      | some avs =>
        by_cases h3 : _duplicate_attr_check (_insert_node st.nodelist node).2.attrlist avs = 1
        · simp [h3] at hex
        · have hs := node_store_inv (_insert_node st.nodelist node).1
            { (_insert_node st.nodelist node).2 with
              attrlist := (_insert_node st.nodelist node).2.attrlist ++ [avs],
              attrcount := (_insert_node st.nodelist node).2.attrcount + avs.length }
            hi.1 (attrs_nodup_append _ _ (hi.1.2 _ hi.2.1) (havs avs rfl) h3)
          refine ⟨?_, ?_, ?_⟩
          · simpa [h3] using hs
          · simp [SameCore, h3]
          · simp [h3]

theorem parse_line_nodes_inv (attrvals : Option (List genders_attrval))
    (names : List (List Char)) (st : NodesOut) (hinv : NodesInv st.nodelist)
    (havs : ∀ avs, attrvals = some avs → (avs.map (fun av => av.attr)).Nodup)
    (hst : st.exit = none)
    (hex : (_parse_line_nodes 0 attrvals names st).exit = none) :
    NodesInv (_parse_line_nodes 0 attrvals names st).nodelist ∧
    SameCore st.handle (_parse_line_nodes 0 attrvals names st).handle ∧
    (_parse_line_nodes 0 attrvals names st).handle.nodeslist = st.handle.nodeslist := by
  induction names generalizing st with
  | nil => exact ⟨hinv, sameCore_refl _, rfl⟩
  | cons node rest ih =>
    unfold _parse_line_nodes at hex ⊢
    by_cases h1 : (_parse_line_node 0 attrvals node st).exit = none
    · simp only [h1, if_true] at hex ⊢
      have s1 := parse_line_node_inv attrvals node st hinv havs h1
      have s2 := ih _ s1.1 h1 hex
      exact ⟨s2.1, sameCore_trans s1.2.1 s2.2.1, s2.2.2.trans s1.2.2⟩
    · simp only [h1, if_false] at hex

theorem parse_line_attrlist_inv (h : genders) (line : Option (List Char)) :
    ((_parse_line_attrlist h line 0 []).1.ok = false →
      (_parse_line_attrlist h line 0 []).2.2 < 0) ∧
    ((_parse_line_attrlist h line 0 []).1.ok = true →
      (∀ avs, (_parse_line_attrlist h line 0 []).2.1 = some avs →
        (avs.map (fun av => av.attr)).Nodup) ∧
      SameCore h (_parse_line_attrlist h line 0 []).1.handle ∧
      (_parse_line_attrlist h line 0 []).1.handle.nodeslist = h.nodeslist) := by
  unfold _parse_line_attrlist
  cases line with
  | none => simp [SameCore]
  | some l =>
    simp only
    by_cases h1 : l.dropWhile isspace ≠ []
    · rw [if_pos h1]
      by_cases h2 : (strchr (l.dropWhile isspace) ' ' || strchr (l.dropWhile isspace) '\t') = true
      · simp [h2]
      · rw [if_neg h2]
        refine ⟨fun _ => by simp, fun hok => ?_⟩
        have := parse_line_attrs_inv (strtok_r (l.dropWhile isspace) [])
          ⟨h, [], 0, [], true⟩ (by simp) hok
        refine ⟨?_, this.2.1, this.2.2⟩
        intro avs havs
        simp only [Option.some.injEq] at havs
        exact havs ▸ this.1
    · rw [if_neg h1]
      simp [SameCore]

theorem parse_line_node_exit (attrvals : Option (List genders_attrval)) (node : List Char)
    (st : NodesOut) (rv : Int) (hex : (_parse_line_node 0 attrvals node st).exit = some rv) :
    rv = -1 ∨ st.exit = some rv := by
  unfold _parse_line_node at hex
  by_cases h1 : node.length > MAXHOSTNAMELEN
  · simp [h1] at hex; exact Or.inl hex.symm
  · by_cases h2 : strchr node '.' = true
    · simp [h1, h2] at hex; exact Or.inl hex.symm
    · simp only [h1, h2, if_false, Bool.false_eq_true] at hex
      cases attrvals with
      | none => simp at hex; exact Or.inr hex
      | some avs =>
        by_cases h3 : _duplicate_attr_check (_insert_node st.nodelist node).2.attrlist avs = 1
        · simp [h3] at hex; exact Or.inl hex.symm
        · simp [h3] at hex; exact Or.inr hex

theorem parse_line_nodes_exit (attrvals : Option (List genders_attrval))
    (names : List (List Char)) (st : NodesOut) (rv : Int)
    (hex : (_parse_line_nodes 0 attrvals names st).exit = some rv) :
    rv = -1 ∨ st.exit = some rv := by
  induction names generalizing st with
  | nil => exact Or.inr hex
  | cons node rest ih =>
    unfold _parse_line_nodes at hex
    by_cases h1 : (_parse_line_node 0 attrvals node st).exit = none
    · simp only [h1, if_true] at hex
      rcases ih _ hex with h | h
      · exact Or.inl h
      · rw [h1] at h; cases h
    · simp only [h1, if_false] at hex
      exact parse_line_node_exit attrvals node st rv hex

/-- What `_parse_line` keeps when it parses into the handle and does not fail. -/
theorem parse_line_inv (env : Env) (h : genders) (line : List Char)
    (hinv : NodesInv h.nodeslist)
    (hok : ¬ (_parse_line env h line 0 [] [] []).retval < 0) :
    NodesInv (_parse_line env h line 0 [] [] []).handle.nodeslist ∧
    SameCore h (_parse_line env h line 0 [] [] []).handle := by
  unfold _parse_line at hok ⊢
  simp only at hok ⊢
  generalize ((line.takeWhile (fun c => c != '#')).reverse.dropWhile isspace).reverse = line2
    at hok ⊢
  by_cases hne : line2 = []
  · rw [if_pos hne]
    exact ⟨hinv, sameCore_refl _⟩
  · rw [if_neg hne] at hok ⊢
    generalize (strsep (line2.dropWhile isspace)).1 = nodenames at hok ⊢
    generalize (strsep (line2.dropWhile isspace)).2 = rest at hok ⊢
    have ha := parse_line_attrlist_inv h rest
    generalize _parse_line_attrlist h rest 0 [] = a at hok ha ⊢
    by_cases hak : a.1.ok = false
    · rw [if_pos hak] at hok
      exact absurd (ha.1 hak) hok
    · rw [if_neg hak] at hok ⊢
      have ha2 := ha.2 (by simpa using hak)
      cases hh : env.hostlist nodenames with
      | none => simp [hh] at hok
      | some names =>
        simp only [hh, if_true] at hok ⊢
        have hn := parse_line_nodes_inv a.2.1 names
          ⟨a.1.handle.nodeslist, a.1.handle, 0, a.1.stream, none⟩
          (by rw [ha2.2.2]; exact hinv) ha2.1 rfl
        have hx := parse_line_nodes_exit a.2.1 names
          ⟨a.1.handle.nodeslist, a.1.handle, 0, a.1.stream, none⟩
        generalize _parse_line_nodes 0 a.2.1 names
          ⟨a.1.handle.nodeslist, a.1.handle, 0, a.1.stream, none⟩ = r at hok hn hx ⊢
        cases hex : r.exit with
        | some rv =>
          simp only [hex] at hok ⊢
          rcases hx rv hex with h1 | h1
          · omega
          · cases h1
        | none =>
          simp only [hex] at hok ⊢
          have hn2 := hn hex
          refine ⟨hn2.1, ?_⟩
          have := sameCore_trans ha2.2.1 hn2.2.1
          split <;> exact ⟨this.1, this.2⟩

theorem readline_pos (h : genders) (ret buflen : Int) (hp : (_readline h ret buflen).2 > 0) :
    (_readline h ret buflen).1 = h := by
  unfold _readline at hp ⊢
  split
  · rename_i h1; simp [h1] at hp
  · split
    · rename_i h1 h2; simp [h1, h2] at hp
    · rfl

theorem readline_frame (h : genders) (ret buflen : Int) :
    SameCore h (_readline h ret buflen).1 ∧ (_readline h ret buflen).1.nodeslist = h.nodeslist := by
  unfold _readline
  split
  · simp [SameCore]
  · split <;> simp [SameCore]

theorem load_lines_inv (env : Env) (file : List (Int × List Char)) (h : genders)
    (hinv : NodesInv h.nodeslist)
    (hok : ¬ (genders_load_data_lines env file h).2 < 0) :
    NodesInv (genders_load_data_lines env file h).1.nodeslist ∧
    SameCore h (genders_load_data_lines env file h).1 := by
  induction file generalizing h with
  | nil => exact ⟨hinv, sameCore_refl _⟩
  | cons ev rest ih =>
    obtain ⟨ret, buf⟩ := ev
    unfold genders_load_data_lines at hok ⊢
    simp only at hok ⊢
    by_cases hp : (_readline h ret GENDERS_READLINE_BUFLEN).2 > 0
    · rw [if_pos hp] at hok ⊢
      rw [readline_pos h ret _ hp] at hok ⊢
      by_cases hf : (_parse_line env h buf 0 [] [] []).retval < 0
      · rw [if_pos hf] at hok
        simp at hok
      · rw [if_neg hf] at hok ⊢
        have s1 := parse_line_inv env h buf hinv hf
        have s2 := ih _ s1.1 hok
        exact ⟨s2.1, sameCore_trans s1.2 s2.2⟩
    · rw [if_neg hp] at hok ⊢
      by_cases hn : (_readline h ret GENDERS_READLINE_BUFLEN).2 < 0
      · rw [if_pos hn] at hok
        simp at hok
      · rw [if_neg hn]
        have := readline_frame h ret GENDERS_READLINE_BUFLEN
        exact ⟨this.2 ▸ hinv, this.1⟩

/-! ### The node index -/

theorem hash_find_insert (index : hash_t) (key k : List Char) (data : List genders_node)
    (hnone : hash_find index key = none) :
    hash_find (hash_insert index key data) k
      = if k = key then some data else hash_find index k := by
  induction index with
  | nil =>
    simp only [hash_insert, List.nil_append, hash_find]
    by_cases hk : k = key
    · simp [hk]
    · have : ¬ key = k := fun e => hk e.symm
      simp [hk, this]
  | cons e rest ih =>
    obtain ⟨k1, l1⟩ := e
    simp only [hash_insert, List.cons_append, hash_find] at hnone ⊢
    by_cases h1 : k1 = key
    · simp [h1] at hnone
    · simp only [h1, if_false] at hnone
      have := ih hnone
      simp only [hash_insert] at this
      by_cases h2 : k1 = k
      · have : ¬ k = key := fun e => h1 (h2.trans e)
        simp [h2, this]
      · simp only [h2, if_false]
        exact this

theorem hash_find_list_append (index : hash_t) (key k : List Char) (n : genders_node) :
    hash_find (hash_list_append index key n) k
      = if k = key then (hash_find index k).map (fun l => l ++ [n]) else hash_find index k := by
  induction index with
  | nil => simp [hash_list_append, hash_find]
  | cons e rest ih =>
    obtain ⟨k1, l1⟩ := e
    simp only [hash_list_append]
    by_cases h1 : k1 = key
    · simp only [h1, if_true, hash_find]
      by_cases h2 : key = k
      · simp [h2]
      · have : ¬ k = key := fun e => h2 e.symm
        simp [h2, this]
    · simp only [h1, if_false, hash_find]
      by_cases h2 : k1 = k
      · have : ¬ k = key := fun e => h1 (h2.trans e)
        simp [h2, this]
      · simp only [h2, if_false]
        exact ih

theorem index_build_lookup (nodes : List genders_node) (index : hash_t) (hinv : IndexInv index)
    (name : List Char) :
    index_lookup (genders_load_data_index nodes index) name
      = (index_lookup index name).or (nodes.find? (fun x => _is_node x name)) := by
  induction nodes generalizing index with
  | nil => simp [genders_load_data_index]
  | cons n rest ih =>
    unfold genders_load_data_index
    cases hf : hash_find index n.name with
    | none =>
      simp only
      have hfind : ∀ k, hash_find (hash_list_append (hash_insert index n.name []) n.name n) k
          = if k = n.name then some [n] else hash_find index k := by
        intro k
        rw [hash_find_list_append, hash_find_insert index n.name k [] hf]
        by_cases hk : k = n.name <;> simp [hk]
      have hinv1 : IndexInv (hash_list_append (hash_insert index n.name []) n.name n) := by
        intro k l hkl
        rw [hfind] at hkl
        by_cases hk : k = n.name
        · simp [hk] at hkl
          subst hkl
          simp [hk]
        · simp only [hk, if_false] at hkl
          exact hinv k l hkl
      rw [ih _ hinv1]
      unfold index_lookup
      rw [hfind]
      by_cases hk : name = n.name
      · simp [hk, hf, _is_node]
      · have : ¬ n.name = name := fun e => hk e.symm
        simp [hk, _is_node, this]
    | some l =>
      simp only
      have hfind : ∀ k, hash_find (hash_list_append index n.name n) k
          = if k = n.name then some (l ++ [n]) else hash_find index k := by
        intro k
        rw [hash_find_list_append]
        by_cases hk : k = n.name <;> simp [hk, hf]
      have hinv1 : IndexInv (hash_list_append index n.name n) := by
        intro k l1 hkl
        rw [hfind] at hkl
        by_cases hk : k = n.name
        · simp [hk] at hkl
          subst hkl
          refine ⟨by simp, ?_⟩
          intro x hx
          rcases List.mem_append.mp hx with h1 | h1
          · rw [hk]; exact (hinv _ _ hf).2 x h1
          · simp at h1; rw [h1, hk]
        · simp only [hk, if_false] at hkl
          exact hinv k l1 hkl
      rw [ih _ hinv1]
      unfold index_lookup
      rw [hfind]
      by_cases hk : name = n.name
      · have hl := hinv _ _ hf
        obtain ⟨x, xs, hxs⟩ := List.exists_cons_of_ne_nil hl.1
        have hx : x.name = n.name := hl.2 x (by rw [hxs]; simp)
        simp [hk, hf, hxs, _is_node, hx]
      · have : ¬ n.name = name := fun e => hk e.symm
        simp [hk, _is_node, this]

theorem load_finish_inv (env : Env) (h : genders) (hm : h.magic = GENDERS_MAGIC_NUM)
    (hn : NodesInv h.nodeslist) (hok : (genders_load_data_finish env h).2 = 0) :
    LoadedInv (genders_load_data_finish env h).1 := by
  unfold genders_load_data_finish at hok ⊢
  by_cases h2 : h.nodeslist.length = 0
  · rw [if_pos h2] at hok
    simp at hok
  · rw [if_neg h2] at hok ⊢
    cases hg : env.gethostname with
    | none => simp [hg] at hok
    | some host =>
      simp only
      constructor
      · exact hm
      · exact Nat.succ_ne_zero _
      · rfl
      · exact hn
      · exact fun e => h2 (by rw [e]; rfl)
      · intro name
        have := index_build_lookup h.nodeslist []
          (by intro k l hkl; simp [hash_find] at hkl) name
        simp only [index_lookup, hash_find, Option.none_or] at this
        exact this

theorem unloaded_check_ok (h : genders) (hm : h.magic = GENDERS_MAGIC_NUM)
    (hu : h.is_loaded = 0) : _unloaded_handle_error_check (some h) = (some h, 0) := by
  simp [_unloaded_handle_error_check, _handle_error_check, hm, hu]

theorem load_inv_gen (env : Env) (h0 : genders) (filename : Option (List Char)) (hL : genders)
    (hm : h0.magic = GENDERS_MAGIC_NUM) (hu : h0.is_loaded = 0) (hn : NodesInv h0.nodeslist)
    (hload : genders_load_data env (some h0) filename = (some hL, 0)) : LoadedInv hL := by
  unfold genders_load_data at hload
  rw [unloaded_check_ok h0 hm hu] at hload
  simp only [lt_self_iff_false, if_false] at hload
  cases hf : env.files (filename.getD GENDERS_DEFAULT_FILE) with
  | none => simp [hf] at hload
  | some file =>
    simp only [hf] at hload
    have hl := load_lines_inv env file h0 hn
    generalize genders_load_data_lines env file h0 = r at hload hl
    by_cases h1 : r.2 < 0
    · simp [h1] at hload
    · rw [if_neg h1] at hload
      have hl2 := hl h1
      simp only [Prod.mk.injEq, Option.some.injEq] at hload
      rw [← hload.1]
      exact load_finish_inv env r.1 (hl2.2.1.trans hm) hl2.1 hload.2

theorem load_inv (env : Env) (e : Int) (filename : Option (List Char)) (hL : genders)
    (hload : genders_load_data env (some { genders_handle_create with errnum := e }) filename
      = (some hL, 0)) : LoadedInv hL :=
  load_inv_gen env { genders_handle_create with errnum := e } filename hL rfl rfl
    (by simp [NodesInv, genders_handle_create]) hload

theorem loadedInv_of_loaded (env : Env) (h : genders) (hl : LoadedHandle env h) :
    LoadedInv h := by
  obtain ⟨e, filename, hL, hload, heq⟩ := hl
  have := load_inv env e filename hL hload
  rw [heq]
  exact ⟨this.magic, this.loaded, this.numnodes, this.nodes, this.nonempty, fun name => by
    have := this.lookup name
    simpa [node_lookup] using this⟩

/-! ## C9, C10: lifecycle errors -/

/-- C9.  On every loaded handle (valid magic, loaded flag set) and for every
file name, `genders_load_data` returns -1 and `genders_errnum` afterwards
reports `ISLOADED`. -/
theorem load_loaded_fails_isloaded (env : Env) (h : genders) (filename : Option (List Char))
    (hm : h.magic = GENDERS_MAGIC_NUM) (hl : h.is_loaded ≠ 0) :
    (genders_load_data env (some h) filename).2 = -1 ∧
    genders_errnum (genders_load_data env (some h) filename).1 = GENDERS_ERR_ISLOADED := by
  rw [load_on_loaded env h filename hm hl]
  simp [genders_errnum, genders_load_data_cleanup, _initialize_handle_info]

theorem load_loaded_fails_isloaded_witness :
    (∃ h, (exampleLoad ["n1 a=1"]).1 = some h ∧ h.magic = GENDERS_MAGIC_NUM ∧ h.is_loaded ≠ 0 ∧
      (genders_load_data (exampleEnv ["n1 a=1"]) (some h) none).2 = -1 ∧
      genders_errnum (genders_load_data (exampleEnv ["n1 a=1"]) (some h) none).1
        = GENDERS_ERR_ISLOADED) :=
  ⟨((exampleLoad ["n1 a=1"]).1).get (by decide), by simp, by decide, by decide,
    load_loaded_fails_isloaded (exampleEnv ["n1 a=1"]) _ none (by decide) (by decide)⟩

/-! ## C8: a second load -/

/-- C8, at the file `n1 a=1`: the handle loaded from it has one node, one
attrval list and one attribute name; a second `genders_load_data` on it
returns -1 and leaves the loaded flag clear, the three tables empty, the
node index absent and `numnodes`, `numattrs`, `maxattrs`, `maxnodelen`,
`maxattrlen`, `maxvallen` at 0 and the host name empty; a third call then
loads the file again and returns 0. -/
theorem reload_clears_loaded_handle :
    (exampleLoad ["n1 a=1"]).2 = 0 ∧
    (exampleLoad ["n1 a=1"]).1.map
      (fun h => (h.is_loaded, h.nodeslist.length, h.attrvalslist.length, h.attrslist.length))
      = some (1, 1, 1, 1) ∧
    (exampleLoad ["n1 a=1"]).1.map (fun h => (h.node_index.isSome, h.nodename))
      = some (true, "localhost".toList) ∧
    (exampleLoad ["n1 a=1"]).1.map
      (fun h => (h.numnodes, h.numattrs, h.maxattrs, h.maxnodelen, h.maxattrlen, h.maxvallen))
      = some (1, 1, 1, 9, 1, 1) ∧
    (genders_load_data (exampleEnv ["n1 a=1"]) (exampleLoad ["n1 a=1"]).1 none).2 = -1 ∧
    (genders_load_data (exampleEnv ["n1 a=1"]) (exampleLoad ["n1 a=1"]).1 none).1.map
      (fun h => (h.is_loaded, h.nodeslist.length, h.attrvalslist.length, h.attrslist.length))
      = some (0, 0, 0, 0) ∧
    (genders_load_data (exampleEnv ["n1 a=1"]) (exampleLoad ["n1 a=1"]).1 none).1.map
      (fun h => (h.node_index.isSome, h.nodename, h.errnum))
      = some (false, [], GENDERS_ERR_ISLOADED) ∧
    (genders_load_data (exampleEnv ["n1 a=1"]) (exampleLoad ["n1 a=1"]).1 none).1.map
      (fun h => (h.numnodes, h.numattrs, h.maxattrs, h.maxnodelen, h.maxattrlen, h.maxvallen))
      = some (0, 0, 0, 0, 0, 0) ∧
    (genders_load_data (exampleEnv ["n1 a=1"])
      (genders_load_data (exampleEnv ["n1 a=1"]) (exampleLoad ["n1 a=1"]).1 none).1 none).2
      = 0 := by
  refine ⟨by decide, by decide, by decide, by decide, by decide, by decide, by decide,
    by decide, by decide⟩

/-! ## Substrings and the scan of a value -/

theorem strstr_iff (hay needle : List Char) : strstr hay needle = true ↔ needle <:+: hay := by
  induction hay with
  | nil => simp [strstr, List.isEmpty_iff]
  | cons c cs ih =>
    simp only [strstr, Bool.or_eq_true, ih, List.isPrefixOf_iff_prefix]
    constructor
    · rintro (hp | hi)
      · exact hp.isInfix
      · exact hi.trans (List.suffix_cons c cs).isInfix
    · intro hi
      rcases List.infix_cons_iff.mp hi with hp | hi
      · exact Or.inl hp
      · exact Or.inr hi

theorem expandSpec_no_percent (name v : List Char) (hv : '%' ∉ v) : expandSpec name v = v := by
  induction v using expandSpec.induct name <;> simp_all [expandSpec]
  case case5 c d rest _ _ =>
    have hc : ¬ c = '%' := fun hc => hv.1 hc.symm
    simp [hc]

theorem no_infix_of_no_percent (v : List Char) (d : Char) (hv : '%' ∉ v) :
    ¬ ['%', d] <:+: v := by
  intro hi
  exact hv (hi.subset (by simp))

/-! ## Lookups on a loaded handle -/

theorem find_node_of_nodup (l : List genders_node) (n : genders_node)
    (hnd : (l.map (fun x => x.name)).Nodup) (hn : n ∈ l) :
    l.find? (fun x => _is_node x n.name) = some n := by
  induction l with
  | nil => simp at hn
  | cons y rest ih =>
    simp only [List.map_cons, List.nodup_cons] at hnd
    rcases List.mem_cons.mp hn with rfl | hmem
    · simp [_is_node]
    · have hne : y.name ≠ n.name := by
        intro e
        exact hnd.1 (e ▸ List.mem_map_of_mem (fun x => x.name) hmem)
      have hb : (y.name == n.name) = false := by simpa using hne
      simp only [List.find?_cons, _is_node, hb]
      simpa [_is_node] using ih hnd.2 hmem

theorem lookup_of_mem (h : genders) (hi : LoadedInv h) (n : genders_node)
    (hn : n ∈ h.nodeslist) : node_lookup h n.name = some n := by
  rw [hi.lookup]
  exact find_node_of_nodup _ _ hi.nodes.1 hn

theorem lookup_none_of_not_mem (h : genders) (hi : LoadedInv h) (N : List Char)
    (hN : N ∉ h.nodeslist.map (fun n => n.name)) : node_lookup h N = none := by
  rw [hi.lookup, List.find?_eq_none]
  intro x hx hp
  exact hN ((is_node_iff x N).mp hp ▸ List.mem_map_of_mem (fun n => n.name) hx)

theorem lookup_some (h : genders) (hi : LoadedInv h) (N : List Char) (n : genders_node)
    (hl : node_lookup h N = some n) : n ∈ h.nodeslist ∧ n.name = N := by
  rw [hi.lookup] at hl
  exact ⟨List.mem_of_find?_eq_some hl,
    (is_node_iff n N).mp (@List.find?_some _ (fun x => _is_node x N) n _ hl)⟩

theorem find_attrval_eq (attrlist : List (List genders_attrval)) (a : List Char) :
    _find_attrval_in_attrlist attrlist a
      = attrlist.flatten.find? (fun av => _is_attr_in_attrvals av a) := by
  induction attrlist with
  | nil => rfl
  | cons g rest ih =>
    unfold _find_attrval_in_attrlist
    rw [List.flatten_cons, List.find?_append]
    cases hg : g.find? (fun av => _is_attr_in_attrvals av a) with
    | some av => simp
    | none => simp [ih]

theorem find_attrval_some (attrlist : List (List genders_attrval)) (a : List Char)
    (av : genders_attrval) (hf : _find_attrval_in_attrlist attrlist a = some av) :
    (∃ g ∈ attrlist, av ∈ g) ∧ av.attr = a := by
  rw [find_attrval_eq] at hf
  have h1 := List.mem_of_find?_eq_some hf
  have h2 : _is_attr_in_attrvals av a = true :=
    @List.find?_some _ (fun av => _is_attr_in_attrvals av a) av _ hf
  obtain ⟨g, hg, hav⟩ := List.mem_flatten.mp h1
  exact ⟨⟨g, hg, hav⟩, by simpa [_is_attr_in_attrvals] using h2⟩

theorem find_attrval_none (attrlist : List (List genders_attrval)) (a : List Char)
    (hf : _find_attrval_in_attrlist attrlist a = none) :
    ∀ g ∈ attrlist, ∀ av ∈ g, av.attr ≠ a := by
  rw [find_attrval_eq, List.find?_eq_none] at hf
  intro g hg av hav e
  exact hf av (List.mem_flatten.mpr ⟨g, hg, hav⟩) (by simp [_is_attr_in_attrvals, e])

theorem find_attrval_unique (attrlist : List (List genders_attrval)) (a : List Char)
    (hnd : (attrlist.flatten.map (fun av => av.attr)).Nodup)
    (av : genders_attrval) (g : List genders_attrval) (hg : g ∈ attrlist) (hav : av ∈ g)
    (ha : av.attr = a) : _find_attrval_in_attrlist attrlist a = some av := by
  rw [find_attrval_eq]
  have hmem : av ∈ attrlist.flatten := List.mem_flatten.mpr ⟨g, hg, hav⟩
  generalize attrlist.flatten = l at hnd hmem
  induction l with
  | nil => simp at hmem
  | cons y rest ih =>
    simp only [List.map_cons, List.nodup_cons] at hnd
    rcases List.mem_cons.mp hmem with rfl | hm
    · simp [_is_attr_in_attrvals, ha]
    · have hne : y.attr ≠ a := by
        intro e
        exact hnd.1 ((e.trans ha.symm) ▸ List.mem_map_of_mem (fun x => x.attr) hm)
      have hb : (y.attr == a) = false := by simpa using hne
      simp only [List.find?_cons, _is_attr_in_attrvals, hb]
      simpa [_is_attr_in_attrvals] using ih hnd.2 hm

theorem expandSpec_literal (name v : List Char) (h1 : ¬ "%n".toList <:+: v)
    (h2 : ¬ "%%".toList <:+: v) : expandSpec name v = v := by
  induction v using expandSpec.induct name with
  | case1 => rfl
  | case2 c => rfl
  | case3 c d rest hc ih =>
    exfalso; apply h2
    rw [hc.1, hc.2]
    exact (List.prefix_append ['%', '%'] rest).isInfix
  | case4 c d rest _ hc ih =>
    exfalso; apply h1
    rw [hc.1, hc.2]
    exact (List.prefix_append ['%', 'n'] rest).isInfix
  | case5 c d rest hc1 hc2 ih =>
    rw [expandSpec, if_neg hc1, if_neg hc2]
    rw [ih (fun hi => h1 (hi.trans (List.suffix_cons c _).isInfix))
      (fun hi => h2 (hi.trans (List.suffix_cons c _).isInfix))]

/-- On a loaded handle "node `N` carries an attrval named `A` with property
`P`" is decided by the record the index finds for `N` and the attrval
`_find_attrval_in_attrlist` finds in it. -/
theorem carried_iff (h : genders) (hi : LoadedInv h) (n : genders_node)
    (hn : n ∈ h.nodeslist) (A : List Char) (P : genders_node → genders_attrval → Prop) :
    (∃ m ∈ h.nodeslist, m.name = n.name ∧ ∃ g ∈ m.attrlist, ∃ av ∈ g, av.attr = A ∧ P m av) ↔
      ∃ av, _find_attrval_in_attrlist n.attrlist A = some av ∧ P n av := by
  constructor
  · rintro ⟨m, hm, hname, g, hg, av, hav, ha, hp⟩
    have h1 := lookup_of_mem h hi m hm
    have h2 := lookup_of_mem h hi n hn
    rw [hname, h2] at h1
    cases h1
    exact ⟨av, find_attrval_unique _ _ (hi.nodes.2 n hn) av g hg hav ha, hp⟩
  · rintro ⟨av, hf, hp⟩
    obtain ⟨⟨g, hg, hav⟩, ha⟩ := find_attrval_some _ _ _ hf
    exact ⟨n, hn, rfl, g, hg, av, hav, ha, hp⟩

/-! ## Writing into a caller array -/

theorem put_in_list_ok (h : genders) (str : List Char) (list : Option StrArray) (index : Nat)
    (len : Int) (hok : ¬ (_put_in_list h str list index len).2.2 < 0) :
    (index : Int) < len ∧ ∃ arr, list = some arr ∧ arr index ≠ none ∧
      _put_in_list h str list index len
        = (h, some (Function.update arr index (some str)), 0) := by
  unfold _put_in_list at hok ⊢
  by_cases h1 : (index : Int) ≥ len
  · simp [h1] at hok
  · rw [if_neg h1] at hok ⊢
    refine ⟨lt_of_not_ge h1, ?_⟩
    cases list with
    | none => simp at hok
    | some arr =>
      cases hs : arr index with
      | none => simp [hs] at hok
      | some x => exact ⟨arr, rfl, by simp [hs], by simp [hs]⟩

theorem put_in_list_success (h : genders) (str : List Char) (arr : StrArray) (index : Nat)
    (len : Int) (hlt : (index : Int) < len) (hs : arr index ≠ none) :
    _put_in_list h str (some arr) index len
      = (h, some (Function.update arr index (some str)), 0) := by
  unfold _put_in_list
  rw [if_neg (by omega)]
  cases hx : arr index with
  | none => exact absurd hx hs
  | some x => simp [hx]

/-! ## Worked examples: helper lemmas -/

theorem exampleLoad_eq (lines : List String) (h1 : (exampleLoad lines).1.isSome = true)
    (h2 : (exampleLoad lines).2 = 0) :
    exampleLoad lines = (some (exampleHandle lines), 0) := by
  unfold exampleHandle
  rcases hx : exampleLoad lines with ⟨o, r⟩
  rw [hx] at h1 h2
  cases o with
  | none => simp at h1
  | some g => simp at h2; simp [h2]

theorem loadedHandle_example (lines : List String)
    (h1 : (exampleLoad lines).1.isSome = true) (h2 : (exampleLoad lines).2 = 0) :
    LoadedHandle (exampleEnv lines) (exampleHandle lines) :=
  ⟨GENDERS_ERR_SUCCESS, none, exampleHandle lines, exampleLoad_eq lines h1 h2, rfl⟩

/-! ## A failed load -/

theorem load_cleanup_eq (h : genders) :
    genders_load_data_cleanup h = { genders_handle_create with errnum := h.errnum } := rfl

theorem load_finish_cases (env : Env) (h : genders) :
    (genders_load_data_finish env h).2 = 0 ∨
    ((genders_load_data_finish env h).2 = -1 ∧
      ∃ e, (genders_load_data_finish env h).1 = { genders_handle_create with errnum := e }) := by
  unfold genders_load_data_finish
  by_cases h1 : h.nodeslist.length = 0
  · rw [if_pos h1]
    exact Or.inr ⟨rfl, _, load_cleanup_eq _⟩
  · rw [if_neg h1]
    cases env.gethostname with
    | none => exact Or.inr ⟨rfl, _, load_cleanup_eq _⟩
    | some host => exact Or.inl rfl

/-- C11.  On every valid handle that is not loaded and for every input, a
call of `genders_load_data` that fails (for whatever cause: the file cannot
be opened, a read error, an over-long line, a parse error on any line, no
node, no host name) returns -1 and leaves the handle as `genders_handle_create`
makes it apart from the error code: loaded flag clear, node table,
attrval-list table and attribute-name list empty, node index and scratch
buffer NULL, the six statistics 0 and the local host name empty. -/
theorem load_failure_resets (env : Env) (h : genders) (filename : Option (List Char))
    (hm : h.magic = GENDERS_MAGIC_NUM) (hu : h.is_loaded = 0)
    (hfail : (genders_load_data env (some h) filename).2 ≠ 0) :
    (genders_load_data env (some h) filename).2 = -1 ∧
    ∃ h1, (genders_load_data env (some h) filename).1 = some h1 ∧
      h1 = { genders_handle_create with errnum := h1.errnum } ∧
      h1.is_loaded = 0 ∧ h1.nodeslist = [] ∧ h1.attrvalslist = [] ∧ h1.attrslist = [] ∧
      h1.node_index = none ∧ h1.valbuf = none ∧ h1.numnodes = 0 ∧ h1.numattrs = 0 ∧
      h1.maxattrs = 0 ∧ h1.maxnodelen = 0 ∧ h1.maxattrlen = 0 ∧ h1.maxvallen = 0 ∧
      h1.nodename = [] := by
  have key : ∀ e : Int, ∃ h1, some ({ genders_handle_create with errnum := e } : genders) = some h1 ∧
      h1 = { genders_handle_create with errnum := h1.errnum } ∧
      h1.is_loaded = 0 ∧ h1.nodeslist = [] ∧ h1.attrvalslist = [] ∧ h1.attrslist = [] ∧
      h1.node_index = none ∧ h1.valbuf = none ∧ h1.numnodes = 0 ∧ h1.numattrs = 0 ∧
      h1.maxattrs = 0 ∧ h1.maxnodelen = 0 ∧ h1.maxattrlen = 0 ∧ h1.maxvallen = 0 ∧
      h1.nodename = [] :=
    fun e => ⟨_, rfl, rfl, rfl, rfl, rfl, rfl, rfl, rfl, rfl, rfl, rfl, rfl, rfl, rfl, rfl⟩
  unfold genders_load_data at hfail ⊢
  rw [unloaded_check_ok h hm hu] at hfail ⊢
  simp only [lt_self_iff_false, if_false] at hfail ⊢
  cases hf : env.files (filename.getD GENDERS_DEFAULT_FILE) with
  | none =>
    simp only [hf] at hfail ⊢
    exact ⟨trivial, key _⟩
  | some file =>
    simp only [hf] at hfail ⊢
    generalize genders_load_data_lines env file h = r at hfail ⊢
    by_cases h1 : r.2 < 0
    · rw [if_pos h1]
      exact ⟨rfl, key _⟩
    · rw [if_neg h1] at hfail ⊢
      rcases load_finish_cases env r.1 with h0 | ⟨hm1, e, he⟩
      · exact absurd h0 hfail
      · refine ⟨hm1, ?_⟩
        rw [he]
        exact key e

theorem load_failure_resets_witness :
    genders_handle_create.magic = GENDERS_MAGIC_NUM ∧ genders_handle_create.is_loaded = 0 ∧
    (exampleLoad ["n1  a=1", "n1  a=2"]).2 = -1 ∧
    (exampleLoad ["n1  a=1", "n1  a=2"]).1
      = some { genders_handle_create with errnum := GENDERS_ERR_PARSE } ∧
    genders_errnum (exampleLoad ["n1  a=1", "n1  a=2"]).1 = GENDERS_ERR_PARSE :=
  ⟨rfl, rfl,
    (load_failure_resets (exampleEnv ["n1  a=1", "n1  a=2"]) genders_handle_create none rfl rfl
      (by decide)).1,
    by decide, by decide⟩

/-! ## Lint leaves the handle alone -/

theorem errFrame_refl (h : genders) : ErrFrame h h := rfl

theorem errFrame_set (h : genders) (e : Int) : ErrFrame h { h with errnum := e } := rfl

theorem errFrame_trans {a b c : genders} (h1 : ErrFrame a b) (h2 : ErrFrame b c) :
    ErrFrame a c := by
  unfold ErrFrame at *
  calc c = { b with errnum := c.errnum } := h2
    _ = { a with errnum := c.errnum } := by rw [h1]

theorem parse_line_attr_lint (line_num : Nat) (hn : 0 < line_num) (tok : List Char)
    (st : AttrsOut) :
    ErrFrame st.handle (_parse_line_attr line_num tok st).handle ∧
    (_parse_line_attr line_num tok st).max_n_subst_vallen = st.max_n_subst_vallen := by
  have h0 : line_num ≠ 0 := by omega
  unfold _parse_line_attr
  simp only [h0, if_false]
  split
  · exact ⟨errFrame_set _ _, rfl⟩
  · exact ⟨errFrame_refl _, rfl⟩

theorem parse_line_attrs_lint (line_num : Nat) (hn : 0 < line_num) (toks : List (List Char)) :
    ∀ st : AttrsOut,
      ErrFrame st.handle (_parse_line_attrs line_num toks st).handle ∧
      (_parse_line_attrs line_num toks st).max_n_subst_vallen = st.max_n_subst_vallen := by
  induction toks with
  | nil => intro st; exact ⟨errFrame_refl _, rfl⟩
  | cons tok rest ih =>
    intro st
    unfold _parse_line_attrs
    have s1 := parse_line_attr_lint line_num hn tok st
    split
    · have s2 := ih (_parse_line_attr line_num tok st)
      exact ⟨errFrame_trans s1.1 s2.1, s2.2.trans s1.2⟩
    · exact s1

theorem parse_line_attrlist_lint (h : genders) (line : Option (List Char)) (line_num : Nat)
    (hn : 0 < line_num) (stream : List Diag) :
    ErrFrame h (_parse_line_attrlist h line line_num stream).1.handle ∧
    (_parse_line_attrlist h line line_num stream).1.max_n_subst_vallen = 0 := by
  unfold _parse_line_attrlist
  cases line with
  | none => exact ⟨errFrame_refl _, rfl⟩
  | some l =>
    simp only
    split
    · split
      · exact ⟨errFrame_set _ _, rfl⟩
      · exact parse_line_attrs_lint line_num hn _ ⟨h, [], 0, stream, true⟩
    · exact ⟨errFrame_refl _, rfl⟩

theorem parse_line_node_lint (line_num : Nat) (hn : 0 < line_num)
    (attrvals : Option (List genders_attrval)) (node : List Char) (st : NodesOut) :
    ErrFrame st.handle (_parse_line_node line_num attrvals node st).handle := by
  have h0 : line_num ≠ 0 := by omega
  unfold _parse_line_node
  simp only [h0, if_false]
  split
  · exact errFrame_set _ _
  · split
    · exact errFrame_set _ _
    · split
      · split
        · exact errFrame_set _ _
        · exact errFrame_refl _
      · exact errFrame_refl _

theorem parse_line_nodes_lint (line_num : Nat) (hn : 0 < line_num)
    (attrvals : Option (List genders_attrval)) (names : List (List Char)) :
    ∀ st : NodesOut, ErrFrame st.handle (_parse_line_nodes line_num attrvals names st).handle := by
  induction names with
  | nil => intro st; exact errFrame_refl _
  | cons node rest ih =>
    intro st
    unfold _parse_line_nodes
    have s1 := parse_line_node_lint line_num hn attrvals node st
    split
    · exact errFrame_trans s1 (ih _)
    · exact s1

/-- In lint mode `_parse_line` changes nothing of the handle but the error code. -/
theorem parse_line_lint (env : Env) (h : genders) (line : List Char) (line_num : Nat)
    (hn : 0 < line_num) (stream : List Diag) (dn : List genders_node)
    (da : List (List genders_attrval)) :
    ErrFrame h (_parse_line env h line line_num stream dn da).handle := by
  have h0 : line_num ≠ 0 := by omega
  unfold _parse_line
  simp only [h0, if_false]
  split
  · exact errFrame_refl _
  · have ha := parse_line_attrlist_lint h
      (strsep (((line.takeWhile (fun c => c != '#')).reverse.dropWhile isspace).reverse.dropWhile
        isspace)).2 line_num hn stream
    generalize _parse_line_attrlist h
      (strsep (((line.takeWhile (fun c => c != '#')).reverse.dropWhile isspace).reverse.dropWhile
        isspace)).2 line_num stream = a at ha ⊢
    split
    · exact ha.1
    · split
      · exact errFrame_trans ha.1 (errFrame_set _ _)
      · rename_i names _
        have hr := parse_line_nodes_lint line_num hn a.2.1 names ⟨dn, a.1.handle, 0, a.1.stream, none⟩
        generalize _parse_line_nodes line_num a.2.1 names ⟨dn, a.1.handle, 0, a.1.stream, none⟩ = r
          at hr ⊢
        split
        · exact errFrame_trans ha.1 hr
        · simp only [ha.2, ne_eq, not_true_eq_false, if_false]
          exact errFrame_trans ha.1 hr

theorem readline_errFrame (h : genders) (ret buflen : Int) :
    ErrFrame h (_readline h ret buflen).1 := by
  unfold _readline
  split
  · exact errFrame_set _ _
  · split
    · exact errFrame_set _ _
    · exact errFrame_refl _

theorem parse_loop_lint (env : Env) (file : List (Int × List Char)) :
    ∀ st : ParseLoop, 0 < st.line_count →
      ErrFrame st.handle (genders_parse_loop env file st).handle := by
  induction file with
  | nil => intro st _; exact errFrame_refl _
  | cons ev rest ih =>
    intro st hn
    obtain ⟨ret, buf⟩ := ev
    unfold genders_parse_loop
    simp only
    have hr := readline_errFrame st.handle ret GENDERS_READLINE_BUFLEN
    have hp := parse_line_lint env (_readline st.handle ret GENDERS_READLINE_BUFLEN).1 buf
      st.line_count hn st.stream st.debugnodeslist st.debugattrvalslist
    split
    · split
      · exact errFrame_trans hr hp
      · exact errFrame_trans (errFrame_trans hr hp) (ih _ (Nat.succ_pos _))
    · exact hr

/-- C14.  For every valid handle, loaded or not, and every input file and
stream, `genders_parse` (lint) returns the handle it was given up to the
error code: the loaded flag, the node table, the attrval-list table, the
attribute-name list, the node index, the scratch buffer, the local host name
and the six statistics are unchanged. -/
theorem lint_keeps_handle (env : Env) (h : genders) (filename : Option (List Char))
    (stream : Option (List Diag)) (stderr : List Diag) (hm : h.magic = GENDERS_MAGIC_NUM) :
    ∃ h1, (genders_parse env (some h) filename stream stderr).handle = some h1 ∧
      h1 = { h with errnum := h1.errnum } ∧
      h1.is_loaded = h.is_loaded ∧ h1.nodeslist = h.nodeslist ∧
      h1.attrvalslist = h.attrvalslist ∧ h1.attrslist = h.attrslist ∧
      h1.node_index = h.node_index ∧ h1.nodename = h.nodename ∧
      h1.numnodes = h.numnodes ∧ h1.numattrs = h.numattrs ∧ h1.maxattrs = h.maxattrs ∧
      h1.maxnodelen = h.maxnodelen ∧ h1.maxattrlen = h.maxattrlen ∧
      h1.maxvallen = h.maxvallen := by
  have key : ∀ h1 : genders, ErrFrame h h1 → ∃ h2, some h1 = some h2 ∧
      h2 = { h with errnum := h2.errnum } ∧
      h2.is_loaded = h.is_loaded ∧ h2.nodeslist = h.nodeslist ∧
      h2.attrvalslist = h.attrvalslist ∧ h2.attrslist = h.attrslist ∧
      h2.node_index = h.node_index ∧ h2.nodename = h.nodename ∧
      h2.numnodes = h.numnodes ∧ h2.numattrs = h.numattrs ∧ h2.maxattrs = h.maxattrs ∧
      h2.maxnodelen = h.maxnodelen ∧ h2.maxattrlen = h.maxattrlen ∧
      h2.maxvallen = h.maxvallen := by
    intro h1 hf
    refine ⟨h1, rfl, hf, ?_⟩
    unfold ErrFrame at hf
    rw [hf]
    exact ⟨rfl, rfl, rfl, rfl, rfl, rfl, rfl, rfl, rfl, rfl, rfl, rfl⟩
  unfold genders_parse
  rw [handle_check_valid h hm]
  simp only [lt_self_iff_false, if_false]
  cases env.files (filename.getD GENDERS_DEFAULT_FILE) with
  | none => exact key _ (errFrame_set _ _)
  | some file =>
    simp only
    have hl := parse_loop_lint env file ⟨h, 1, 0, stream.getD stderr, [], [], 0, true⟩
      Nat.one_pos
    generalize genders_parse_loop env file ⟨h, 1, 0, stream.getD stderr, [], [], 0, true⟩ = st
      at hl ⊢
    simp only at hl
    split
    · exact key _ hl
    · split
      · exact key _ hl
      · split
        · exact key _ hl
        · exact key _ (errFrame_trans hl (errFrame_set _ _))

theorem lint_keeps_handle_witness :
    genders_handle_create.magic = GENDERS_MAGIC_NUM ∧
    (exampleLint ["n1 a b,c", "n2 d, e", "n3 f"]).retval = 2 ∧
    (exampleLint ["n1 a b,c", "n2 d, e", "n3 f"]).stream
      = some [Diag.white_space 1, Diag.white_space 2] ∧
    ∃ h1, (exampleLint ["n1 a b,c", "n2 d, e", "n3 f"]).handle = some h1 ∧
      h1 = { genders_handle_create with errnum := h1.errnum } ∧ h1.is_loaded = 0 :=
  ⟨rfl, by decide, by decide,
    match lint_keeps_handle (exampleEnv ["n1 a b,c", "n2 d, e", "n3 f"])
      genders_handle_create none (some []) [] rfl with
    | ⟨h1, e1, e2, e3, _⟩ => ⟨h1, e1, e2, e3⟩⟩

/-! ## Lint accepts what load accepts -/

theorem parse_line_attr_sim (n : Nat) (hn : 0 < n) (tok : List Char) (st0 stn : AttrsOut)
    (hav : stn.attrvals = st0.attrvals) (hokn : stn.ok = true)
    (hok : (_parse_line_attr 0 tok st0).ok = true) :
    (_parse_line_attr n tok stn).ok = true ∧
    (_parse_line_attr n tok stn).attrvals = (_parse_line_attr 0 tok st0).attrvals ∧
    (_parse_line_attr n tok stn).stream = stn.stream := by
  have h0 : n ≠ 0 := by omega
  unfold _parse_line_attr at hok ⊢
  by_cases hfind : (st0.attrvals.find?
      (fun av => _is_attr_in_attrvals av (split_attr tok).1)).isSome = true
  · simp [hfind] at hok
  · simp only [hav, hfind, h0, if_false, Bool.false_eq_true] at hok ⊢
    refine ⟨hokn, ?_, by trivial⟩
    simp only [if_true]
    split
    · split <;> rfl
    · rfl

theorem parse_line_attrs_sim (n : Nat) (hn : 0 < n) (toks : List (List Char)) :
    ∀ (st0 stn : AttrsOut), stn.attrvals = st0.attrvals → stn.ok = true →
      (_parse_line_attrs 0 toks st0).ok = true →
      (_parse_line_attrs n toks stn).ok = true ∧
      (_parse_line_attrs n toks stn).attrvals = (_parse_line_attrs 0 toks st0).attrvals ∧
      (_parse_line_attrs n toks stn).stream = stn.stream := by
  induction toks with
  | nil => intro st0 stn hav hokn _; exact ⟨hokn, hav, rfl⟩
  | cons tok rest ih =>
    intro st0 stn hav hokn hok
    unfold _parse_line_attrs at hok ⊢
    by_cases h1 : (_parse_line_attr 0 tok st0).ok = true
    · rw [if_pos h1] at hok ⊢
      have s1 := parse_line_attr_sim n hn tok st0 stn hav hokn h1
      rw [if_pos s1.1]
      have s2 := ih _ _ s1.2.1 s1.1 hok
      exact ⟨s2.1, s2.2.1, s2.2.2.trans s1.2.2⟩
    · rw [if_neg h1] at hok
      exact absurd hok h1

theorem parse_line_attrlist_sim (h0 hn : genders) (line : Option (List Char)) (n : Nat)
    (hpos : 0 < n) (stream : List Diag)
    (hok : (_parse_line_attrlist h0 line 0 []).1.ok = true) :
    (_parse_line_attrlist hn line n stream).1.ok = true ∧
    (_parse_line_attrlist hn line n stream).2.1 = (_parse_line_attrlist h0 line 0 []).2.1 ∧
    (_parse_line_attrlist hn line n stream).1.stream = stream := by
  unfold _parse_line_attrlist at hok ⊢
  cases line with
  | none => exact ⟨rfl, rfl, rfl⟩
  | some l =>
    simp only at hok ⊢
    by_cases h1 : l.dropWhile isspace ≠ []
    · simp only [if_pos h1] at hok ⊢
      by_cases h2 : (strchr (l.dropWhile isspace) ' ' || strchr (l.dropWhile isspace) '\t') = true
      · simp only [if_pos h2] at hok
        simp at hok
      · simp only [if_neg h2] at hok ⊢
        have s := parse_line_attrs_sim n hpos (strtok_r (l.dropWhile isspace) [])
          ⟨h0, [], 0, [], true⟩ ⟨hn, [], 0, stream, true⟩ rfl rfl hok
        exact ⟨s.1, by rw [s.2.1], s.2.2⟩
    · simp only [if_neg h1]
      exact ⟨trivial, trivial, trivial⟩

theorem parse_line_node_sim (n : Nat) (hn : 0 < n) (attrvals : Option (List genders_attrval))
    (node : List Char) (st0 stn : NodesOut) (hnl : stn.nodelist = st0.nodelist)
    (hexn : stn.exit = none) (hex : (_parse_line_node 0 attrvals node st0).exit = none) :
    (_parse_line_node n attrvals node stn).exit = none ∧
    (_parse_line_node n attrvals node stn).nodelist
      = (_parse_line_node 0 attrvals node st0).nodelist ∧
    (_parse_line_node n attrvals node stn).stream = stn.stream := by
  have h0 : n ≠ 0 := by omega
  unfold _parse_line_node at hex ⊢
  by_cases h1 : node.length > MAXHOSTNAMELEN
  · simp [h1] at hex
  · by_cases h2 : strchr node '.' = true
    · simp [h1, h2] at hex
    · simp only [h1, h2, if_false, Bool.false_eq_true, hnl, h0] at hex ⊢
      cases attrvals with
      | none => exact ⟨hexn, by trivial, by trivial⟩
      | some avs =>
        simp only at hex ⊢
        by_cases h3 : _duplicate_attr_check (_insert_node st0.nodelist node).2.attrlist avs = 1
        · simp [h3] at hex
        · simp only [h3, if_false] at hex ⊢
          exact ⟨hexn, by trivial, by trivial⟩

theorem parse_line_nodes_sim (n : Nat) (hn : 0 < n) (attrvals : Option (List genders_attrval))
    (names : List (List Char)) :
    ∀ (st0 stn : NodesOut), stn.nodelist = st0.nodelist → stn.exit = none →
      (_parse_line_nodes 0 attrvals names st0).exit = none →
      (_parse_line_nodes n attrvals names stn).exit = none ∧
      (_parse_line_nodes n attrvals names stn).nodelist
        = (_parse_line_nodes 0 attrvals names st0).nodelist ∧
      (_parse_line_nodes n attrvals names stn).stream = stn.stream := by
  induction names with
  | nil => intro st0 stn hnl hexn _; exact ⟨hexn, hnl, rfl⟩
  | cons node rest ih =>
    intro st0 stn hnl hexn hex
    unfold _parse_line_nodes at hex ⊢
    by_cases h1 : (_parse_line_node 0 attrvals node st0).exit = none
    · rw [if_pos h1] at hex ⊢
      have s1 := parse_line_node_sim n hn attrvals node st0 stn hnl hexn h1
      rw [if_pos s1.1]
      have s2 := ih _ _ s1.2.1 s1.1 hex
      exact ⟨s2.1, s2.2.1, s2.2.2.trans s1.2.2⟩
    · rw [if_neg h1] at hex
      exact absurd hex h1

/-- A line that `_parse_line` accepts when parsing into the handle is accepted
without a diagnostic when parsing into debug lists that hold the same nodes. -/
theorem parse_line_sim (env : Env) (h0 hn : genders) (line : List Char) (n : Nat)
    (hpos : 0 < n) (stream : List Diag) (dn : List genders_node)
    (da : List (List genders_attrval)) (hnl : dn = h0.nodeslist)
    (hok : ¬ (_parse_line env h0 line 0 [] [] []).retval < 0) :
    (_parse_line env hn line n stream dn da).retval = 0 ∧
    (_parse_line env hn line n stream dn da).debugnodeslist
      = (_parse_line env h0 line 0 [] [] []).handle.nodeslist ∧
    (_parse_line env hn line n stream dn da).stream = stream := by
  have hn0 : n ≠ 0 := by omega
  unfold _parse_line at hok ⊢
  simp only at hok ⊢
  generalize ((line.takeWhile (fun c => c != '#')).reverse.dropWhile isspace).reverse = line2
    at hok ⊢
  by_cases hne : line2 = []
  · simp only [if_pos hne]
    exact ⟨trivial, hnl, trivial⟩
  · simp only [if_neg hne] at hok ⊢
    generalize (strsep (line2.dropWhile isspace)).1 = nodenames at hok ⊢
    generalize (strsep (line2.dropWhile isspace)).2 = rest at hok ⊢
    have ha := parse_line_attrlist_inv h0 rest
    have hs := parse_line_attrlist_sim h0 hn rest n hpos stream
    generalize _parse_line_attrlist h0 rest 0 [] = a0 at hok ha hs ⊢
    generalize _parse_line_attrlist hn rest n stream = an at hs ⊢
    by_cases hak : a0.1.ok = false
    · rw [if_pos hak] at hok
      exact absurd (ha.1 hak) hok
    · rw [if_neg hak] at hok
      have hak1 : a0.1.ok = true := by simpa using hak
      have ha2 := ha.2 hak1
      have hs2 := hs hak1
      have hank : ¬ an.1.ok = false := by simp [hs2.1]
      simp only [if_neg hank, if_neg hak, hn0, if_false]
      cases hh : env.hostlist nodenames with
      | none => simp [hh] at hok
      | some names =>
        simp only [hh, if_true] at hok ⊢
        have hx := parse_line_nodes_exit a0.2.1 names
          ⟨a0.1.handle.nodeslist, a0.1.handle, 0, a0.1.stream, none⟩
        have hsim := parse_line_nodes_sim n hpos a0.2.1 names
          ⟨a0.1.handle.nodeslist, a0.1.handle, 0, a0.1.stream, none⟩
          ⟨dn, an.1.handle, 0, an.1.stream, none⟩ (by rw [ha2.2.2]; exact hnl) rfl
        rw [hs2.2.1]
        generalize _parse_line_nodes 0 a0.2.1 names
          ⟨a0.1.handle.nodeslist, a0.1.handle, 0, a0.1.stream, none⟩ = r0 at hok hx hsim ⊢
        generalize _parse_line_nodes n a0.2.1 names
          ⟨dn, an.1.handle, 0, an.1.stream, none⟩ = rn at hsim ⊢
        cases hex : r0.exit with
        | some rv =>
          simp only [hex] at hok
          rcases hx rv hex with h1 | h1
          · omega
          · cases h1
        | none =>
          have hsim2 := hsim hex
          simp only [hsim2.1, hex]
          refine ⟨trivial, ?_, ?_⟩
          · rw [hsim2.2.1]
          · rw [hsim2.2.2]
            exact hs2.2.2

theorem parse_loop_sim (env : Env) (file : List (Int × List Char)) :
    ∀ (h0 : genders) (st : ParseLoop), st.debugnodeslist = h0.nodeslist → 0 < st.line_count →
      st.ok = true → ¬ (genders_load_data_lines env file h0).2 < 0 →
      (genders_parse_loop env file st).ok = true ∧
      (genders_parse_loop env file st).ret = 0 ∧
      (genders_parse_loop env file st).errcount = st.errcount ∧
      (genders_parse_loop env file st).stream = st.stream ∧
      (genders_parse_loop env file st).debugnodeslist
        = (genders_load_data_lines env file h0).1.nodeslist := by
  induction file with
  | nil => intro h0 st hnl _ hst _; exact ⟨hst, rfl, rfl, rfl, hnl⟩
  | cons ev rest ih =>
    intro h0 st hnl hpos hst hok
    obtain ⟨ret, buf⟩ := ev
    unfold genders_load_data_lines at hok ⊢
    unfold genders_parse_loop
    simp only at hok ⊢
    have hret : (_readline st.handle ret GENDERS_READLINE_BUFLEN).2
        = (_readline h0 ret GENDERS_READLINE_BUFLEN).2 := by
      unfold _readline
      split
      · rfl
      · split <;> rfl
    rw [hret]
    by_cases hp : (_readline h0 ret GENDERS_READLINE_BUFLEN).2 > 0
    · simp only [if_pos hp] at hok ⊢
      rw [readline_pos h0 ret _ hp] at hok ⊢
      by_cases hf : (_parse_line env h0 buf 0 [] [] []).retval < 0
      · rw [if_pos hf] at hok
        simp at hok
      · simp only [if_neg hf] at hok ⊢
        have s1 := parse_line_sim env h0 (_readline st.handle ret GENDERS_READLINE_BUFLEN).1 buf
          st.line_count hpos st.stream st.debugnodeslist st.debugattrvalslist hnl hf
        generalize _parse_line env (_readline st.handle ret GENDERS_READLINE_BUFLEN).1 buf
          st.line_count st.stream st.debugnodeslist st.debugattrvalslist = pn at s1 ⊢
        have hpn : ¬ pn.retval < 0 := by rw [s1.1]; decide
        rw [if_neg hpn]
        have s2 := ih (_parse_line env h0 buf 0 [] [] []).handle
          { st with handle := pn.handle, line_count := st.line_count + 1,
                    errcount := st.errcount + pn.retval, stream := pn.stream,
                    debugnodeslist := pn.debugnodeslist,
                    debugattrvalslist := pn.debugattrvalslist }
          s1.2.1 (Nat.succ_pos _) hst hok
        refine ⟨s2.1, s2.2.1, ?_, ?_, s2.2.2.2.2⟩
        · rw [s2.2.2.1]; simp [s1.1]
        · rw [s2.2.2.2.1]; exact s1.2.2
    · simp only [if_neg hp] at hok ⊢
      by_cases hn : (_readline h0 ret GENDERS_READLINE_BUFLEN).2 < 0
      · rw [if_pos hn] at hok
        simp at hok
      · rw [if_neg hn]
        refine ⟨hst, by omega, by trivial, by trivial, ?_⟩
        rw [(readline_frame h0 ret GENDERS_READLINE_BUFLEN).2]
        exact hnl

/-- C12.  For every sequence of input lines and every (fixed) host-list
expander: if `genders_load_data` on a valid, unloaded handle with an empty
node table accepts the file, then `genders_parse` (lint) of the same file, on
any valid handle and with any stream, returns 0, prints nothing and leaves
the error code `SUCCESS`. -/
theorem load_accepts_lint_clean (env : Env) (h0 : genders) (filename : Option (List Char))
    (hm0 : h0.magic = GENDERS_MAGIC_NUM) (hu : h0.is_loaded = 0) (he : h0.nodeslist = [])
    (hload : (genders_load_data env (some h0) filename).2 = 0)
    (h : genders) (hm : h.magic = GENDERS_MAGIC_NUM)
    (stream : Option (List Diag)) (stderr : List Diag) :
    (genders_parse env (some h) filename stream stderr).retval = 0 ∧
    (genders_parse env (some h) filename stream stderr).stream = stream ∧
    (genders_parse env (some h) filename stream stderr).stderr = stderr ∧
    genders_errnum (genders_parse env (some h) filename stream stderr).handle
      = GENDERS_ERR_SUCCESS := by
  unfold genders_load_data at hload
  rw [unloaded_check_ok h0 hm0 hu] at hload
  simp only [lt_self_iff_false, if_false] at hload
  unfold genders_parse
  rw [handle_check_valid h hm]
  simp only [lt_self_iff_false, if_false]
  cases hf : env.files (filename.getD GENDERS_DEFAULT_FILE) with
  | none => simp [hf] at hload
  | some file =>
    simp only [hf] at hload ⊢
    have hsim := parse_loop_sim env file h0 ⟨h, 1, 0, stream.getD stderr, [], [], 0, true⟩
      he.symm Nat.one_pos rfl
    have hfr := parse_loop_lint env file ⟨h, 1, 0, stream.getD stderr, [], [], 0, true⟩
      Nat.one_pos
    generalize genders_parse_loop env file ⟨h, 1, 0, stream.getD stderr, [], [], 0, true⟩ = st
      at hsim hfr ⊢
    generalize genders_load_data_lines env file h0 = r at hload hsim
    by_cases h1 : r.2 < 0
    · simp [h1] at hload
    · rw [if_neg h1] at hload
      obtain ⟨s1, s2, s3, s4, s5⟩ := hsim h1
      simp only at s3 s4 hfr
      have hne : ¬ r.1.nodeslist.length = 0 := by
        intro hz
        unfold genders_load_data_finish at hload
        rw [if_pos hz] at hload
        simp at hload
      have hmag : st.handle.magic = GENDERS_MAGIC_NUM := by
        unfold ErrFrame at hfr
        rw [hfr]
        exact hm
      have c1 : ¬ st.ok = false := by simp [s1]
      have c2 : ¬ (st.ret < 0 ∧ st.handle.errnum = GENDERS_ERR_OVERFLOW) := by
        rw [s2]; simp
      have c3 : ¬ st.debugnodeslist.length = 0 := by rw [s5]; exact hne
      rw [if_neg c1, if_neg c2, if_neg c3]
      refine ⟨s3, ?_, ?_, ?_⟩
      · rw [s4]
        cases stream <;> rfl
      · rw [s4]
        cases stream <;> rfl
      · simp [genders_errnum, hmag]

theorem load_accepts_lint_clean_witness :
    genders_handle_create.magic = GENDERS_MAGIC_NUM ∧ genders_handle_create.is_loaded = 0 ∧
    genders_handle_create.nodeslist = [] ∧
    (exampleLoad ["n[1-2]  path=/srv/%n/data,owner=%%root", "", "# comment", "n3 a  # b"]).2 = 0 ∧
    (exampleLint ["n[1-2]  path=/srv/%n/data,owner=%%root", "", "# comment", "n3 a  # b"]).retval
      = 0 :=
  ⟨rfl, rfl, rfl, by decide,
    (load_accepts_lint_clean
      (exampleEnv ["n[1-2]  path=/srv/%n/data,owner=%%root", "", "# comment", "n3 a  # b"])
      genders_handle_create none rfl rfl rfl (by decide) genders_handle_create rfl
      (some []) []).1⟩

/-! ## The cached attribute counts -/

theorem countInv_mono {m m1 : Nat} {l : List genders_node} (h : CountInv m l) (hm : m ≤ m1) :
    CountInv m1 l := fun n hn => ⟨(h n hn).1, le_trans (h n hn).2 hm⟩

theorem le_MAX_right (x y : Nat) : y ≤ MAX x y := by
  unfold MAX; split <;> omega

theorem le_MAX_left (x y : Nat) : x ≤ MAX x y := by
  unfold MAX; split <;> omega

theorem insert_node_count (m : Nat) (l : List genders_node) (node : List Char)
    (hc : CountInv m l) :
    CountInv m (_insert_node l node).1 ∧ (_insert_node l node).2 ∈ (_insert_node l node).1 := by
  unfold _insert_node
  cases hf : l.find? (fun x => _is_node x node) with
  | some n => exact ⟨hc, List.mem_of_find?_eq_some hf⟩
  | none =>
    refine ⟨?_, by simp⟩
    intro x hx
    rcases List.mem_append.mp hx with h1 | h1
    · exact hc x h1
    · simp only [List.mem_singleton] at h1
      subst h1
      exact ⟨rfl, Nat.zero_le _⟩

theorem parse_line_attr_frame (tok : List Char) (st : AttrsOut) :
    (_parse_line_attr 0 tok st).handle.nodeslist = st.handle.nodeslist ∧
    (_parse_line_attr 0 tok st).handle.maxattrs = st.handle.maxattrs := by
  have hi := insert_attr_frame st.handle (split_attr tok).1
  have hi2 : (_insert_attr st.handle (split_attr tok).1).1.maxattrs = st.handle.maxattrs := by
    unfold _insert_attr; split <;> rfl
  unfold _parse_line_attr
  simp only [if_true]
  split
  · exact ⟨rfl, rfl⟩
  · split
    · split
      · exact ⟨hi.2, hi2⟩
      · exact ⟨hi.2, hi2⟩
    · exact ⟨hi.2, hi2⟩

theorem parse_line_attrs_frame (toks : List (List Char)) :
    ∀ st : AttrsOut,
      (_parse_line_attrs 0 toks st).handle.nodeslist = st.handle.nodeslist ∧
      (_parse_line_attrs 0 toks st).handle.maxattrs = st.handle.maxattrs := by
  induction toks with
  | nil => intro st; exact ⟨rfl, rfl⟩
  | cons tok rest ih =>
    intro st
    unfold _parse_line_attrs
    have s1 := parse_line_attr_frame tok st
    split
    · have s2 := ih (_parse_line_attr 0 tok st)
      exact ⟨s2.1.trans s1.1, s2.2.trans s1.2⟩
    · exact s1

theorem parse_line_attrlist_frame (h : genders) (line : Option (List Char)) :
    (_parse_line_attrlist h line 0 []).1.handle.nodeslist = h.nodeslist ∧
    (_parse_line_attrlist h line 0 []).1.handle.maxattrs = h.maxattrs := by
  unfold _parse_line_attrlist
  cases line with
  | none => exact ⟨rfl, rfl⟩
  | some l =>
    simp only
    split
    · split
      · exact ⟨rfl, rfl⟩
      · exact parse_line_attrs_frame _ ⟨h, [], 0, [], true⟩
    · exact ⟨rfl, rfl⟩

theorem parse_line_node_count (attrvals : Option (List genders_attrval)) (node : List Char)
    (st : NodesOut) (hc : CountInv st.handle.maxattrs st.nodelist) :
    CountInv (_parse_line_node 0 attrvals node st).handle.maxattrs
      (_parse_line_node 0 attrvals node st).nodelist := by
  have hi := insert_node_count st.handle.maxattrs st.nodelist node hc
  unfold _parse_line_node
  simp only [if_true]
  split
  · exact hc
  · split
    · exact hc
    · split
      · rename_i avs
        split
        · exact hi.1
        · intro x hx
          rcases node_store_mem _ _ x hx with h1 | h1
          · subst h1
            refine ⟨?_, le_MAX_left _ _⟩
            simp only [List.map_append, List.map_cons, List.map_nil, List.sum_append,
              List.sum_cons, List.sum_nil, Nat.add_zero]
            rw [(hi.1 _ hi.2).1]
          · exact ⟨(hi.1 x h1).1, le_trans (hi.1 x h1).2 (le_MAX_right _ _)⟩
      · exact countInv_mono hi.1 (le_MAX_right _ _)

theorem parse_line_nodes_count (attrvals : Option (List genders_attrval))
    (names : List (List Char)) :
    ∀ st : NodesOut, CountInv st.handle.maxattrs st.nodelist →
      CountInv (_parse_line_nodes 0 attrvals names st).handle.maxattrs
        (_parse_line_nodes 0 attrvals names st).nodelist := by
  induction names with
  | nil => intro st hc; exact hc
  | cons node rest ih =>
    intro st hc
    unfold _parse_line_nodes
    have s1 := parse_line_node_count attrvals node st hc
    split
    · exact ih _ s1
    · exact s1

/-- Parsing a line into the handle keeps the cached counts right. -/
theorem parse_line_count (env : Env) (h : genders) (line : List Char)
    (hc : CountInv h.maxattrs h.nodeslist) :
    CountInv (_parse_line env h line 0 [] [] []).handle.maxattrs
      (_parse_line env h line 0 [] [] []).handle.nodeslist := by
  unfold _parse_line
  simp only [if_true]
  split
  · exact hc
  · have ha := parse_line_attrlist_frame h
      (strsep (((line.takeWhile (fun c => c != '#')).reverse.dropWhile isspace).reverse.dropWhile
        isspace)).2
    generalize _parse_line_attrlist h
      (strsep (((line.takeWhile (fun c => c != '#')).reverse.dropWhile isspace).reverse.dropWhile
        isspace)).2 0 [] = a at ha ⊢
    have hca : CountInv a.1.handle.maxattrs a.1.handle.nodeslist := by
      rw [ha.1, ha.2]; exact hc
    split
    · exact hca
    · split
      · exact hca
      · rename_i names _
        have hr := parse_line_nodes_count a.2.1 names
          ⟨a.1.handle.nodeslist, a.1.handle, 0, a.1.stream, none⟩ hca
        generalize _parse_line_nodes 0 a.2.1 names
          ⟨a.1.handle.nodeslist, a.1.handle, 0, a.1.stream, none⟩ = r at hr ⊢
        split
        · exact hr
        · simp only
          split <;> exact hr

theorem readline_count (h : genders) (ret buflen : Int) :
    (_readline h ret buflen).1.nodeslist = h.nodeslist ∧
    (_readline h ret buflen).1.maxattrs = h.maxattrs := by
  unfold _readline
  split
  · exact ⟨rfl, rfl⟩
  · split <;> exact ⟨rfl, rfl⟩

theorem load_lines_count (env : Env) (file : List (Int × List Char)) :
    ∀ h : genders, CountInv h.maxattrs h.nodeslist →
      CountInv (genders_load_data_lines env file h).1.maxattrs
        (genders_load_data_lines env file h).1.nodeslist := by
  induction file with
  | nil => intro h hc; exact hc
  | cons ev rest ih =>
    intro h hc
    obtain ⟨ret, buf⟩ := ev
    have hr := readline_count h ret GENDERS_READLINE_BUFLEN
    have hcr : CountInv (_readline h ret GENDERS_READLINE_BUFLEN).1.maxattrs
        (_readline h ret GENDERS_READLINE_BUFLEN).1.nodeslist := by
      rw [hr.1, hr.2]; exact hc
    have hp := parse_line_count env (_readline h ret GENDERS_READLINE_BUFLEN).1 buf hcr
    unfold genders_load_data_lines
    simp only
    split
    · split
      · exact hp
      · exact ih _ hp
    · split <;> exact hcr

theorem load_count_gen (env : Env) (h0 : genders) (filename : Option (List Char)) (hL : genders)
    (hm : h0.magic = GENDERS_MAGIC_NUM) (hu : h0.is_loaded = 0)
    (hc : CountInv h0.maxattrs h0.nodeslist)
    (hload : genders_load_data env (some h0) filename = (some hL, 0)) :
    CountInv hL.maxattrs hL.nodeslist := by
  unfold genders_load_data at hload
  rw [unloaded_check_ok h0 hm hu] at hload
  simp only [lt_self_iff_false, if_false] at hload
  cases hf : env.files (filename.getD GENDERS_DEFAULT_FILE) with
  | none => simp [hf] at hload
  | some file =>
    simp only [hf] at hload
    have hl := load_lines_count env file h0 hc
    generalize genders_load_data_lines env file h0 = r at hload hl
    by_cases h1 : r.2 < 0
    · simp [h1] at hload
    · rw [if_neg h1] at hload
      simp only [Prod.mk.injEq, Option.some.injEq] at hload
      rw [← hload.1]
      have h2 := hload.2
      unfold genders_load_data_finish at h2 ⊢
      by_cases hz : r.1.nodeslist.length = 0
      · rw [if_pos hz] at h2
        simp at h2
      · rw [if_neg hz] at h2 ⊢
        cases hg : env.gethostname with
        | none => simp [hg] at h2
        | some host => exact hl

theorem countInv_of_loaded (env : Env) (h : genders) (hl : LoadedHandle env h) :
    CountInv h.maxattrs h.nodeslist := by
  obtain ⟨e, filename, hL, hload, heq⟩ := hl
  have := load_count_gen env { genders_handle_create with errnum := e } filename hL rfl rfl
    (fun n hn => by simp [genders_handle_create] at hn) hload
  rw [heq]
  exact this

/-- C13, at the file `n1 b` / `n2 a,a` / `n3 c c` (node `n1` is parsed from
line 1; line 2 repeats the attribute `a`, line 3 has white space in its
attribute list): lint prints the one diagnostic of line 2, stops there with
-1 and `PARSE`, and never reaches line 3, where the claim has it go on and
return 2; the branch of `_parse_line` for a repeated attribute (lines
663-671) does not set `retval = 1` as the four other branches do.  On the
file `n1 a b,c` / `n2 d, e` / `n3 f` lint returns 2 with its two
diagnostics. -/
theorem lint_duplicate_attribute_fatal :
    (exampleLint ["n1 b", "n2 a,a", "n3 c c"]).retval = -1 ∧
    (exampleLint ["n1 b", "n2 a,a", "n3 c c"]).stream
      = some [Diag.duplicate_attribute 2 "a".toList] ∧
    (exampleLint ["n1 b", "n2 a,a", "n3 c c"]).stderr = [] ∧
    genders_errnum (exampleLint ["n1 b", "n2 a,a", "n3 c c"]).handle = GENDERS_ERR_PARSE ∧
    (exampleLint ["n1 b", "n3 c c"]).retval = 1 ∧
    (exampleLint ["n1 b", "n3 c c"]).stream = some [Diag.white_space 2] ∧
    (exampleLint ["n1 a b,c", "n2 d, e", "n3 f"]).retval = 2 ∧
    (exampleLint ["n1 a b,c", "n2 d, e", "n3 f"]).stream
      = some [Diag.white_space 1, Diag.white_space 2] := by
  refine ⟨by decide, by decide, by decide, by decide, by decide, by decide, by decide,
    by decide⟩

/-- C15, at a file whose first line is `n1` and whose second line fills the
line buffer (the reader returns 65535, whatever the buffer holds): load
returns -1, but lint returns 0 with `SUCCESS` and prints nothing.
`_readline` reports the over-long line with `PARSE`, and `genders_parse`
(line 1621) treats a failed read as fatal only when the code is `OVERFLOW`. -/
theorem lint_overlong_line_not_fatal (buf : List Char) :
    (genders_load_data (exampleReads [(3, "n1\n".toList), (65535, buf)])
      (some genders_handle_create) none).2 = -1 ∧
    (genders_parse (exampleReads [(3, "n1\n".toList), (65535, buf)])
      (some genders_handle_create) none (some []) []).retval = 0 ∧
    (genders_parse (exampleReads [(3, "n1\n".toList), (65535, buf)])
      (some genders_handle_create) none (some []) []).stream = some [] ∧
    (genders_parse (exampleReads [(3, "n1\n".toList), (65535, buf)])
      (some genders_handle_create) none (some []) []).stderr = [] ∧
    (genders_parse (exampleReads [(3, "n1\n".toList), (65535, buf)])
      (some genders_handle_create) none (some []) []).handle.map (fun h => h.errnum)
      = some GENDERS_ERR_SUCCESS := by
  refine ⟨by rfl, by rfl, by rfl, by rfl, by rfl⟩

/-- C16: the table `errmsg` has 14 entries, not 15.  For the codes 0 to 12
`genders_strerror` returns the code's own entry; for `INTERNAL` (13) it
returns the text "unknown internal errorerror number out of range"; for
`ERRNUMRANGE` (14) and for every code out of range (-1 and 15 shown) it
reads `errmsg[14]`, past the end of the table. -/
theorem strerror_table_short :
    errmsg.length = 14 ∧
    (∀ i : Fin 13, genders_strerror (i.val : Int) = errmsg[i.val]? ∧ errmsg[i.val]? ≠ none) ∧
    genders_strerror GENDERS_ERR_INTERNAL
      = some "unknown internal errorerror number out of range".toList ∧
    genders_strerror GENDERS_ERR_INTERNAL ≠ some "unknown internal error".toList ∧
    genders_strerror GENDERS_ERR_ERRNUMRANGE = none ∧
    genders_strerror (-1) = none ∧
    genders_strerror 15 = none := by
  refine ⟨by decide, by decide, by decide, by decide, by decide, by decide, by decide⟩

/-- C18, at an empty file and at a file holding one comment line, on a
freshly created handle: lint prints "No nodes successfully parsed" and
returns -1, and the error code reported afterwards is `SUCCESS`.  Load of
the empty file returns -1 with `PARSE`. -/
theorem lint_no_nodes_keeps_errnum :
    (exampleLint []).retval = -1 ∧
    (exampleLint []).stderr = [Diag.no_nodes] ∧
    genders_errnum (exampleLint []).handle = GENDERS_ERR_SUCCESS ∧
    (exampleLint ["# only a comment"]).retval = -1 ∧
    (exampleLint ["# only a comment"]).stderr = [Diag.no_nodes] ∧
    genders_errnum (exampleLint ["# only a comment"]).handle = GENDERS_ERR_SUCCESS ∧
    (exampleLoad []).2 = -1 ∧
    genders_errnum (exampleLoad []).1 = GENDERS_ERR_PARSE := by
  refine ⟨by decide, by decide, by decide, by decide, by decide, by decide, by decide,
    by decide⟩

/-! ## Null and wrong-magic handles -/

theorem loaded_check_bad (handle : Option genders) (hbad : _handle_error_check handle < 0) :
    _loaded_handle_error_check handle = (handle, -1) := by
  simp [_loaded_handle_error_check, hbad]

theorem handle_check_bad (handle : Option genders)
    (hbad : ∀ h, handle = some h → h.magic ≠ GENDERS_MAGIC_NUM) :
    _handle_error_check handle < 0 := by
  cases handle with
  | none => simp [_handle_error_check]
  | some h => simp [_handle_error_check, hbad h rfl]

/-- C26, on the handle loaded from the file `n1 a=1` whose magic field has
been overwritten with 0, and on the same handle after
`genders_handle_destroy`: `genders_load_data` returns -1 but runs its cleanup
block, which writes the valid magic number back and clears the loaded flag,
`numnodes` and the node table; `genders_errnum` then no longer reports
`MAGIC`.  Lint and `genders_set_errnum` return the wrong-magic handle as
they got it. -/
theorem load_rewrites_bad_magic :
    (exampleLoad ["n1 a=1"]).2 = 0 ∧
    (exampleHandle ["n1 a=1"]).is_loaded = 1 ∧ (exampleHandle ["n1 a=1"]).numnodes = 1 ∧
    (genders_load_data (exampleEnv ["n1 a=1"])
      (some { exampleHandle ["n1 a=1"] with magic := 0 }) none).2 = -1 ∧
    (genders_load_data (exampleEnv ["n1 a=1"])
      (some { exampleHandle ["n1 a=1"] with magic := 0 }) none).1.map
        (fun h => (h.magic, h.is_loaded, h.numnodes, h.nodeslist, h.maxattrlen))
      = some (GENDERS_MAGIC_NUM, 0, 0, [], 0) ∧
    genders_errnum (some { exampleHandle ["n1 a=1"] with magic := 0 }) = GENDERS_ERR_MAGIC ∧
    genders_errnum (genders_load_data (exampleEnv ["n1 a=1"])
      (some { exampleHandle ["n1 a=1"] with magic := 0 }) none).1 = GENDERS_ERR_SUCCESS ∧
    genders_errnum (genders_handle_destroy (exampleLoad ["n1 a=1"]).1).1 = GENDERS_ERR_MAGIC ∧
    (genders_load_data (exampleEnv ["n1 a=1"])
      (genders_handle_destroy (exampleLoad ["n1 a=1"]).1).1 none).2 = -1 ∧
    (genders_load_data (exampleEnv ["n1 a=1"])
      (genders_handle_destroy (exampleLoad ["n1 a=1"]).1).1 none).1.map (fun h => h.magic)
      = some GENDERS_MAGIC_NUM ∧
    (genders_parse (exampleEnv ["n1 a=1"]) (some { exampleHandle ["n1 a=1"] with magic := 0 })
      none (some []) []).handle = some { exampleHandle ["n1 a=1"] with magic := 0 } ∧
    genders_set_errnum (some { exampleHandle ["n1 a=1"] with magic := 0 }) GENDERS_ERR_PARSE
      = some { exampleHandle ["n1 a=1"] with magic := 0 } := by
  refine ⟨by decide, by decide, by decide, by decide, by decide, by decide, by decide,
    by decide, by decide, by decide, by decide, by decide⟩

/-- C27, at the line `n1 a=xx%n,b=%n` parsed into a fresh handle (`M = 0`):
the values containing `%n` have the lengths 4 and 2, so `P = 4`, and the
node name has the length `L = 2`; the line leaves `maxvallen = 2`, not
`P - 2 + L = 4`: `max_n_subst_vallen = strlen(val)` (line 689) keeps the
length of the last value containing `%n`, not the maximum.  With the two
attributes in the other order the line leaves 4. -/
theorem maxvallen_uses_last_subst_value :
    (_parse_line (exampleEnv []) genders_handle_create "n1 a=xx%n,b=%n\n".toList 0 [] [] []).retval
      = 0 ∧
    (_parse_line (exampleEnv []) genders_handle_create "n1 a=xx%n,b=%n\n".toList 0 [] [] []
      ).handle.maxvallen = 2 ∧
    (_parse_line (exampleEnv []) genders_handle_create "n1 a=xx%n,b=%n\n".toList 0 [] [] []
      ).handle.attrvalslist
      = [[⟨"a".toList, some "xx%n".toList⟩, ⟨"b".toList, some "%n".toList⟩]] ∧
    (_parse_line (exampleEnv []) genders_handle_create "n1 a=xx%n,b=%n\n".toList 0 [] [] []
      ).handle.nodeslist.map (fun n => n.name) = ["n1".toList] ∧
    "xx%n".toList.length - 2 + "n1".toList.length = 4 ∧
    (_parse_line (exampleEnv []) genders_handle_create "n1 b=%n,a=xx%n\n".toList 0 [] [] []
      ).handle.maxvallen = 4 ∧
    (exampleLoad ["n1 a=xx%n,b=%n"]).2 = 0 ∧
    (exampleHandle ["n1 a=xx%n,b=%n"]).maxvallen = 2 := by
  refine ⟨by decide, by decide, by decide, by decide, by decide, by decide, by decide,
    by decide⟩

/-! ## The attribute tables and the statistics -/

theorem firstSeen_append (seen l1 l2 : List (List Char)) :
    firstSeen seen (l1 ++ l2) = firstSeen (firstSeen seen l1) l2 := by
  induction l1 generalizing seen with
  | nil => rfl
  | cons a rest ih =>
    simp only [List.cons_append, firstSeen]
    split
    · exact ih seen
    · exact ih _

theorem firstSeen_mem (seen l : List (List Char)) (a : List Char) :
    a ∈ firstSeen seen l ↔ a ∈ seen ∨ a ∈ l := by
  induction l generalizing seen with
  | nil => simp [firstSeen]
  | cons b rest ih =>
    simp only [firstSeen]
    split
    · rename_i hb
      rw [ih]
      constructor
      · rintro (h | h)
        · exact Or.inl h
        · exact Or.inr (List.mem_cons_of_mem _ h)
      · rintro (h | h)
        · exact Or.inl h
        · rcases List.mem_cons.mp h with rfl | h
          · exact Or.inl hb
          · exact Or.inr h
    · rw [ih]
      simp only [List.mem_append, List.mem_singleton, List.mem_cons]
      tauto

theorem firstSeen_nodup (seen l : List (List Char)) (hs : seen.Nodup) :
    (firstSeen seen l).Nodup := by
  induction l generalizing seen with
  | nil => exact hs
  | cons b rest ih =>
    simp only [firstSeen]
    split
    · exact ih seen hs
    · rename_i hb
      apply ih
      rw [List.nodup_append]
      refine ⟨hs, by simp, ?_⟩
      intro x hx hx2
      simp only [List.mem_singleton] at hx2
      subst hx2
      exact hb hx

theorem firstSeen_length_le (seen l : List (List Char)) :
    seen.length ≤ (firstSeen seen l).length := by
  induction l generalizing seen with
  | nil => exact le_refl _
  | cons b rest ih =>
    simp only [firstSeen]
    split
    · exact ih seen
    · exact le_trans (by simp) (ih _)

theorem find_is_str (l : List (List Char)) (a : List Char) :
    (l.find? (fun x => _is_str x a)).isSome = true ↔ a ∈ l := by
  rw [List.find?_isSome]
  simp [_is_str]

theorem insert_attr_spec (h : genders) (a : List Char) :
    (_insert_attr h a).1.attrslist = firstSeen h.attrslist [a] ∧
    (_insert_attr h a).1.attrslist.length = h.attrslist.length + (_insert_attr h a).2 ∧
    (_insert_attr h a).1.numattrs = h.numattrs ∧
    (_insert_attr h a).1.maxattrlen = h.maxattrlen ∧
    (_insert_attr h a).1.nodeslist = h.nodeslist ∧
    (_insert_attr h a).1.attrvalslist = h.attrvalslist ∧
    (_insert_attr h a).1.maxattrs = h.maxattrs ∧
    (_insert_attr h a).1.maxnodelen = h.maxnodelen := by
  unfold _insert_attr
  by_cases hf : (h.attrslist.find? (fun x => _is_str x a)).isSome = true
  · have hm := (find_is_str _ _).mp hf
    simp [hf, firstSeen, hm]
  · have hm : a ∉ h.attrslist := fun x => hf ((find_is_str _ _).mpr x)
    simp [hf, firstSeen, hm]

/-- What one accepted attribute token does to the handle. -/
theorem parse_line_attr_tables (tok : List Char) (st : AttrsOut)
    (hok : (_parse_line_attr 0 tok st).ok = true) :
    (_parse_line_attr 0 tok st).attrvals
      = st.attrvals ++ [⟨(split_attr tok).1, (split_attr tok).2⟩] ∧
    (_parse_line_attr 0 tok st).handle.attrslist
      = firstSeen st.handle.attrslist [(split_attr tok).1] ∧
    (st.handle.numattrs = st.handle.attrslist.length →
      (_parse_line_attr 0 tok st).handle.numattrs
        = (_parse_line_attr 0 tok st).handle.attrslist.length) ∧
    (_parse_line_attr 0 tok st).handle.maxattrlen
      = MAX (split_attr tok).1.length st.handle.maxattrlen ∧
    (_parse_line_attr 0 tok st).handle.nodeslist = st.handle.nodeslist ∧
    (_parse_line_attr 0 tok st).handle.attrvalslist = st.handle.attrvalslist ∧
    (_parse_line_attr 0 tok st).handle.maxattrs = st.handle.maxattrs ∧
    (_parse_line_attr 0 tok st).handle.maxnodelen = st.handle.maxnodelen := by
  have hi := insert_attr_spec st.handle (split_attr tok).1
  unfold _parse_line_attr at hok ⊢
  by_cases hfind : (st.attrvals.find?
      (fun av => _is_attr_in_attrvals av (split_attr tok).1)).isSome = true
  · simp [hfind] at hok
  · simp only [hfind, if_true, if_false, Bool.false_eq_true]
    have hnum : st.handle.numattrs = st.handle.attrslist.length →
        (_insert_attr st.handle (split_attr tok).1).1.numattrs
          + (_insert_attr st.handle (split_attr tok).1).2
        = (_insert_attr st.handle (split_attr tok).1).1.attrslist.length := by
      intro e
      rw [hi.2.1, hi.2.2.1, e]
    split
    · split
      · exact ⟨rfl, hi.1, hnum, by simp [hi.2.2.2.1], hi.2.2.2.2.1, hi.2.2.2.2.2.1,
          hi.2.2.2.2.2.2.1, hi.2.2.2.2.2.2.2⟩
      · exact ⟨rfl, hi.1, hnum, by simp [hi.2.2.2.1], hi.2.2.2.2.1, hi.2.2.2.2.2.1,
          hi.2.2.2.2.2.2.1, hi.2.2.2.2.2.2.2⟩
    · exact ⟨rfl, hi.1, hnum, by simp [hi.2.2.2.1], hi.2.2.2.2.1, hi.2.2.2.2.2.1,
        hi.2.2.2.2.2.2.1, hi.2.2.2.2.2.2.2⟩

/-- What the accepted attribute tokens of a line do to the handle. -/
theorem parse_line_attrs_tables (toks : List (List Char)) :
    ∀ st : AttrsOut, (_parse_line_attrs 0 toks st).ok = true →
      (_parse_line_attrs 0 toks st).attrvals
        = st.attrvals ++ toks.map (fun tok => ⟨(split_attr tok).1, (split_attr tok).2⟩) ∧
      (_parse_line_attrs 0 toks st).handle.attrslist
        = firstSeen st.handle.attrslist (toks.map (fun tok => (split_attr tok).1)) ∧
      (st.handle.numattrs = st.handle.attrslist.length →
        (_parse_line_attrs 0 toks st).handle.numattrs
          = (_parse_line_attrs 0 toks st).handle.attrslist.length) ∧
      (st.handle.maxattrlen ≤ (_parse_line_attrs 0 toks st).handle.maxattrlen ∧
        ∀ tok ∈ toks, (split_attr tok).1.length
          ≤ (_parse_line_attrs 0 toks st).handle.maxattrlen) ∧
      (_parse_line_attrs 0 toks st).handle.nodeslist = st.handle.nodeslist ∧
      (_parse_line_attrs 0 toks st).handle.attrvalslist = st.handle.attrvalslist ∧
      (_parse_line_attrs 0 toks st).handle.maxattrs = st.handle.maxattrs ∧
      (_parse_line_attrs 0 toks st).handle.maxnodelen = st.handle.maxnodelen := by
  induction toks with
  | nil =>
    intro st _
    simp [_parse_line_attrs, firstSeen]
  | cons tok rest ih =>
    intro st hok
    unfold _parse_line_attrs at hok ⊢
    by_cases h1 : (_parse_line_attr 0 tok st).ok = true
    · rw [if_pos h1] at hok ⊢
      obtain ⟨a1, a2, a3, a4, a5, a6, a7, a8⟩ := parse_line_attr_tables tok st h1
      obtain ⟨b1, b2, b3, b4, b5, b6, b7, b8⟩ := ih _ hok
      refine ⟨?_, ?_, fun e => b3 (a3 e), ⟨?_, ?_⟩, b5.trans a5, b6.trans a6, b7.trans a7,
        b8.trans a8⟩
      · rw [b1, a1]; simp
      · rw [b2, a2, List.map_cons, ← firstSeen_append]; rfl
      · refine le_trans ?_ b4.1
        rw [a4]
        unfold MAX; split <;> omega
      · intro t ht
        rcases List.mem_cons.mp ht with rfl | ht2
        · refine le_trans ?_ b4.1
          rw [a4]
          unfold MAX; split <;> omega
        · exact b4.2 t ht2
    · rw [if_neg h1] at hok
      exact absurd hok h1

theorem strtok_r_chars (l : List Char) :
    ∀ cur : List Char, (∀ c ∈ cur, c ≠ ',') →
      ∀ tok ∈ strtok_r l cur, ∀ c ∈ tok, c ≠ ',' ∧ (c ∈ l ∨ c ∈ cur) := by
  induction l with
  | nil =>
    intro cur hcur tok htok c hc
    unfold strtok_r at htok
    split at htok
    · simp at htok
    · simp only [List.mem_singleton] at htok
      subst htok
      exact ⟨hcur c hc, Or.inr hc⟩
  | cons x rest ih =>
    intro cur hcur tok htok c hc
    unfold strtok_r at htok
    by_cases hx : x = ','
    · simp only [hx, if_true] at htok
      split at htok
      · obtain ⟨h1, h2⟩ := ih [] (by simp) tok htok c hc
        rcases h2 with h2 | h2
        · exact ⟨h1, Or.inl (List.mem_cons_of_mem _ h2)⟩
        · simp at h2
      · rcases List.mem_cons.mp htok with rfl | htok2
        · exact ⟨hcur c hc, Or.inr hc⟩
        · obtain ⟨h1, h2⟩ := ih [] (by simp) tok htok2 c hc
          rcases h2 with h2 | h2
          · exact ⟨h1, Or.inl (List.mem_cons_of_mem _ h2)⟩
          · simp at h2
    · simp only [hx, if_false] at htok
      have hcur2 : ∀ c ∈ cur ++ [x], c ≠ ',' := by
        intro d hd
        rcases List.mem_append.mp hd with hd | hd
        · exact hcur d hd
        · simp only [List.mem_singleton] at hd
          rw [hd]; exact hx
      obtain ⟨h1, h2⟩ := ih (cur ++ [x]) hcur2 tok htok c hc
      refine ⟨h1, ?_⟩
      rcases h2 with h2 | h2
      · exact Or.inl (List.mem_cons_of_mem _ h2)
      · rcases List.mem_append.mp h2 with h2 | h2
        · exact Or.inr h2
        · simp only [List.mem_singleton] at h2
          exact Or.inl (by rw [h2]; exact List.mem_cons_self _ _)

theorem split_attr_chars (tok : List Char) (c : Char) (hc : c ∈ (split_attr tok).1) :
    c ≠ '=' ∧ c ∈ tok := by
  unfold split_attr at hc
  simp only at hc
  have h1 := List.mem_takeWhile_imp hc
  exact ⟨by simpa using h1, (List.takeWhile_sublist _).subset hc⟩

/-- The attribute part of an accepted line: what it does to the handle, and
what the names of the line's attrvals are made of. -/
theorem parse_line_attrlist_tables (h : genders) (line : Option (List Char))
    (hok : (_parse_line_attrlist h line 0 []).1.ok = true) :
    ((_parse_line_attrlist h line 0 []).2.1 = some (_parse_line_attrlist h line 0 []).1.attrvals ∨
      ((_parse_line_attrlist h line 0 []).2.1 = none ∧
        (_parse_line_attrlist h line 0 []).1.attrvals = [])) ∧
    (_parse_line_attrlist h line 0 []).1.handle.attrslist
      = firstSeen h.attrslist
          ((_parse_line_attrlist h line 0 []).1.attrvals.map (fun av => av.attr)) ∧
    (h.numattrs = h.attrslist.length →
      (_parse_line_attrlist h line 0 []).1.handle.numattrs
        = (_parse_line_attrlist h line 0 []).1.handle.attrslist.length) ∧
    (h.maxattrlen ≤ (_parse_line_attrlist h line 0 []).1.handle.maxattrlen ∧
      ∀ av ∈ (_parse_line_attrlist h line 0 []).1.attrvals,
        av.attr.length ≤ (_parse_line_attrlist h line 0 []).1.handle.maxattrlen) ∧
    (∀ av ∈ (_parse_line_attrlist h line 0 []).1.attrvals, attrCharsOk av.attr) ∧
    (_parse_line_attrlist h line 0 []).1.handle.nodeslist = h.nodeslist ∧
    (_parse_line_attrlist h line 0 []).1.handle.attrvalslist = h.attrvalslist ∧
    (_parse_line_attrlist h line 0 []).1.handle.maxattrs = h.maxattrs ∧
    (_parse_line_attrlist h line 0 []).1.handle.maxnodelen = h.maxnodelen := by
  unfold _parse_line_attrlist at hok ⊢
  cases line with
  | none => simp [firstSeen]
  | some l =>
    simp only at hok ⊢
    by_cases h1 : l.dropWhile isspace ≠ []
    · simp only [if_pos h1] at hok ⊢
      by_cases h2 : (strchr (l.dropWhile isspace) ' ' || strchr (l.dropWhile isspace) '\t') = true
      · simp only [if_pos h2] at hok
        simp at hok
      · simp only [if_neg h2] at hok ⊢
        obtain ⟨b1, b2, b3, b4, b5, b6, b7, b8⟩ :=
          parse_line_attrs_tables (strtok_r (l.dropWhile isspace) []) ⟨h, [], 0, [], true⟩ hok
        simp only [List.nil_append] at b1
        have hsp : ' ' ∉ l.dropWhile isspace ∧ '\t' ∉ l.dropWhile isspace := by
          simpa [strchr] using h2
        refine ⟨by simp, ?_, b3, ⟨b4.1, ?_⟩, ?_, b5, b6, b7, b8⟩
        · rw [b2, b1, List.map_map]; rfl
        · intro av hav
          rw [b1] at hav
          obtain ⟨tok, htok, rfl⟩ := List.mem_map.mp hav
          exact b4.2 tok htok
        · intro av hav
          rw [b1] at hav
          obtain ⟨tok, htok, rfl⟩ := List.mem_map.mp hav
          intro c hc
          obtain ⟨c1, c2⟩ := split_attr_chars tok c hc
          obtain ⟨c3, c4⟩ := strtok_r_chars (l.dropWhile isspace) [] (by simp) tok htok c c2
          have c5 : c ∈ l.dropWhile isspace := by
            rcases c4 with c4 | c4
            · exact c4
            · simp at c4
          refine ⟨c1, c3, ?_, ?_⟩
          · intro e; rw [e] at c5; exact hsp.1 c5
          · intro e; rw [e] at c5; exact hsp.2 c5
    · simp only [if_neg h1]
      simp [firstSeen]

theorem insert_node_mem (l : List genders_node) (node : List Char) :
    (∀ x ∈ l, x ∈ (_insert_node l node).1) ∧
    (∀ x ∈ (_insert_node l node).1, x ∈ l ∨ x = ⟨node, [], 0⟩) ∧
    (_insert_node l node).2 ∈ (_insert_node l node).1 ∧
    (_insert_node l node).2.name = node := by
  unfold _insert_node
  cases hf : l.find? (fun x => _is_node x node) with
  | some n =>
    have hp : _is_node n node = true :=
      @List.find?_some _ (fun x => _is_node x node) n l hf
    exact ⟨fun x hx => hx, fun x hx => Or.inl hx, List.mem_of_find?_eq_some hf,
      (is_node_iff n node).mp hp⟩
  | none =>
    refine ⟨fun x hx => List.mem_append_left _ hx, ?_, by simp, rfl⟩
    intro x hx
    rcases List.mem_append.mp hx with h1 | h1
    · exact Or.inl h1
    · exact Or.inr (by simpa using h1)

theorem node_store_self (l : List genders_node) (n : genders_node)
    (hex : ∃ x ∈ l, x.name = n.name) : n ∈ node_store l n := by
  induction l with
  | nil => obtain ⟨x, hx, _⟩ := hex; simp at hx
  | cons y rest ih =>
    unfold node_store
    by_cases hy : _is_node y n.name = true
    · simp [hy]
    · simp only [hy, if_false, Bool.false_eq_true]
      obtain ⟨x, hx, hxn⟩ := hex
      rcases List.mem_cons.mp hx with rfl | hx2
      · exact absurd ((is_node_iff _ _).mpr hxn) hy
      · exact List.mem_cons_of_mem _ (ih ⟨x, hx2, hxn⟩)

theorem node_store_other (l : List genders_node) (n x : genders_node) (hx : x ∈ l)
    (hne : x.name ≠ n.name) : x ∈ node_store l n := by
  induction l with
  | nil => simp at hx
  | cons y rest ih =>
    unfold node_store
    by_cases hy : _is_node y n.name = true
    · simp only [hy, if_true]
      rcases List.mem_cons.mp hx with rfl | hx2
      · exact absurd ((is_node_iff _ _).mp hy) hne
      · exact List.mem_cons_of_mem _ hx2
    · simp only [hy, if_false, Bool.false_eq_true]
      rcases List.mem_cons.mp hx with rfl | hx2
      · exact List.mem_cons_self _ _
      · exact List.mem_cons_of_mem _ (ih hx2)

theorem eq_of_name_eq (l : List genders_node) (hnd : (l.map (fun n => n.name)).Nodup)
    (x y : genders_node) (hx : x ∈ l) (hy : y ∈ l) (he : x.name = y.name) : x = y := by
  induction l with
  | nil => simp at hx
  | cons z rest ih =>
    simp only [List.map_cons, List.nodup_cons] at hnd
    rcases List.mem_cons.mp hx with rfl | hx2
    · rcases List.mem_cons.mp hy with rfl | hy2
      · rfl
      · exact absurd (List.mem_map.mpr ⟨y, hy2, he.symm⟩) hnd.1
    · rcases List.mem_cons.mp hy with rfl | hy2
      · exact absurd (List.mem_map.mpr ⟨x, hx2, he⟩) hnd.1
      · exact ih hnd.2 hx2 hy2

/-- The shape of an accepted turn of the node loop. -/
theorem parse_line_node_shape (attrvals : Option (List genders_attrval)) (node : List Char)
    (st : NodesOut) (hex : (_parse_line_node 0 attrvals node st).exit = none) :
    ((attrvals = none ∧
        (_parse_line_node 0 attrvals node st).nodelist = (_insert_node st.nodelist node).1 ∧
        (_parse_line_node 0 attrvals node st).handle.maxattrs
          = MAX (_insert_node st.nodelist node).2.attrcount st.handle.maxattrs) ∨
      (∃ avs n, attrvals = some avs ∧
        n.name = (_insert_node st.nodelist node).2.name ∧
        n.attrlist = (_insert_node st.nodelist node).2.attrlist ++ [avs] ∧
        n.attrcount = (_insert_node st.nodelist node).2.attrcount + avs.length ∧
        (_parse_line_node 0 attrvals node st).nodelist
          = node_store (_insert_node st.nodelist node).1 n ∧
        (_parse_line_node 0 attrvals node st).handle.maxattrs
          = MAX ((_insert_node st.nodelist node).2.attrcount + avs.length) st.handle.maxattrs)) ∧
    (_parse_line_node 0 attrvals node st).handle.maxnodelen
      = MAX node.length st.handle.maxnodelen ∧
    (_parse_line_node 0 attrvals node st).handle.attrslist = st.handle.attrslist ∧
    (_parse_line_node 0 attrvals node st).handle.numattrs = st.handle.numattrs ∧
    (_parse_line_node 0 attrvals node st).handle.maxattrlen = st.handle.maxattrlen ∧
    (_parse_line_node 0 attrvals node st).handle.attrvalslist = st.handle.attrvalslist := by
  unfold _parse_line_node at hex ⊢
  by_cases h1 : node.length > MAXHOSTNAMELEN
  · simp [h1] at hex
  · by_cases h2 : strchr node '.' = true
    · simp [h1, h2] at hex
    · simp only [h1, h2, if_false, Bool.false_eq_true, if_true] at hex ⊢
      cases attrvals with
      | none => simp
      | some avs =>
        simp only at hex ⊢
        by_cases h3 : _duplicate_attr_check (_insert_node st.nodelist node).2.attrlist avs = 1
        · simp [h3] at hex
        · simp only [h3, if_false]
          refine ⟨Or.inr ⟨avs, ⟨(_insert_node st.nodelist node).2.name,
            (_insert_node st.nodelist node).2.attrlist ++ [avs],
            (_insert_node st.nodelist node).2.attrcount + avs.length⟩,
            rfl, rfl, rfl, rfl, rfl, rfl⟩, ?_⟩
          simp

/-- What an accepted turn of the node loop does to the node list and the
statistics. -/
theorem parse_line_node_tables (attrvals : Option (List genders_attrval)) (node : List Char)
    (st : NodesOut) (hinv : NodesInv st.nodelist)
    (hex : (_parse_line_node 0 attrvals node st).exit = none) :
    (∀ S, S ∈ (_parse_line_node 0 attrvals node st).nodelist.map (fun n => n.name) ↔
      S ∈ st.nodelist.map (fun n => n.name) ∨ S = node) ∧
    (∀ n ∈ (_parse_line_node 0 attrvals node st).nodelist, ∀ g ∈ n.attrlist,
      (∃ m ∈ st.nodelist, g ∈ m.attrlist) ∨ attrvals = some g) ∧
    ((∀ n ∈ st.nodelist, n.name.length ≤ st.handle.maxnodelen) →
      ∀ n ∈ (_parse_line_node 0 attrvals node st).nodelist,
        n.name.length ≤ (_parse_line_node 0 attrvals node st).handle.maxnodelen) ∧
    ((st.handle.maxattrs = 0 ∨ ∃ n ∈ st.nodelist, n.attrcount = st.handle.maxattrs) →
      ((_parse_line_node 0 attrvals node st).handle.maxattrs = 0 ∨
        ∃ n ∈ (_parse_line_node 0 attrvals node st).nodelist,
          n.attrcount = (_parse_line_node 0 attrvals node st).handle.maxattrs)) := by
  obtain ⟨hshape, hlen, _, _, _, _⟩ := parse_line_node_shape attrvals node st hex
  obtain ⟨i1, i2, i3, i4⟩ := insert_node_mem st.nodelist node
  have hspec := insert_node_spec st.nodelist node hinv
  have hnames1 : ∀ S, S ∈ (_insert_node st.nodelist node).1.map (fun n => n.name) ↔
      S ∈ st.nodelist.map (fun n => n.name) ∨ S = node := by
    intro S
    constructor
    · intro hS
      obtain ⟨x, hx, rfl⟩ := List.mem_map.mp hS
      rcases i2 x hx with h | h
      · exact Or.inl (List.mem_map.mpr ⟨x, h, rfl⟩)
      · exact Or.inr (by rw [h])
    · rintro (hS | hS)
      · obtain ⟨x, hx, rfl⟩ := List.mem_map.mp hS
        exact List.mem_map.mpr ⟨x, i1 x hx, rfl⟩
      · exact List.mem_map.mpr ⟨_, i3, by rw [i4, hS]⟩
  have hgroups1 : ∀ n ∈ (_insert_node st.nodelist node).1, ∀ g ∈ n.attrlist,
      ∃ m ∈ st.nodelist, g ∈ m.attrlist := by
    intro n hn g hg
    rcases i2 n hn with h | h
    · exact ⟨n, h, hg⟩
    · rw [h] at hg; simp at hg
  generalize _parse_line_node 0 attrvals node st = r at hshape hlen ⊢
  generalize hr0 : _insert_node st.nodelist node = r0 at hshape i1 i2 i3 i4 hspec hnames1 hgroups1
  have hmaxlen1 : st.handle.maxnodelen ≤ r.handle.maxnodelen := by
    rw [hlen]; exact le_MAX_right _ _
  have hmaxlen2 : node.length ≤ r.handle.maxnodelen := by
    rw [hlen]; exact le_MAX_left _ _
  rcases hshape with ⟨hnone, hnl, hmx⟩ | ⟨avs, n1, hsome, hn1, hn2, hn3, hnl, hmx⟩
  · refine ⟨?_, ?_, ?_, ?_⟩
    · rw [hnl]; exact hnames1
    · intro n hn g hg
      rw [hnl] at hn
      exact Or.inl (hgroups1 n hn g hg)
    · intro hb n hn
      rw [hnl] at hn
      rcases i2 n hn with h | h
      · exact le_trans (hb n h) hmaxlen1
      · rw [h]; exact hmaxlen2
    · intro hold
      rw [hnl, hmx]
      by_cases hgt : r0.2.attrcount > st.handle.maxattrs
      · right
        exact ⟨r0.2, i3, by unfold MAX; rw [if_pos hgt]⟩
      · have e : MAX r0.2.attrcount st.handle.maxattrs = st.handle.maxattrs := by
          unfold MAX; rw [if_neg hgt]
        rw [e]
        rcases hold with h0 | ⟨m, hm, hmc⟩
        · exact Or.inl h0
        · exact Or.inr ⟨m, i1 m hm, hmc⟩
  · have hself : n1 ∈ r.nodelist := by
      rw [hnl]
      exact node_store_self _ _ ⟨r0.2, i3, hn1.symm⟩
    refine ⟨?_, ?_, ?_, ?_⟩
    · intro S
      rw [hnl, node_store_names]
      exact hnames1 S
    · intro n hn g hg
      rw [hnl] at hn
      rcases node_store_mem _ _ n hn with h | h
      · rw [h, hn2] at hg
        simp only [List.mem_append, List.mem_singleton] at hg
        rcases hg with hg | hg
        · exact Or.inl (hgroups1 r0.2 i3 g hg)
        · exact Or.inr (by rw [hsome, hg])
      · exact Or.inl (hgroups1 n h g hg)
    · intro hb n hn
      rw [hnl] at hn
      rcases node_store_mem _ _ n hn with h | h
      · rw [h, hn1, i4]; exact hmaxlen2
      · rcases i2 n h with h' | h'
        · exact le_trans (hb n h') hmaxlen1
        · rw [h']; exact hmaxlen2
    · intro hold
      rw [hmx]
      by_cases hgt : r0.2.attrcount + avs.length > st.handle.maxattrs
      · right
        exact ⟨n1, hself, by unfold MAX; rw [if_pos hgt]; exact hn3⟩
      · have e : MAX (r0.2.attrcount + avs.length) st.handle.maxattrs = st.handle.maxattrs := by
          unfold MAX; rw [if_neg hgt]
        rw [e]
        rcases hold with h0 | ⟨m, hm, hmc⟩
        · exact Or.inl h0
        · right
          by_cases hname : m.name = node
          · have hmeq : m = r0.2 :=
              eq_of_name_eq r0.1 hspec.1.1 m r0.2 (i1 m hm) i3 (by rw [hname, i4])
            refine ⟨n1, hself, ?_⟩
            rw [hn3, ← hmeq]
            rw [← hmeq] at hgt
            omega
          · refine ⟨m, ?_, hmc⟩
            rw [hnl]
            exact node_store_other _ _ m (i1 m hm) (by rw [hn1, i4]; exact hname)

/-- What the accepted node loop of a line does to the node list and the
statistics. -/
theorem parse_line_nodes_tables (attrvals : Option (List genders_attrval))
    (havs : ∀ avs, attrvals = some avs → (avs.map (fun av => av.attr)).Nodup)
    (names : List (List Char)) :
    ∀ st : NodesOut, NodesInv st.nodelist →
      (_parse_line_nodes 0 attrvals names st).exit = none →
      (∀ S, S ∈ (_parse_line_nodes 0 attrvals names st).nodelist.map (fun n => n.name) ↔
        S ∈ st.nodelist.map (fun n => n.name) ∨ S ∈ names) ∧
      (∀ n ∈ (_parse_line_nodes 0 attrvals names st).nodelist, ∀ g ∈ n.attrlist,
        (∃ m ∈ st.nodelist, g ∈ m.attrlist) ∨ attrvals = some g) ∧
      ((∀ n ∈ st.nodelist, n.name.length ≤ st.handle.maxnodelen) →
        ∀ n ∈ (_parse_line_nodes 0 attrvals names st).nodelist,
          n.name.length ≤ (_parse_line_nodes 0 attrvals names st).handle.maxnodelen) ∧
      ((st.handle.maxattrs = 0 ∨ ∃ n ∈ st.nodelist, n.attrcount = st.handle.maxattrs) →
        ((_parse_line_nodes 0 attrvals names st).handle.maxattrs = 0 ∨
          ∃ n ∈ (_parse_line_nodes 0 attrvals names st).nodelist,
            n.attrcount = (_parse_line_nodes 0 attrvals names st).handle.maxattrs)) ∧
      (_parse_line_nodes 0 attrvals names st).handle.attrslist = st.handle.attrslist ∧
      (_parse_line_nodes 0 attrvals names st).handle.numattrs = st.handle.numattrs ∧
      (_parse_line_nodes 0 attrvals names st).handle.maxattrlen = st.handle.maxattrlen ∧
      (_parse_line_nodes 0 attrvals names st).handle.attrvalslist = st.handle.attrvalslist := by
  induction names with
  | nil =>
    intro st _ _
    refine ⟨?_, fun n hn g hg => Or.inl ⟨n, hn, hg⟩, fun hb => hb, fun ho => ho, rfl, rfl,
      rfl, rfl⟩
    intro S
    simp [_parse_line_nodes]
  | cons node rest ih =>
    intro st hinv hex
    unfold _parse_line_nodes at hex ⊢
    by_cases h1 : (_parse_line_node 0 attrvals node st).exit = none
    · rw [if_pos h1] at hex ⊢
      obtain ⟨a1, a2, a3, a4⟩ := parse_line_node_tables attrvals node st hinv h1
      obtain ⟨_, f1, f2, f3, f4, f5⟩ := parse_line_node_shape attrvals node st h1
      have hinv1 := (parse_line_node_inv attrvals node st hinv havs h1).1
      generalize _parse_line_node 0 attrvals node st = s1 at hex a1 a2 a3 a4 f1 f2 f3 f4 f5 hinv1 ⊢
      obtain ⟨b1, b2, b3, b4, g1, g2, g3, g4⟩ := ih s1 hinv1 hex
      generalize _parse_line_nodes 0 attrvals rest s1 = r at b1 b2 b3 b4 g1 g2 g3 g4 ⊢
      refine ⟨?_, ?_, fun hb => b3 (a3 hb), fun ho => b4 (a4 ho), g1.trans f2, g2.trans f3,
        g3.trans f4, g4.trans f5⟩
      · intro S
        rw [b1 S, a1 S, List.mem_cons]
        exact or_assoc
      · intro n hn g hg
        rcases b2 n hn g hg with ⟨m, hm, hgm⟩ | h
        · exact a2 m hm g hgm
        · exact Or.inr h
    · rw [if_neg h1] at hex
      exact absurd hex h1

/-- The tables after an accepted line, from the facts about its two loops. -/
theorem tables_after_line (h hF : genders) (avs : List genders_attrval)
    (att : Option (List genders_attrval)) (ht : TablesInv h)
    (hatt : att = some avs ∨ (att = none ∧ avs = []))
    (hnd : (avs.map (fun av => av.attr)).Nodup)
    (hchars : ∀ av ∈ avs, attrCharsOk av.attr)
    (e1 : hF.attrslist = firstSeen h.attrslist (avs.map (fun av => av.attr)))
    (e2 : hF.numattrs = hF.attrslist.length)
    (e3 : h.maxattrlen ≤ hF.maxattrlen ∧ ∀ av ∈ avs, av.attr.length ≤ hF.maxattrlen)
    (e4 : hF.attrvalslist = match att with
      | some x => h.attrvalslist ++ [x]
      | none => h.attrvalslist)
    (e5 : ∀ n ∈ hF.nodeslist, ∀ g ∈ n.attrlist, (∃ m ∈ h.nodeslist, g ∈ m.attrlist) ∨ att = some g)
    (e6 : ∀ n ∈ hF.nodeslist, n.name.length ≤ hF.maxnodelen)
    (e7 : hF.maxattrs = 0 ∨ ∃ n ∈ hF.nodeslist, n.attrcount = hF.maxattrs) :
    TablesInv hF := by
  have hmem : ∀ g, g ∈ hF.attrvalslist ↔ g ∈ h.attrvalslist ∨ att = some g := by
    intro g
    rw [e4]
    rcases hatt with ha | ⟨ha, _⟩
    · rw [ha]
      simp only [List.mem_append, List.mem_singleton, Option.some.injEq]
      constructor
      · rintro (x | x)
        · exact Or.inl x
        · exact Or.inr x.symm
      · rintro (x | x)
        · exact Or.inl x
        · exact Or.inr x.symm
    · rw [ha]; simp
  have hsome : ∀ g, att = some g → g = avs := by
    intro g hg
    rcases hatt with ha | ⟨ha, _⟩
    · rw [ha] at hg; exact (Option.some.inj hg).symm
    · rw [ha] at hg; cases hg
  constructor
  · rw [e1, e4, ht.attrs]
    rcases hatt with ha | ⟨ha, hb⟩
    · rw [ha]
      simp only [List.flatten_append, List.map_append, List.flatten_cons, List.flatten_nil,
        List.append_nil]
      rw [firstSeen_append]
    · rw [ha, hb]
      simp [firstSeen]
  · exact e2
  · intro n hn g hg
    rcases e5 n hn g hg with ⟨m, hm, hgm⟩ | x
    · exact (hmem g).mpr (Or.inl (ht.groups m hm g hgm))
    · exact (hmem g).mpr (Or.inr x)
  · intro g hg av hav
    rcases (hmem g).mp hg with x | x
    · exact le_trans (ht.attrlen g x av hav) e3.1
    · rw [hsome g x] at hav
      exact e3.2 av hav
  · intro g hg av hav
    rcases (hmem g).mp hg with x | x
    · exact ht.chars g x av hav
    · rw [hsome g x] at hav
      exact hchars av hav
  · intro g hg
    rcases (hmem g).mp hg with x | x
    · exact ht.nodup g x
    · rw [hsome g x]
      exact hnd
  · exact e6
  · exact e7

/-- An accepted line keeps the tables right and adds the names it lists to
the node table. -/
theorem parse_line_tables (env : Env) (h : genders) (line : List Char) (ht : TablesInv h)
    (hinv : NodesInv h.nodeslist)
    (hok : ¬ (_parse_line env h line 0 [] [] []).retval < 0) :
    TablesInv (_parse_line env h line 0 [] [] []).handle ∧
    (∀ S, S ∈ (_parse_line env h line 0 [] [] []).handle.nodeslist.map (fun n => n.name) ↔
      S ∈ h.nodeslist.map (fun n => n.name) ∨ S ∈ lineNodeNames env line) := by
  unfold lineNodeNames lineNodeToken
  unfold _parse_line at hok ⊢
  simp only at hok ⊢
  generalize ((line.takeWhile (fun c => c != '#')).reverse.dropWhile isspace).reverse = line2
    at hok ⊢
  by_cases hne : line2 = []
  · simp only [if_pos hne]
    exact ⟨ht, by simp⟩
  · simp only [if_neg hne] at hok ⊢
    generalize (strsep (line2.dropWhile isspace)).1 = nodenames at hok ⊢
    generalize (strsep (line2.dropWhile isspace)).2 = rest at hok ⊢
    have ha := parse_line_attrlist_inv h rest
    have hat := parse_line_attrlist_tables h rest
    generalize _parse_line_attrlist h rest 0 [] = a at hok ha hat ⊢
    by_cases hak : a.1.ok = false
    · rw [if_pos hak] at hok
      exact absurd (ha.1 hak) hok
    · rw [if_neg hak] at hok ⊢
      have hak1 : a.1.ok = true := by simpa using hak
      have ha2 := ha.2 hak1
      obtain ⟨t1, t2, t3, t4, t5, t6, t7, t8, t9⟩ := hat hak1
      cases hh : env.hostlist nodenames with
      | none => simp [hh] at hok
      | some names =>
        simp only [hh, if_true, Option.getD_some] at hok ⊢
        have hinv0 : NodesInv a.1.handle.nodeslist := by rw [t6]; exact hinv
        have hn := parse_line_nodes_inv a.2.1 names
          ⟨a.1.handle.nodeslist, a.1.handle, 0, a.1.stream, none⟩ hinv0 ha2.1 rfl
        have hx := parse_line_nodes_exit a.2.1 names
          ⟨a.1.handle.nodeslist, a.1.handle, 0, a.1.stream, none⟩
        have hnt := parse_line_nodes_tables a.2.1 ha2.1 names
          ⟨a.1.handle.nodeslist, a.1.handle, 0, a.1.stream, none⟩ hinv0
        generalize _parse_line_nodes 0 a.2.1 names
          ⟨a.1.handle.nodeslist, a.1.handle, 0, a.1.stream, none⟩ = r at hok hn hx hnt ⊢
        cases hex : r.exit with
        | some rv =>
          simp only [hex] at hok
          rcases hx rv hex with h1 | h1
          · omega
          · cases h1
        | none =>
          simp only [hex]
          obtain ⟨n1, n2, n3, n4, n5, n6, n7, n8⟩ := hnt hex
          simp only at n1 n2 n3 n4 n5 n6 n7 n8
          have hnd : (a.1.attrvals.map (fun av => av.attr)).Nodup := by
            rcases t1 with x | ⟨_, x⟩
            · exact ha2.1 _ x
            · rw [x]; simp
          constructor
          · apply tables_after_line h _ a.1.attrvals a.2.1 ht t1 hnd t5
            · show _ = firstSeen h.attrslist _
              rw [← t2, ← n5]
              split <;> rfl
            · have e := t3 ht.numattrs
              rw [← n5, ← n6] at e
              split <;> exact e
            · rw [← n7] at t4
              split <;> exact t4
            · rw [← t7, ← n8]
              split <;> rfl
            · intro n hn' g hg
              rcases n2 n hn' g hg with ⟨m, hm, hgm⟩ | x
              · rw [t6] at hm
                exact Or.inl ⟨m, hm, hgm⟩
              · exact Or.inr x
            · have e := n3 (by
                intro n hn'
                rw [t6] at hn'
                rw [t9]
                exact ht.nodelen n hn')
              split <;> exact e
            · have e := n4 (by
                rw [t8, t6]
                exact ht.maxattained)
              split <;> exact e
          · intro S
            rw [n1 S, t6]

theorem readline_nonneg (h : genders) (ret buflen : Int)
    (hok : ¬ (_readline h ret buflen).2 < 0) :
    (_readline h ret buflen).1 = h ∧ (_readline h ret buflen).2 = ret ∧
    ¬ ret < 0 ∧ ¬ ret ≥ buflen - 1 := by
  unfold _readline at hok ⊢
  by_cases h1 : ret < 0
  · simp [h1] at hok
  · by_cases h2 : ret ≥ buflen - 1
    · simp [h1, h2] at hok
    · simp [h1, h2]

/-- The read loop of a load that does not fail keeps the tables right and
adds exactly the names the lines of the file list. -/
theorem load_lines_tables (env : Env) (file : List (Int × List Char)) :
    ∀ h : genders, TablesInv h → NodesInv h.nodeslist →
      ¬ (genders_load_data_lines env file h).2 < 0 →
      TablesInv (genders_load_data_lines env file h).1 ∧
      (∀ S, S ∈ (genders_load_data_lines env file h).1.nodeslist.map (fun n => n.name) ↔
        S ∈ h.nodeslist.map (fun n => n.name) ∨
          ∃ line ∈ fileLines file, S ∈ lineNodeNames env line) := by
  induction file with
  | nil =>
    intro h ht _ _
    exact ⟨ht, by simp [genders_load_data_lines, fileLines]⟩
  | cons ev rest ih =>
    intro h ht hinv hok
    obtain ⟨ret, buf⟩ := ev
    unfold genders_load_data_lines at hok ⊢
    simp only at hok ⊢
    by_cases hp : (_readline h ret GENDERS_READLINE_BUFLEN).2 > 0
    · have hnn : ¬ (_readline h ret GENDERS_READLINE_BUFLEN).2 < 0 := by omega
      obtain ⟨r1, r2, r3, r4⟩ := readline_nonneg h ret _ hnn
      have hline : fileLines ((ret, buf) :: rest) = buf :: fileLines rest := by
        have hc : (0 < ret ∧ ret < GENDERS_READLINE_BUFLEN - 1) := by
          rw [r2] at hp
          constructor <;> omega
        simp [fileLines, List.takeWhile, hc]
      rw [if_pos hp] at hok ⊢
      rw [r1] at hok ⊢
      by_cases hf : (_parse_line env h buf 0 [] [] []).retval < 0
      · rw [if_pos hf] at hok
        simp at hok
      · rw [if_neg hf] at hok ⊢
        obtain ⟨s1, s2⟩ := parse_line_tables env h buf ht hinv hf
        have hinv1 := (parse_line_inv env h buf hinv hf).1
        generalize (_parse_line env h buf 0 [] [] []).handle = h1 at hok s1 s2 hinv1 ⊢
        obtain ⟨u1, u2⟩ := ih h1 s1 hinv1 hok
        refine ⟨u1, ?_⟩
        intro S
        rw [u2 S, s2 S, hline]
        simp only [List.mem_cons, exists_eq_or_imp]
        exact or_assoc
    · rw [if_neg hp] at hok ⊢
      by_cases hn : (_readline h ret GENDERS_READLINE_BUFLEN).2 < 0
      · rw [if_pos hn] at hok
        simp at hok
      · rw [if_neg hn]
        obtain ⟨r1, r2, r3, r4⟩ := readline_nonneg h ret _ hn
        have hline : fileLines ((ret, buf) :: rest) = [] := by
          have hc : ¬ (0 < ret ∧ ret < GENDERS_READLINE_BUFLEN - 1) := by
            rw [r2] at hp
            intro x
            omega
          simp [fileLines, List.takeWhile, hc]
        rw [r1, hline]
        exact ⟨ht, by simp⟩

theorem load_finish_tables (env : Env) (h : genders) (ht : TablesInv h)
    (hok : (genders_load_data_finish env h).2 = 0) :
    TablesInv (genders_load_data_finish env h).1 ∧
    (genders_load_data_finish env h).1.nodeslist = h.nodeslist := by
  unfold genders_load_data_finish at hok ⊢
  by_cases hz : h.nodeslist.length = 0
  · rw [if_pos hz] at hok
    simp at hok
  · rw [if_neg hz] at hok ⊢
    cases hg : env.gethostname with
    | none => simp [hg] at hok
    | some host =>
      simp only
      refine ⟨⟨ht.attrs, ht.numattrs, ht.groups, ht.attrlen, ht.chars, ht.nodup, ?_,
        ht.maxattained⟩, by trivial⟩
      intro n hn
      exact le_trans (ht.nodelen n hn) (le_MAX_right _ _)

/-- A successful load on a valid unloaded handle keeps the tables right, and
its node table holds the names the handle had and the names the lines of the
file list. -/
theorem load_tables_gen (env : Env) (h0 : genders) (filename : Option (List Char))
    (hL : genders) (hm : h0.magic = GENDERS_MAGIC_NUM) (hu : h0.is_loaded = 0)
    (ht : TablesInv h0) (hn : NodesInv h0.nodeslist)
    (hload : genders_load_data env (some h0) filename = (some hL, 0)) :
    TablesInv hL ∧
    ∀ file, env.files (filename.getD GENDERS_DEFAULT_FILE) = some file →
      ∀ S, S ∈ hL.nodeslist.map (fun n => n.name) ↔
        S ∈ h0.nodeslist.map (fun n => n.name) ∨
          ∃ line ∈ fileLines file, S ∈ lineNodeNames env line := by
  unfold genders_load_data at hload
  rw [unloaded_check_ok h0 hm hu] at hload
  simp only [lt_self_iff_false, if_false] at hload
  cases hf : env.files (filename.getD GENDERS_DEFAULT_FILE) with
  | none => simp [hf] at hload
  | some file =>
    simp only [hf] at hload
    have hl := load_lines_tables env file h0 ht hn
    generalize genders_load_data_lines env file h0 = r at hload hl
    by_cases h1 : r.2 < 0
    · simp [h1] at hload
    · rw [if_neg h1] at hload
      obtain ⟨l1, l2⟩ := hl h1
      simp only [Prod.mk.injEq, Option.some.injEq] at hload
      obtain ⟨f1, f2⟩ := load_finish_tables env r.1 l1 hload.2
      rw [hload.1] at f1 f2
      refine ⟨f1, ?_⟩
      intro file' hfile' S
      cases hfile'
      rw [f2]
      exact l2 S

theorem tablesInv_create (e : Int) : TablesInv { genders_handle_create with errnum := e } :=
  ⟨rfl, rfl, fun n hn => by simp [genders_handle_create] at hn,
    fun g hg => by simp [genders_handle_create] at hg,
    fun g hg => by simp [genders_handle_create] at hg,
    fun g hg => by simp [genders_handle_create] at hg,
    fun n hn => by simp [genders_handle_create] at hn, Or.inl rfl⟩

theorem tablesInv_of_loaded (env : Env) (h : genders) (hl : LoadedHandle env h) :
    TablesInv h := by
  obtain ⟨e, filename, hL, hload, heq⟩ := hl
  have := (load_tables_gen env { genders_handle_create with errnum := e } filename hL rfl rfl
    (tablesInv_create e) (by simp [NodesInv, genders_handle_create]) hload).1
  rw [heq]
  exact ⟨this.attrs, this.numattrs, this.groups, this.attrlen, this.chars, this.nodup,
    this.nodelen, this.maxattained⟩

/-! ## C29, C30, C23: what the tables of a loaded handle hold -/

/-- C29.  On every loaded handle `numnodes` is the number of records of the
node table; `numattrs` is the length of the attribute-name list, which has no
repetition and holds exactly the attribute names of the attrval lists, so
`numattrs` is the number of distinct attribute names occurring in them; and
`maxattrs` is the maximum of the `attrcount` of the nodes: no node exceeds it
and some node attains it. -/
theorem counts_match_tables (env : Env) (h : genders) (hl : LoadedHandle env h) :
    h.numnodes = h.nodeslist.length ∧
    h.numattrs = h.attrslist.length ∧
    h.attrslist.Nodup ∧
    (∀ a, a ∈ h.attrslist ↔ ∃ g ∈ h.attrvalslist, ∃ av ∈ g, av.attr = a) ∧
    h.numattrs = (h.attrvalslist.flatten.map (fun av => av.attr)).toFinset.card ∧
    (∀ n ∈ h.nodeslist, n.attrcount ≤ h.maxattrs) ∧
    (∃ n ∈ h.nodeslist, n.attrcount = h.maxattrs) := by
  have hi := loadedInv_of_loaded env h hl
  have ht := tablesInv_of_loaded env h hl
  have hc := countInv_of_loaded env h hl
  have hnd : h.attrslist.Nodup := by
    rw [ht.attrs]
    exact firstSeen_nodup _ _ List.nodup_nil
  have hmem : ∀ a, a ∈ h.attrslist ↔ a ∈ h.attrvalslist.flatten.map (fun av => av.attr) := by
    intro a
    rw [ht.attrs, firstSeen_mem]
    simp
  refine ⟨hi.numnodes, ht.numattrs, hnd, ?_, ?_, fun n hn => (hc n hn).2, ?_⟩
  · intro a
    rw [hmem a]
    constructor
    · intro ha
      obtain ⟨av, hav, rfl⟩ := List.mem_map.mp ha
      obtain ⟨g, hg, hag⟩ := List.mem_flatten.mp hav
      exact ⟨g, hg, av, hag, rfl⟩
    · rintro ⟨g, hg, av, hav, rfl⟩
      exact List.mem_map.mpr ⟨av, List.mem_flatten.mpr ⟨g, hg, hav⟩, rfl⟩
  · rw [ht.numattrs, ← List.toFinset_card_of_nodup hnd]
    congr 1
    ext a
    rw [List.mem_toFinset, List.mem_toFinset]
    exact hmem a
  · rcases ht.maxattained with h0 | hex
    · obtain ⟨n, hn⟩ := List.exists_mem_of_ne_nil _ hi.nonempty
      refine ⟨n, hn, ?_⟩
      have := (hc n hn).2
      omega
    · exact hex

theorem counts_match_tables_witness :
    LoadedHandle (exampleEnv ["n[1-2]  a=1,b=2", "n1      c=3", "n3      d"])
      (exampleHandle ["n[1-2]  a=1,b=2", "n1      c=3", "n3      d"]) ∧
    (exampleHandle ["n[1-2]  a=1,b=2", "n1      c=3", "n3      d"]).numnodes
      = (exampleHandle ["n[1-2]  a=1,b=2", "n1      c=3", "n3      d"]).nodeslist.length ∧
    ((exampleHandle ["n[1-2]  a=1,b=2", "n1      c=3", "n3      d"]).numnodes,
      (exampleHandle ["n[1-2]  a=1,b=2", "n1      c=3", "n3      d"]).numattrs,
      (exampleHandle ["n[1-2]  a=1,b=2", "n1      c=3", "n3      d"]).maxattrs) = (3, 4, 3) ∧
    (exampleLoad ["nodename[1-2]  attrname1=val1,attrname2=val2",
      "nodename1      attrname3=val3,attrname4", "nodename2      attrname5   ",
      "nodename3      attrname6"]).2 = 0 ∧
    ((exampleHandle ["nodename[1-2]  attrname1=val1,attrname2=val2",
        "nodename1      attrname3=val3,attrname4", "nodename2      attrname5   ",
        "nodename3      attrname6"]).numnodes,
      (exampleHandle ["nodename[1-2]  attrname1=val1,attrname2=val2",
        "nodename1      attrname3=val3,attrname4", "nodename2      attrname5   ",
        "nodename3      attrname6"]).numattrs,
      (exampleHandle ["nodename[1-2]  attrname1=val1,attrname2=val2",
        "nodename1      attrname3=val3,attrname4", "nodename2      attrname5   ",
        "nodename3      attrname6"]).maxattrs) = (3, 6, 4) :=
  ⟨loadedHandle_example _ (by decide) (by decide),
    (counts_match_tables (exampleEnv ["n[1-2]  a=1,b=2", "n1      c=3", "n3      d"])
      (exampleHandle ["n[1-2]  a=1,b=2", "n1      c=3", "n3      d"])
      (loadedHandle_example _ (by decide) (by decide))).1,
    by decide, by decide, by decide⟩

/-- C30, amended.  On every loaded handle no attribute name stored in an
attrval list (of the table or of a node) or in the attribute-name list
contains `=`, `,`, a space or a tab. -/
theorem attr_names_chars (env : Env) (h : genders) (hl : LoadedHandle env h) :
    (∀ g ∈ h.attrvalslist, ∀ av ∈ g, attrCharsOk av.attr) ∧
    (∀ n ∈ h.nodeslist, ∀ g ∈ n.attrlist, ∀ av ∈ g, attrCharsOk av.attr) ∧
    (∀ a ∈ h.attrslist, attrCharsOk a) := by
  have ht := tablesInv_of_loaded env h hl
  refine ⟨ht.chars, fun n hn g hg => ht.chars g (ht.groups n hn g hg), ?_⟩
  intro a ha
  rw [ht.attrs, firstSeen_mem] at ha
  rcases ha with ha | ha
  · simp at ha
  · obtain ⟨av, hav, rfl⟩ := List.mem_map.mp ha
    obtain ⟨g, hg, hag⟩ := List.mem_flatten.mp hav
    exact ht.chars g hg av hag

theorem attr_names_chars_witness :
    LoadedHandle (exampleEnv ["n[1-2]  path=/srv/%n/data,owner=%%root"])
      (exampleHandle ["n[1-2]  path=/srv/%n/data,owner=%%root"]) ∧
    (exampleHandle ["n[1-2]  path=/srv/%n/data,owner=%%root"]).attrslist
      = ["path".toList, "owner".toList] ∧
    ∀ a ∈ (exampleHandle ["n[1-2]  path=/srv/%n/data,owner=%%root"]).attrslist,
      attrCharsOk a :=
  ⟨loadedHandle_example _ (by decide) (by decide), by decide,
    (attr_names_chars (exampleEnv ["n[1-2]  path=/srv/%n/data,owner=%%root"])
      (exampleHandle ["n[1-2]  path=/srv/%n/data,owner=%%root"])
      (loadedHandle_example _ (by decide) (by decide))).2.2⟩

/-- The claim C30 as stated fails at the file `n1 =foo`: the load succeeds
and the empty attribute name is stored, with the value `foo`, in the attrval
list of the line, in the list of node `n1` and in the attribute-name list. -/
theorem attr_names_chars_counterexample :
    (exampleLoad ["n1 =foo"]).2 = 0 ∧
    (exampleHandle ["n1 =foo"]).attrvalslist = [[⟨[], some "foo".toList⟩]] ∧
    (exampleHandle ["n1 =foo"]).attrslist = [[]] ∧
    (exampleHandle ["n1 =foo"]).nodeslist = [⟨"n1".toList, [[⟨[], some "foo".toList⟩]], 1⟩] ∧
    (exampleHandle ["n1 =foo"]).numattrs = 1 := by
  refine ⟨by decide, by decide, by decide, by decide, by decide⟩

theorem isnode_eval (h : genders) (hi : LoadedInv h) (S : List Char) :
    (genders_isnode (some h) (some S)).2
      = if S ∈ h.nodeslist.map (fun n => n.name) then 1 else 0 := by
  have hlook := hi.lookup S
  have hfind : (h.nodeslist.find? (fun x => _is_node x S)).isSome = true ↔
      S ∈ h.nodeslist.map (fun n => n.name) := by
    rw [List.find?_isSome]
    simp [_is_node]
  unfold genders_isnode
  rw [loaded_check_loaded h hi.magic hi.loaded]
  simp only [lt_self_iff_false, if_false, Option.getD_some]
  unfold node_lookup at hlook
  cases hx : h.node_index with
  | none =>
    rw [hx] at hlook
    simp only [Option.bind]
    have : ¬ S ∈ h.nodeslist.map (fun n => n.name) := by
      intro hS
      have := hfind.mpr hS
      rw [← hlook] at this
      simp at this
    rw [if_neg this]
  | some index =>
    rw [hx] at hlook
    simp only [Option.bind] at hlook ⊢
    cases hy : hash_find index S with
    | none =>
      rw [hy] at hlook
      simp only
      have : ¬ S ∈ h.nodeslist.map (fun n => n.name) := by
        intro hS
        have := hfind.mpr hS
        rw [← hlook] at this
        simp at this
      rw [if_neg this]
    | some l =>
      rw [hy] at hlook
      simp only at hlook ⊢
      have hfind2 : (l.find? (fun x => _is_node x S)).isSome = true ↔
          S ∈ h.nodeslist.map (fun n => n.name) := by
        rw [hlook]; exact hfind
      by_cases hS : S ∈ h.nodeslist.map (fun n => n.name)
      · rw [if_pos hS, if_pos (hfind2.mpr hS)]
      · rw [if_neg hS, if_neg (fun x => hS (hfind2.mp x))]

/-- C23.  For every file loaded successfully (into a freshly created handle,
whatever error code it held) and every string `S`: `genders_isnode(S)`
returns 1 if `S` is the name of a node of the node table and 0 if not, and
the names of the node table are exactly the names that the node-range tokens
of the lines of the file expand to. -/
theorem isnode_spec (env : Env) (e : Int) (filename : Option (List Char)) (hL : genders)
    (file : List (Int × List Char))
    (hfile : env.files (filename.getD GENDERS_DEFAULT_FILE) = some file)
    (hload : genders_load_data env (some { genders_handle_create with errnum := e }) filename
      = (some hL, 0))
    (h : genders) (heq : h = { hL with errnum := h.errnum, valbuf := h.valbuf })
    (S : List Char) :
    ((genders_isnode (some h) (some S)).2 = 1 ↔ S ∈ h.nodeslist.map (fun n => n.name)) ∧
    ((genders_isnode (some h) (some S)).2 = 0 ↔ S ∉ h.nodeslist.map (fun n => n.name)) ∧
    (S ∈ h.nodeslist.map (fun n => n.name) ↔
      ∃ line ∈ fileLines file, S ∈ lineNodeNames env line) ∧
    ((genders_isnode (some h) (some S)).2 = 1 ↔
      ∃ line ∈ fileLines file, S ∈ lineNodeNames env line) := by
  have hl : LoadedHandle env h := ⟨e, filename, hL, hload, heq⟩
  have hi := loadedInv_of_loaded env h hl
  have hnames := (load_tables_gen env { genders_handle_create with errnum := e } filename hL
    rfl rfl (tablesInv_create e) (by simp [NodesInv, genders_handle_create]) hload).2 file hfile S
  have hnl : h.nodeslist = hL.nodeslist := by rw [heq]
  have hfile_iff : S ∈ h.nodeslist.map (fun n => n.name) ↔
      ∃ line ∈ fileLines file, S ∈ lineNodeNames env line := by
    rw [hnl, hnames]
    simp [genders_handle_create]
  have hev := isnode_eval h hi S
  by_cases hS : S ∈ h.nodeslist.map (fun n => n.name)
  · rw [if_pos hS] at hev
    refine ⟨by rw [hev]; simp [hS], by rw [hev]; simp [hS], hfile_iff, ?_⟩
    rw [hev, ← hfile_iff]; simp [hS]
  · rw [if_neg hS] at hev
    refine ⟨by rw [hev]; simp [hS], by rw [hev]; simp [hS], hfile_iff, ?_⟩
    rw [hev, ← hfile_iff]; simp [hS]

theorem isnode_spec_witness :
    (exampleEnv ["n[1-2]  a=1,b=2", "n1      c=3", "n3      d"]).files
        ((none : Option (List Char)).getD GENDERS_DEFAULT_FILE)
      = some [(16, "n[1-2]  a=1,b=2\n".toList), (12, "n1      c=3\n".toList),
          (10, "n3      d\n".toList)] ∧
    (exampleLoad ["n[1-2]  a=1,b=2", "n1      c=3", "n3      d"]).2 = 0 ∧
    (genders_isnode (some (exampleHandle ["n[1-2]  a=1,b=2", "n1      c=3", "n3      d"]))
      (some "n2".toList)).2 = 1 ∧
    (∃ line ∈ fileLines [(16, "n[1-2]  a=1,b=2\n".toList), (12, "n1      c=3\n".toList),
        (10, "n3      d\n".toList)],
      "n2".toList ∈ lineNodeNames (exampleEnv ["n[1-2]  a=1,b=2", "n1      c=3", "n3      d"])
        line) ∧
    ((genders_isnode (some (exampleHandle ["n[1-2]  a=1,b=2", "n1      c=3", "n3      d"]))
      (some "zz".toList)).2 = 0 ↔
      "zz".toList ∉ (exampleHandle ["n[1-2]  a=1,b=2", "n1      c=3", "n3      d"]).nodeslist.map
        (fun n => n.name)) :=
  ⟨by decide, by decide, by decide,
    (isnode_spec (exampleEnv ["n[1-2]  a=1,b=2", "n1      c=3", "n3      d"])
      GENDERS_ERR_SUCCESS none
      (exampleHandle ["n[1-2]  a=1,b=2", "n1      c=3", "n3      d"])
      [(16, "n[1-2]  a=1,b=2\n".toList), (12, "n1      c=3\n".toList),
        (10, "n3      d\n".toList)]
      (by decide) (exampleLoad_eq _ (by decide) (by decide))
      (exampleHandle ["n[1-2]  a=1,b=2", "n1      c=3", "n3      d"]) rfl
      "n2".toList).2.2.2.mp (by decide),
    (isnode_spec (exampleEnv ["n[1-2]  a=1,b=2", "n1      c=3", "n3      d"])
      GENDERS_ERR_SUCCESS none
      (exampleHandle ["n[1-2]  a=1,b=2", "n1      c=3", "n3      d"])
      [(16, "n[1-2]  a=1,b=2\n".toList), (12, "n1      c=3\n".toList),
        (10, "n3      d\n".toList)]
      (by decide) (exampleLoad_eq _ (by decide) (by decide))
      (exampleHandle ["n[1-2]  a=1,b=2", "n1      c=3", "n3      d"]) rfl
      "zz".toList).2.1⟩

/-! ## C22: `genders_getattr_all` and `genders_isattr` -/

theorem getattr_all_loop_spec (len : Int) (l : List (List Char)) :
    ∀ (h1 : genders) (arr : StrArray) (index : Nat),
      ((index + l.length : Nat) : Int) ≤ len →
      (∀ i, i < l.length → arr (index + i) ≠ none) →
      ∃ arr2, genders_getattr_all_loop len l h1 (some arr) index
          = (h1, some arr2, some (index + l.length)) ∧
        (∀ i a, l[i]? = some a → arr2 (index + i) = some a) ∧
        (∀ j, j < index ∨ index + l.length ≤ j → arr2 j = arr j) := by
  induction l with
  | nil =>
    intro h1 arr index _ _
    exact ⟨arr, rfl, by simp, fun _ _ => rfl⟩
  | cons a rest ih =>
    intro h1 arr index hlen hslots
    simp only [List.length_cons] at hlen hslots
    have hput := put_in_list_success h1 a arr index len (by omega)
      (by simpa using hslots 0 (by omega))
    obtain ⟨arr2, hrun, hw, hfr⟩ := ih h1 (Function.update arr index (some a)) (index + 1)
      (by push_cast at hlen ⊢; omega)
      (by
        intro i hi
        have := hslots (i + 1) (by omega)
        have hne : index + 1 + i ≠ index := by omega
        simp only [Function.update, hne, dite_false]
        rw [show index + 1 + i = index + (i + 1) by omega]
        exact this)
    refine ⟨arr2, ?_, ?_, ?_⟩
    · unfold genders_getattr_all_loop
      simp only [hput, lt_self_iff_false, if_false]
      rw [hrun]
      simp only [List.length_cons]
      congr 3
      omega
    · intro i b hib
      cases i with
      | zero =>
        simp at hib
        subst hib
        rw [Nat.add_zero, hfr index (Or.inl (by omega))]
        simp
      | succ i' =>
        rw [List.getElem?_cons_succ] at hib
        have := hw i' b hib
        rw [← this]
        congr 1
        omega
    · intro j hj
      simp only [List.length_cons] at hj
      rw [hfr j (by omega)]
      have : j ≠ index := by omega
      simp [Function.update, this]

/-- C22, amended.  On every loaded handle and for every string `A`:
`genders_isattr(A)` returns 1 if `A` is in the attribute-name list and 0 if
not; that list has `numattrs` entries, pairwise distinct, in the order in
which the names first appear in the attrval lists (file order).
`genders_getattr_all` with `0 <= len < numattrs` (and `attrs` non-null unless
`len = 0`) fails with `OVERFLOW` and writes nothing; with `len >= numattrs`
and the first `numattrs` slots non-null it returns `numattrs` with `SUCCESS`,
slot `i` holding the `i`-th name of the list and the other slots untouched,
so that `genders_isattr(A)` returns 1 exactly when `A` is one of the names
written. -/
theorem getattr_all_spec (env : Env) (h : genders) (hl : LoadedHandle env h) :
    (∀ A : List Char, (genders_isattr (some h) (some A)).2
      = if A ∈ h.attrslist then 1 else 0) ∧
    h.attrslist.length = h.numattrs ∧
    h.attrslist.Nodup ∧
    h.attrslist = firstSeen [] (h.attrvalslist.flatten.map (fun av => av.attr)) ∧
    (∀ (attrs : Option StrArray) (len : Int), 0 ≤ len → len < (h.numattrs : Int) →
      (attrs ≠ none ∨ len = 0) →
      genders_getattr_all (some h) attrs len
        = (some { h with errnum := GENDERS_ERR_OVERFLOW }, attrs, -1)) ∧
    (∀ (arr : StrArray) (len : Int), (h.numattrs : Int) ≤ len →
      (∀ i, i < h.numattrs → arr i ≠ none) →
      ∃ arr2, genders_getattr_all (some h) (some arr) len
          = (some { h with errnum := GENDERS_ERR_SUCCESS }, some arr2, (h.numattrs : Int)) ∧
        (∀ i a, h.attrslist[i]? = some a → arr2 i = some a) ∧
        (∀ j, h.numattrs ≤ j → arr2 j = arr j) ∧
        (∀ A : List Char, (genders_isattr (some h) (some A)).2 = 1 ↔
          ∃ i, i < h.numattrs ∧ arr2 i = some A)) := by
  have hi := loadedInv_of_loaded env h hl
  have ht := tablesInv_of_loaded env h hl
  have hisattr : ∀ A : List Char, (genders_isattr (some h) (some A)).2
      = if A ∈ h.attrslist then 1 else 0 := by
    intro A
    unfold genders_isattr
    rw [loaded_check_loaded h hi.magic hi.loaded]
    simp only [lt_self_iff_false, if_false]
    by_cases hA : A ∈ h.attrslist
    · rw [if_pos hA, if_pos ((find_is_str _ _).mpr hA)]
    · rw [if_neg hA, if_neg (fun x => hA ((find_is_str _ _).mp x))]
  refine ⟨hisattr, ht.numattrs.symm, ?_, ht.attrs, ?_, ?_⟩
  · rw [ht.attrs]
    exact firstSeen_nodup _ _ List.nodup_nil
  · intro attrs len h0 hlt hattrs
    unfold genders_getattr_all
    rw [loaded_check_loaded h hi.magic hi.loaded]
    have hpar : ¬ ((attrs.isNone = true ∧ len > 0) ∨ len < 0) := by
      rintro (⟨hn, hp⟩ | hneg)
      · rcases hattrs with ha | ha
        · cases attrs with
          | none => exact ha rfl
          | some _ => simp at hn
        · omega
      · omega
    simp only [lt_self_iff_false, if_false, hpar, gt_iff_lt, hlt, if_true]
  · intro arr len hlen hslots
    obtain ⟨arr2, hrun, hw, hfr⟩ := getattr_all_loop_spec len h.attrslist h arr 0
      (by rw [Nat.zero_add, ← ht.numattrs]; exact hlen)
      (by intro i hi2; rw [Nat.zero_add]; exact hslots i (by rw [ht.numattrs]; exact hi2))
    have hpar : ¬ (((some arr : Option StrArray).isNone = true ∧ len > 0) ∨ len < 0) := by
      simp; omega
    have hnov : ¬ (h.numattrs : Int) > len := by omega
    rw [Nat.zero_add, ← ht.numattrs] at hrun
    refine ⟨arr2, ?_, ?_, ?_, ?_⟩
    · unfold genders_getattr_all
      rw [loaded_check_loaded h hi.magic hi.loaded]
      simp only [lt_self_iff_false, if_false, hpar, hnov, hrun]
    · intro i a hia
      simpa using hw i a hia
    · intro j hj
      exact hfr j (Or.inr (by rw [Nat.zero_add, ← ht.numattrs]; exact hj))
    · intro A
      rw [hisattr A]
      constructor
      · intro h1
        have hA : A ∈ h.attrslist := by
          by_contra hn
          rw [if_neg hn] at h1
          cases h1
        obtain ⟨i, hi1, hi2⟩ := List.getElem_of_mem hA
        refine ⟨i, by rw [ht.numattrs]; exact hi1, ?_⟩
        have := hw i A (by rw [List.getElem?_eq_getElem hi1, hi2])
        simpa using this
      · rintro ⟨i, hi1, hi2⟩
        rw [ht.numattrs] at hi1
        have := hw i (h.attrslist[i]) (List.getElem?_eq_getElem hi1)
        rw [Nat.zero_add, hi2] at this
        have hA : A ∈ h.attrslist := by
          rw [Option.some.inj this]
          exact List.getElem_mem hi1
        rw [if_pos hA]

theorem getattr_all_spec_witness :
    LoadedHandle (exampleEnv ["n[1-2]  a=1,b=2", "n1      c=3", "n3      d"])
      (exampleHandle ["n[1-2]  a=1,b=2", "n1      c=3", "n3      d"]) ∧
    (exampleHandle ["n[1-2]  a=1,b=2", "n1      c=3", "n3      d"]).attrslist
      = ["a".toList, "b".toList, "c".toList, "d".toList] ∧
    (genders_getattr_all (some (exampleHandle ["n[1-2]  a=1,b=2", "n1      c=3", "n3      d"]))
      (some blankArray) 5).2.1.map (fun a => [a 0, a 1, a 2, a 3, a 4])
      = some [some "a".toList, some "b".toList, some "c".toList, some "d".toList, some []] ∧
    (genders_getattr_all (some (exampleHandle ["n[1-2]  a=1,b=2", "n1      c=3", "n3      d"]))
      (some blankArray) 5).2.2 = 4 ∧
    (genders_isattr (some (exampleHandle ["n[1-2]  a=1,b=2", "n1      c=3", "n3      d"]))
      (some "c".toList)).2 = 1 ∧
    (genders_isattr (some (exampleHandle ["n[1-2]  a=1,b=2", "n1      c=3", "n3      d"]))
      (some "e".toList)).2 = 0 ∧
    genders_getattr_all (some (exampleHandle ["n[1-2]  a=1,b=2", "n1      c=3", "n3      d"]))
        (some blankArray) 3
      = (some { exampleHandle ["n[1-2]  a=1,b=2", "n1      c=3", "n3      d"] with
                  errnum := GENDERS_ERR_OVERFLOW }, some blankArray, -1) :=
  ⟨loadedHandle_example _ (by decide) (by decide), by decide, by decide, by decide, by decide,
    by decide,
    (getattr_all_spec (exampleEnv ["n[1-2]  a=1,b=2", "n1      c=3", "n3      d"])
      (exampleHandle ["n[1-2]  a=1,b=2", "n1      c=3", "n3      d"])
      (loadedHandle_example _ (by decide) (by decide))).2.2.2.2.1 (some blankArray) 3
      (by decide) (by decide) (Or.inl (by simp))⟩

/-- The claim C22 as stated fails on the handle loaded from the file
`n1 a=1` (`numattrs = 1`): `genders_getattr_all` with `len = -1 < numattrs`
fails with `PARAMETERS`, not `OVERFLOW`, as it does with a NULL array and
`len = 1`; and with `len = 1 >= numattrs` and a NULL slot it returns -1 with
`NULLPTR` instead of the one name. -/
theorem getattr_all_counterexample :
    (exampleLoad ["n1 a=1"]).2 = 0 ∧
    (exampleHandle ["n1 a=1"]).numattrs = 1 ∧
    (genders_getattr_all (exampleLoad ["n1 a=1"]).1 (some blankArray) (-1)).2.2 = -1 ∧
    genders_errnum (genders_getattr_all (exampleLoad ["n1 a=1"]).1 (some blankArray) (-1)).1
      = GENDERS_ERR_PARAMETERS ∧
    (genders_getattr_all (exampleLoad ["n1 a=1"]).1 none 1).2.2 = -1 ∧
    genders_errnum (genders_getattr_all (exampleLoad ["n1 a=1"]).1 none 1).1
      = GENDERS_ERR_PARAMETERS ∧
    (genders_getattr_all (exampleLoad ["n1 a=1"]).1 (some (fun _ => none)) 1).2.2 = -1 ∧
    genders_errnum (genders_getattr_all (exampleLoad ["n1 a=1"]).1 (some (fun _ => none)) 1).1
      = GENDERS_ERR_NULLPTR := by
  refine ⟨by decide, by decide, by decide, by decide, by decide, by decide, by decide,
    by decide⟩

/-! ## Arrays sized by the statistics -/

theorem find_attrvals_iff (avs : List genders_attrval) (a : List Char) :
    (avs.find? (fun av => _is_attr_in_attrvals av a)).isSome = true ↔
      a ∈ avs.map (fun av => av.attr) := by
  induction avs with
  | nil => simp
  | cons x rest ih =>
    rw [List.find?_cons]
    by_cases hx : x.attr = a
    · simp [_is_attr_in_attrvals, hx]
    · have : _is_attr_in_attrvals x a = false := by simp [_is_attr_in_attrvals, hx]
      rw [this]
      simp only [List.map_cons, List.mem_cons]
      rw [ih]
      constructor
      · intro h; exact Or.inr h
      · rintro (h | h)
        · exact absurd h.symm hx
        · exact h

theorem parse_line_attr_ok_iff (tok : List Char) (st : AttrsOut) (hst : st.ok = true) :
    ((_parse_line_attr 0 tok st).ok = false ↔
      (split_attr tok).1 ∈ st.attrvals.map (fun av => av.attr)) ∧
    ((_parse_line_attr 0 tok st).ok = false →
      (_parse_line_attr 0 tok st).handle.errnum = GENDERS_ERR_PARSE) := by
  unfold _parse_line_attr
  simp only
  by_cases hd : (st.attrvals.find?
      (fun av => _is_attr_in_attrvals av (split_attr tok).1)).isSome = true
  · rw [if_pos hd]
    exact ⟨⟨fun _ => (find_attrvals_iff _ _).mp hd, fun _ => rfl⟩, fun _ => rfl⟩
  · rw [if_neg hd]
    have hn : (split_attr tok).1 ∉ st.attrvals.map (fun av => av.attr) :=
      fun x => hd ((find_attrvals_iff _ _).mpr x)
    simp only [if_true]
    cases hv : (split_attr tok).2 with
    | none => simp [hst, hn]
    | some v =>
      simp only
      split <;> simp [hst, hn]

theorem parse_line_attrs_fail (toks : List (List Char)) :
    ∀ st : AttrsOut, st.ok = true →
      ((_parse_line_attrs 0 toks st).ok = false →
        (_parse_line_attrs 0 toks st).handle.errnum = GENDERS_ERR_PARSE) ∧
      ((st.attrvals.map (fun av => av.attr)).Nodup →
        ¬ (st.attrvals.map (fun av => av.attr)
            ++ toks.map (fun tok => (split_attr tok).1)).Nodup →
        (_parse_line_attrs 0 toks st).ok = false) := by
  induction toks with
  | nil =>
    intro st hst
    simp only [_parse_line_attrs, List.map_nil, List.append_nil]
    exact ⟨(fun e => by rw [hst] at e; cases e), fun h1 h2 => absurd h1 h2⟩
  | cons tok rest ih =>
    intro st hst
    have hs := parse_line_attr_ok_iff tok st hst
    unfold _parse_line_attrs
    by_cases hok : (_parse_line_attr 0 tok st).ok = true
    · rw [if_pos hok]
      obtain ⟨i1, i2⟩ := ih _ hok
      refine ⟨i1, ?_⟩
      intro hnd hdup
      have hav := (parse_line_attr_tables tok st hok).1
      apply i2
      · rw [hav]
        simp only [List.map_append, List.map_cons, List.map_nil]
        rw [List.nodup_append]
        refine ⟨hnd, by simp, ?_⟩
        intro a ha hb
        simp only [List.mem_singleton] at hb
        subst hb
        have := hs.1.mpr ha
        rw [hok] at this
        cases this
      · rw [hav]
        simpa using hdup
    · rw [if_neg hok]
      have hf : (_parse_line_attr 0 tok st).ok = false := by simpa using hok
      exact ⟨fun _ => hs.2 hf, fun _ _ => hf⟩

theorem parse_line_attrlist_fail (h : genders) (line : Option (List Char))
    (hf : (_parse_line_attrlist h line 0 []).1.ok = false) :
    (_parse_line_attrlist h line 0 []).2.2 = -1 ∧
    (_parse_line_attrlist h line 0 []).1.handle.errnum = GENDERS_ERR_PARSE := by
  unfold _parse_line_attrlist at hf ⊢
  cases line with
  | none => simp at hf
  | some l =>
    simp only at hf ⊢
    by_cases hne : l.dropWhile isspace ≠ []
    · rw [if_pos hne] at hf ⊢
      by_cases hw : (strchr (l.dropWhile isspace) ' ' || strchr (l.dropWhile isspace) '\t') = true
      · rw [if_pos hw]
        exact ⟨by simp, rfl⟩
      · rw [if_neg hw] at hf ⊢
        exact ⟨rfl, (parse_line_attrs_fail _ ⟨h, [], 0, [], true⟩ rfl).1 hf⟩
    · rw [if_neg hne] at hf
      simp at hf

theorem parse_line_attrlist_names (h : genders) (l : List Char) :
    (¬ ((strtok_r (l.dropWhile isspace) []).map (fun tok => (split_attr tok).1)).Nodup →
      (_parse_line_attrlist h (some l) 0 []).1.ok = false) ∧
    ((_parse_line_attrlist h (some l) 0 []).1.ok = true →
      (strtok_r (l.dropWhile isspace) []).map (fun tok => (split_attr tok).1) ≠ [] →
      ∃ avs, (_parse_line_attrlist h (some l) 0 []).2.1 = some avs ∧
        avs.map (fun av => av.attr)
          = (strtok_r (l.dropWhile isspace) []).map (fun tok => (split_attr tok).1)) := by
  unfold _parse_line_attrlist
  simp only
  by_cases hne : l.dropWhile isspace ≠ []
  · rw [if_pos hne]
    by_cases hw : (strchr (l.dropWhile isspace) ' ' || strchr (l.dropWhile isspace) '\t') = true
    · rw [if_pos hw]
      exact ⟨fun _ => rfl, fun e => by simp at e⟩
    · rw [if_neg hw]
      simp only
      refine ⟨?_, ?_⟩
      · intro hdup
        exact (parse_line_attrs_fail _ ⟨h, [], 0, [], true⟩ rfl).2 (by simp)
          (by simpa using hdup)
      · intro hok _
        refine ⟨_, rfl, ?_⟩
        rw [(parse_line_attrs_tables _ ⟨h, [], 0, [], true⟩ hok).1]
        simp [List.map_map, Function.comp]
  · rw [if_neg hne]
    have he : l.dropWhile isspace = [] := by simpa using hne
    rw [he]
    exact ⟨fun hd => by simp [strtok_r] at hd, fun _ hn => by simp [strtok_r] at hn⟩

theorem find_insert_node (l : List genders_node) (node N : List Char) :
    (∀ n, l.find? (fun x => _is_node x N) = some n →
      (_insert_node l node).1.find? (fun x => _is_node x N) = some n) ∧
    (_insert_node l node).1.find? (fun x => _is_node x node) = some (_insert_node l node).2 := by
  unfold _insert_node
  cases hfind : l.find? (fun x => _is_node x node) with
  | some n0 => exact ⟨fun n hn => hn, hfind⟩
  | none =>
    simp only
    refine ⟨?_, ?_⟩
    · intro n hn
      rw [List.find?_append, hn]
      rfl
    · rw [List.find?_append, hfind]
      simp [_is_node]

theorem find_node_store (l : List genders_node) (n : genders_node) (N : List Char) :
    (node_store l n).find? (fun x => _is_node x N)
      = if n.name = N then (l.find? (fun x => _is_node x N)).map (fun _ => n)
        else l.find? (fun x => _is_node x N) := by
  induction l with
  | nil => simp [node_store]
  | cons x rest ih =>
    unfold node_store
    by_cases hx : _is_node x n.name = true
    · rw [if_pos hx]
      have hxn : x.name = n.name := (is_node_iff x n.name).mp hx
      by_cases hN : n.name = N
      · rw [if_pos hN]
        have h1 : _is_node n N = true := (is_node_iff n N).mpr hN
        have h2 : _is_node x N = true := (is_node_iff x N).mpr (hxn.trans hN)
        simp [List.find?_cons, h1, h2]
      · rw [if_neg hN]
        have h1 : _is_node n N = false := by
          cases hb : _is_node n N with
          | false => rfl
          | true => exact absurd ((is_node_iff n N).mp hb) hN
        have h2 : _is_node x N = false := by
          cases hb : _is_node x N with
          | false => rfl
          | true => exact absurd (hxn.symm.trans ((is_node_iff x N).mp hb)) hN
        simp [List.find?_cons, h1, h2]
    · rw [if_neg hx]
      have hxn : x.name ≠ n.name := fun e => hx ((is_node_iff x n.name).mpr e)
      by_cases hxN : x.name = N
      · have h2 : _is_node x N = true := (is_node_iff x N).mpr hxN
        have hN : ¬ n.name = N := fun e => hxn (hxN.trans e.symm)
        rw [if_neg hN]
        simp [List.find?_cons, h2]
      · have h2 : _is_node x N = false := by
          cases hb : _is_node x N with
          | false => rfl
          | true => exact absurd ((is_node_iff x N).mp hb) hxN
        rw [List.find?_cons, h2, ih, List.find?_cons, h2]

theorem carries_insert_node (l : List genders_node) (node N A : List Char)
    (hc : carriesAttr l N A) : carriesAttr (_insert_node l node).1 N A := by
  obtain ⟨n, hn, ha⟩ := hc
  exact ⟨n, (find_insert_node l node N).1 n hn, ha⟩

theorem parse_line_node_exit_parse (attrvals : Option (List genders_attrval))
    (node : List Char) (st : NodesOut) (hst : st.exit = none)
    (hex : (_parse_line_node 0 attrvals node st).exit ≠ none) :
    (_parse_line_node 0 attrvals node st).exit = some (-1) ∧
    (_parse_line_node 0 attrvals node st).handle.errnum = GENDERS_ERR_PARSE := by
  unfold _parse_line_node at hex ⊢
  simp only at hex ⊢
  by_cases h1 : node.length > MAXHOSTNAMELEN
  · rw [if_pos h1]
    exact ⟨by simp, rfl⟩
  · rw [if_neg h1] at hex ⊢
    by_cases h2 : strchr node '.' = true
    · rw [if_pos h2]
      exact ⟨by simp, rfl⟩
    · rw [if_neg h2] at hex ⊢
      cases attrvals with
      | none => simp [hst] at hex
      | some avs =>
        simp only at hex ⊢
        by_cases h3 : _duplicate_attr_check (_insert_node st.nodelist node).2.attrlist avs = 1
        · rw [if_pos h3]
          exact ⟨by simp, rfl⟩
        · rw [if_neg h3] at hex
          simp [hst] at hex

theorem parse_line_node_dup (avs : List genders_attrval) (node A : List Char) (st : NodesOut)
    (hc : carriesAttr st.nodelist node A) (hA : A ∈ avs.map (fun av => av.attr)) :
    (_parse_line_node 0 (some avs) node st).exit ≠ none := by
  unfold _parse_line_node
  simp only
  by_cases h1 : node.length > MAXHOSTNAMELEN
  · rw [if_pos h1]; simp
  · rw [if_neg h1]
    by_cases h2 : strchr node '.' = true
    · rw [if_pos h2]; simp
    · rw [if_neg h2]
      have h3 : _duplicate_attr_check (_insert_node st.nodelist node).2.attrlist avs = 1 := by
        by_contra hne
        obtain ⟨n, hn, ha⟩ := hc
        have hf := (find_insert_node st.nodelist node node).1 n hn
        rw [(find_insert_node st.nodelist node node).2] at hf
        cases hf
        obtain ⟨x, hx, hxa⟩ := List.mem_map.mp ha
        obtain ⟨g, hg, hxg⟩ := List.mem_flatten.mp hx
        obtain ⟨av, hav, hava⟩ := List.mem_map.mp hA
        exact duplicate_attr_check_zero _ avs hne av hav g hg x hxg (hxa.trans hava.symm)
      rw [if_pos h3]
      simp

theorem parse_line_node_carries (attrvals : Option (List genders_attrval)) (node : List Char)
    (st : NodesOut) (hex : (_parse_line_node 0 attrvals node st).exit = none) :
    (∀ N A, carriesAttr st.nodelist N A →
      carriesAttr (_parse_line_node 0 attrvals node st).nodelist N A) ∧
    (∀ avs, attrvals = some avs → ∀ A ∈ avs.map (fun av => av.attr),
      carriesAttr (_parse_line_node 0 attrvals node st).nodelist node A) := by
  have hname := (insert_node_mem st.nodelist node).2.2.2
  have hfind := (find_insert_node st.nodelist node node).2
  rcases (parse_line_node_shape attrvals node st hex).1 with ⟨hnone, hl, _⟩ |
    ⟨avs, n, hsome, hn1, hn2, _, hl, _⟩
  · rw [hl]
    refine ⟨fun N A hc => carries_insert_node _ _ _ _ hc, ?_⟩
    intro avs e
    rw [hnone] at e
    cases e
  · rw [hl]
    refine ⟨?_, ?_⟩
    · intro N A hc
      obtain ⟨m, hm, ha⟩ := carries_insert_node st.nodelist node N A hc
      by_cases hN : n.name = N
      · refine ⟨n, ?_, ?_⟩
        · rw [find_node_store, if_pos hN, hm]
          rfl
        · have hNn : N = node := by rw [← hN, hn1, hname]
          subst hNn
          rw [hfind] at hm
          cases hm
          rw [hn2]
          simp only [List.flatten_append, List.map_append, List.mem_append]
          exact Or.inl ha
      · refine ⟨m, ?_, ha⟩
        rw [find_node_store, if_neg hN, hm]
    · intro avs0 e A hA
      rw [hsome] at e
      cases e
      refine ⟨n, ?_, ?_⟩
      · rw [find_node_store, if_pos (hn1.trans hname), hfind]
        rfl
      · rw [hn2]
        simp only [List.flatten_append, List.map_append, List.mem_append]
        right
        simpa using hA

theorem parse_line_nodes_exit_parse (attrvals : Option (List genders_attrval))
    (names : List (List Char)) :
    ∀ st : NodesOut, st.exit = none → (_parse_line_nodes 0 attrvals names st).exit ≠ none →
      (_parse_line_nodes 0 attrvals names st).exit = some (-1) ∧
      (_parse_line_nodes 0 attrvals names st).handle.errnum = GENDERS_ERR_PARSE := by
  induction names with
  | nil =>
    intro st hst hex
    exact absurd hst hex
  | cons node rest ih =>
    intro st hst hex
    unfold _parse_line_nodes at hex ⊢
    by_cases hs : (_parse_line_node 0 attrvals node st).exit = none
    · rw [if_pos hs] at hex ⊢
      exact ih _ hs hex
    · rw [if_neg hs] at hex ⊢
      exact parse_line_node_exit_parse attrvals node st hst hs

theorem parse_line_nodes_carries (attrvals : Option (List genders_attrval))
    (names : List (List Char)) :
    ∀ st : NodesOut, (_parse_line_nodes 0 attrvals names st).exit = none →
      (∀ N A, carriesAttr st.nodelist N A →
        carriesAttr (_parse_line_nodes 0 attrvals names st).nodelist N A) ∧
      (∀ avs, attrvals = some avs → ∀ N ∈ names, ∀ A ∈ avs.map (fun av => av.attr),
        carriesAttr (_parse_line_nodes 0 attrvals names st).nodelist N A) := by
  induction names with
  | nil =>
    intro st _
    exact ⟨fun N A hc => hc, fun avs _ N hN => by simp at hN⟩
  | cons node rest ih =>
    intro st hex
    unfold _parse_line_nodes at hex ⊢
    by_cases hs : (_parse_line_node 0 attrvals node st).exit = none
    · rw [if_pos hs] at hex ⊢
      obtain ⟨s1, s2⟩ := parse_line_node_carries attrvals node st hs
      obtain ⟨i1, i2⟩ := ih _ hex
      refine ⟨fun N A hc => i1 N A (s1 N A hc), ?_⟩
      intro avs havs N hN A hA
      rcases List.mem_cons.mp hN with e | hr
      · subst e
        exact i1 _ A (s2 avs havs A hA)
      · exact i2 avs havs N hr A hA
    · rw [if_neg hs] at hex
      exact absurd hex hs

theorem parse_line_nodes_dup (avs : List genders_attrval) (names : List (List Char))
    (N A : List Char) (hA : A ∈ avs.map (fun av => av.attr)) :
    ∀ st : NodesOut, N ∈ names → carriesAttr st.nodelist N A →
      (_parse_line_nodes 0 (some avs) names st).exit ≠ none := by
  induction names with
  | nil =>
    intro st hN
    simp at hN
  | cons node rest ih =>
    intro st hN hc
    unfold _parse_line_nodes
    by_cases hs : (_parse_line_node 0 (some avs) node st).exit = none
    · rw [if_pos hs]
      rcases List.mem_cons.mp hN with e | hr
      · subst e
        exact absurd hs (parse_line_node_dup avs _ A st hc hA)
      · exact ih _ hr ((parse_line_node_carries (some avs) node st hs).1 N A hc)
    · rw [if_neg hs]
      exact hs

theorem parse_line_nodes_repeat (avs : List genders_attrval) (havs : avs ≠ [])
    (names : List (List Char)) :
    ∀ st : NodesOut, ¬ names.Nodup → (_parse_line_nodes 0 (some avs) names st).exit ≠ none := by
  induction names with
  | nil =>
    intro st hnd
    simp at hnd
  | cons node rest ih =>
    intro st hnd
    unfold _parse_line_nodes
    by_cases hs : (_parse_line_node 0 (some avs) node st).exit = none
    · rw [if_pos hs]
      by_cases hmem : node ∈ rest
      · obtain ⟨av, rest0, rfl⟩ := List.exists_cons_of_ne_nil havs
        have hA : av.attr ∈ (av :: rest0).map (fun av => av.attr) := by simp
        exact parse_line_nodes_dup _ rest node av.attr hA _ hmem
          ((parse_line_node_carries (some (av :: rest0)) node st hs).2 _ rfl _ hA)
      · apply ih
        intro hr
        exact hnd (List.nodup_cons.mpr ⟨hmem, hr⟩)
    · rw [if_neg hs]
      exact hs

/-- A line that repeats an attribute name, or lists a node that already
carries one of its attribute names, or lists a node twice while it has
attributes, is refused by the loader with `PARSE`. -/
theorem parse_line_fail_parse (env : Env) (h : genders) (line : List Char)
    (hcase : ¬ (lineAttrNames line).Nodup ∨
      (∃ N A, N ∈ lineNodeNames env line ∧ carriesAttr h.nodeslist N A ∧
        A ∈ lineAttrNames line) ∨
      (lineAttrNames line ≠ [] ∧ ¬ (lineNodeNames env line).Nodup)) :
    (_parse_line env h line 0 [] [] []).retval = -1 ∧
    (_parse_line env h line 0 [] [] []).handle.errnum = GENDERS_ERR_PARSE := by
  unfold lineAttrNames lineNodeNames lineNodeToken at hcase
  unfold _parse_line
  simp only at hcase ⊢
  generalize ((line.takeWhile (fun c => c != '#')).reverse.dropWhile isspace).reverse = line2
    at hcase ⊢
  by_cases hne : line2 = []
  · simp [hne] at hcase
  · simp only [if_neg hne] at hcase ⊢
    generalize (strsep (line2.dropWhile isspace)).1 = nodenames at hcase ⊢
    generalize (strsep (line2.dropWhile isspace)).2 = rest at hcase ⊢
    have hfail := parse_line_attrlist_fail h rest
    have hinv := (parse_line_attrlist_inv h rest).2
    by_cases hak : (_parse_line_attrlist h rest 0 []).1.ok = false
    · rw [if_pos hak]
      exact hfail hak
    · rw [if_neg hak]
      have hak1 : (_parse_line_attrlist h rest 0 []).1.ok = true := by simpa using hak
      have hnl := (hinv hak1).2.2
      cases rest with
      | none => simp at hcase
      | some l =>
        simp only at hcase
        obtain ⟨hn1, hn2⟩ := parse_line_attrlist_names h l
        generalize _parse_line_attrlist h (some l) 0 [] = a at hn1 hn2 hak hak1 hnl ⊢
        generalize (strtok_r (l.dropWhile isspace) []).map (fun tok => (split_attr tok).1)
          = anames at hcase hn1 hn2
        have hnd : anames.Nodup := by
          by_contra hx
          exact hak (hn1 hx)
        have hne2 : anames ≠ [] := by
          rcases hcase with hc | ⟨N, A, _, _, hA⟩ | ⟨hc, _⟩
          · exact absurd hnd hc
          · intro e
            rw [e] at hA
            simp at hA
          · exact hc
        obtain ⟨avs, havs, hmap⟩ := hn2 hak1 hne2
        cases hh : env.hostlist nodenames with
        | none =>
          rw [hh] at hcase
          simp only [Option.getD_none, List.not_mem_nil, false_and, exists_false,
            List.nodup_nil, not_true_eq_false, and_false, or_false] at hcase
          exact absurd hnd hcase
        | some names =>
          rw [hh] at hcase
          simp only [Option.getD_some] at hcase
          simp only [if_true]
          have hexit : (_parse_line_nodes 0 a.2.1 names
              ⟨a.1.handle.nodeslist, a.1.handle, 0, a.1.stream, none⟩).exit ≠ none := by
            rw [havs]
            rcases hcase with hc | ⟨N, A, hN, hcar, hA⟩ | ⟨_, hc⟩
            · exact absurd hnd hc
            · apply parse_line_nodes_dup avs names N A (by rw [hmap]; exact hA) _ hN
              show carriesAttr a.1.handle.nodeslist N A
              rw [hnl]
              exact hcar
            · apply parse_line_nodes_repeat avs _ names _ hc
              intro e
              rw [e] at hmap
              exact hne2 hmap.symm
          obtain ⟨e1, e2⟩ := parse_line_nodes_exit_parse a.2.1 names
            ⟨a.1.handle.nodeslist, a.1.handle, 0, a.1.stream, none⟩ rfl hexit
          generalize _parse_line_nodes 0 a.2.1 names
            ⟨a.1.handle.nodeslist, a.1.handle, 0, a.1.stream, none⟩ = r at e1 e2 ⊢
          simp only [e1, if_true]
          exact ⟨trivial, e2⟩

/-- A line that the loader accepts keeps what the nodes carry and gives each
node it lists each attribute name it holds. -/
theorem parse_line_carries (env : Env) (h : genders) (line : List Char)
    (hok : ¬ (_parse_line env h line 0 [] [] []).retval < 0) :
    (∀ N A, carriesAttr h.nodeslist N A →
      carriesAttr (_parse_line env h line 0 [] [] []).handle.nodeslist N A) ∧
    (∀ N ∈ lineNodeNames env line, ∀ A ∈ lineAttrNames line,
      carriesAttr (_parse_line env h line 0 [] [] []).handle.nodeslist N A) := by
  unfold lineAttrNames lineNodeNames lineNodeToken
  unfold _parse_line at hok ⊢
  simp only at hok ⊢
  generalize ((line.takeWhile (fun c => c != '#')).reverse.dropWhile isspace).reverse = line2
    at hok ⊢
  by_cases hne : line2 = []
  · simp only [if_pos hne]
    exact ⟨fun N A hc => hc, fun N hN => by simp at hN⟩
  · simp only [if_neg hne] at hok ⊢
    generalize (strsep (line2.dropWhile isspace)).1 = nodenames at hok ⊢
    generalize (strsep (line2.dropWhile isspace)).2 = rest at hok ⊢
    have hfail := parse_line_attrlist_fail h rest
    have hinv := (parse_line_attrlist_inv h rest).2
    have hnames : ∀ l, rest = some l → (_parse_line_attrlist h rest 0 []).1.ok = true →
        (strtok_r (l.dropWhile isspace) []).map (fun tok => (split_attr tok).1) ≠ [] →
        ∃ avs, (_parse_line_attrlist h rest 0 []).2.1 = some avs ∧
          avs.map (fun av => av.attr)
            = (strtok_r (l.dropWhile isspace) []).map (fun tok => (split_attr tok).1) := by
      intro l hl
      subst hl
      exact (parse_line_attrlist_names h l).2
    generalize _parse_line_attrlist h rest 0 [] = a at hok hfail hinv hnames ⊢
    by_cases hak : a.1.ok = false
    · rw [if_pos hak] at hok
      have := (hfail hak).1
      simp only at hok
      omega
    · rw [if_neg hak] at hok ⊢
      have hak1 : a.1.ok = true := by simpa using hak
      have hnl := (hinv hak1).2.2
      cases hh : env.hostlist nodenames with
      | none => simp [hh] at hok
      | some names =>
        simp only [hh, if_true, Option.getD_some] at hok ⊢
        have hx := parse_line_nodes_exit_parse a.2.1 names
          ⟨a.1.handle.nodeslist, a.1.handle, 0, a.1.stream, none⟩ rfl
        have hc := parse_line_nodes_carries a.2.1 names
          ⟨a.1.handle.nodeslist, a.1.handle, 0, a.1.stream, none⟩
        generalize _parse_line_nodes 0 a.2.1 names
          ⟨a.1.handle.nodeslist, a.1.handle, 0, a.1.stream, none⟩ = r at hok hx hc ⊢
        cases hex : r.exit with
        | some rv =>
          have := (hx (by rw [hex]; simp)).1
          rw [hex] at this
          cases this
          simp [hex] at hok
        | none =>
          simp only [hex, if_true]
          obtain ⟨c1, c2⟩ := hc hex
          simp only at c1 c2
          rw [hnl] at c1
          refine ⟨c1, ?_⟩
          intro N hN A hA
          cases rest with
          | none => simp at hA
          | some l =>
            simp only at hA
            obtain ⟨avs, havs, hmap⟩ := hnames l rfl hak1 (by
              intro e
              rw [e] at hA
              simp at hA)
            exact c2 avs havs N hN A (by rw [hmap]; exact hA)

theorem mem_lineGives (env : Env) (line : List Char) (N A : List Char) :
    (N, A) ∈ lineGives env line ↔ N ∈ lineNodeNames env line ∧ A ∈ lineAttrNames line := by
  unfold lineGives
  simp only [List.mem_flatten, List.mem_map]
  constructor
  · rintro ⟨l, ⟨M, hM, rfl⟩, hp⟩
    obtain ⟨B, hB, e⟩ := List.mem_map.mp hp
    cases e
    exact ⟨hM, hB⟩
  · rintro ⟨hN, hA⟩
    exact ⟨_, ⟨N, hN, rfl⟩, List.mem_map.mpr ⟨A, hA, rfl⟩⟩

theorem pairs_nodup (as : List (List Char)) (has : as.Nodup) (ns : List (List Char))
    (hns : as = [] ∨ ns.Nodup) :
    ((ns.map (fun N => as.map (fun A => (N, A)))).flatten).Nodup := by
  induction ns with
  | nil => simp
  | cons N rest ih =>
    simp only [List.map_cons, List.flatten_cons]
    rw [List.nodup_append]
    refine ⟨?_, ?_, ?_⟩
    · apply has.map
      intro a b e
      cases e
      rfl
    · apply ih
      rcases hns with e | hn
      · exact Or.inl e
      · exact Or.inr (List.nodup_cons.mp hn).2
    · intro p hp hq
      rcases hns with e | hn
      · rw [e] at hp
        simp at hp
      · obtain ⟨B, _, rfl⟩ := List.mem_map.mp hp
        obtain ⟨l, hl, hq2⟩ := List.mem_flatten.mp hq
        obtain ⟨M, hM, rfl⟩ := List.mem_map.mp hl
        obtain ⟨C, _, e⟩ := List.mem_map.mp hq2
        cases e
        exact (List.nodup_cons.mp hn).1 hM

theorem parse_line_fail_errnum (env : Env) (htot : ∀ tok, env.hostlist tok ≠ none)
    (h : genders) (line : List Char)
    (hf : (_parse_line env h line 0 [] [] []).retval < 0) :
    (_parse_line env h line 0 [] [] []).handle.errnum = GENDERS_ERR_PARSE := by
  unfold _parse_line at hf ⊢
  simp only at hf ⊢
  generalize ((line.takeWhile (fun c => c != '#')).reverse.dropWhile isspace).reverse = line2
    at hf ⊢
  by_cases hne : line2 = []
  · simp [hne] at hf
  · simp only [if_neg hne] at hf ⊢
    generalize (strsep (line2.dropWhile isspace)).1 = nodenames at hf ⊢
    generalize (strsep (line2.dropWhile isspace)).2 = rest at hf ⊢
    have hfail := parse_line_attrlist_fail h rest
    generalize _parse_line_attrlist h rest 0 [] = a at hf hfail ⊢
    by_cases hak : a.1.ok = false
    · rw [if_pos hak]
      exact (hfail hak).2
    · rw [if_neg hak] at hf ⊢
      cases hh : env.hostlist nodenames with
      | none => exact absurd hh (htot nodenames)
      | some names =>
        simp only [hh, if_true] at hf ⊢
        have hx := parse_line_nodes_exit_parse a.2.1 names
          ⟨a.1.handle.nodeslist, a.1.handle, 0, a.1.stream, none⟩ rfl
        generalize _parse_line_nodes 0 a.2.1 names
          ⟨a.1.handle.nodeslist, a.1.handle, 0, a.1.stream, none⟩ = r at hf hx ⊢
        cases hex : r.exit with
        | some rv =>
          simp only [hex]
          exact (hx (by rw [hex]; simp)).2
        | none => simp [hex] at hf

theorem readline_line (h : genders) (ret buflen : Int) (hv : 0 < ret ∧ ret < buflen - 1) :
    _readline h ret buflen = (h, ret) := by
  unfold _readline
  rw [if_neg (by omega), if_neg (by omega)]

/-- The read loop fails when the lines give a node an attribute name twice,
or give a node an attribute name that the node table already gives it; with
`PARSE` when the expander does not fail. -/
theorem load_lines_gives_twice (env : Env) (file : List (Int × List Char)) :
    ∀ h : genders,
      (givesAttrTwice env (fileLines file) ∨
        ∃ line ∈ fileLines file, ∃ N A, (N, A) ∈ lineGives env line ∧
          carriesAttr h.nodeslist N A) →
      (genders_load_data_lines env file h).2 = -1 ∧
      ((∀ tok, env.hostlist tok ≠ none) →
        (genders_load_data_lines env file h).1.errnum = GENDERS_ERR_PARSE) := by
  induction file with
  | nil =>
    intro h hr
    simp [fileLines, givesAttrTwice] at hr
  | cons ev rest ih =>
    intro h hr
    obtain ⟨ret, buf⟩ := ev
    by_cases hv : 0 < ret ∧ ret < GENDERS_READLINE_BUFLEN - 1
    · have hline : fileLines ((ret, buf) :: rest) = buf :: fileLines rest := by
        simp [fileLines, List.takeWhile, hv]
      rw [hline] at hr
      unfold genders_load_data_lines
      simp only
      rw [readline_line h ret _ hv]
      simp only
      rw [if_pos hv.1]
      by_cases hf : (_parse_line env h buf 0 [] [] []).retval < 0
      · rw [if_pos hf]
        exact ⟨rfl, fun htot => parse_line_fail_errnum env htot h buf hf⟩
      · rw [if_neg hf]
        have hrefuse := parse_line_fail_parse env h buf
        obtain ⟨c1, c2⟩ := parse_line_carries env h buf hf
        apply ih
        have hacc2 : ¬ (¬ (lineAttrNames buf).Nodup ∨
            (∃ N A, N ∈ lineNodeNames env buf ∧ carriesAttr h.nodeslist N A ∧
              A ∈ lineAttrNames buf) ∨
            (lineAttrNames buf ≠ [] ∧ ¬ (lineNodeNames env buf).Nodup)) := by
          intro hc
          have := (hrefuse hc).1
          omega
        rcases hr with htw | ⟨line, hl, N, A, hg, hcar⟩
        · unfold givesAttrTwice at htw
          simp only [List.map_cons, List.flatten_cons] at htw
          rw [List.nodup_append] at htw
          by_cases h1 : (lineGives env buf).Nodup
          · by_cases h2 : ((fileLines rest).map (lineGives env)).flatten.Nodup
            · right
              have h3 : ¬ ∀ p, p ∈ lineGives env buf →
                  p ∈ ((fileLines rest).map (lineGives env)).flatten → False := by
                intro hd
                exact htw ⟨h1, h2, fun p hp hq => hd p hp hq⟩
              push_neg at h3
              obtain ⟨⟨N, A⟩, hp, hq, _⟩ := h3
              obtain ⟨l, hl, hpl⟩ := List.mem_flatten.mp hq
              obtain ⟨line, hline2, rfl⟩ := List.mem_map.mp hl
              have hNA := (mem_lineGives env buf N A).mp hp
              exact ⟨line, hline2, N, A, hpl, c2 N hNA.1 A hNA.2⟩
            · exact Or.inl h2
          · exfalso
            apply h1
            unfold lineGives
            apply pairs_nodup
            · by_contra hx
              exact hacc2 (Or.inl hx)
            · by_cases he : lineAttrNames buf = []
              · exact Or.inl he
              · right
                by_contra hx
                exact hacc2 (Or.inr (Or.inr ⟨he, hx⟩))
        · rcases List.mem_cons.mp hl with e | hl2
          · subst e
            have hNA := (mem_lineGives env line N A).mp hg
            exact absurd (Or.inr (Or.inl ⟨N, A, hNA.1, hcar, hNA.2⟩)) hacc2
          · exact Or.inr ⟨line, hl2, N, A, hg, c1 N A hcar⟩
    · have hline : fileLines ((ret, buf) :: rest) = [] := by
        simp [fileLines, List.takeWhile, hv]
      rw [hline] at hr
      simp [givesAttrTwice] at hr

/-- A load into a valid unloaded handle fails when the lines read give some
node the same attribute name twice, with `PARSE` and the handle reset when
the expander does not fail. -/
theorem load_gives_twice (env : Env) (h0 : genders) (filename : Option (List Char))
    (file : List (Int × List Char)) (hm : h0.magic = GENDERS_MAGIC_NUM) (hu : h0.is_loaded = 0)
    (hfile : env.files (filename.getD GENDERS_DEFAULT_FILE) = some file)
    (htw : givesAttrTwice env (fileLines file)) :
    (genders_load_data env (some h0) filename).2 = -1 ∧
    ((∀ tok, env.hostlist tok ≠ none) →
      genders_load_data env (some h0) filename
        = (some { genders_handle_create with errnum := GENDERS_ERR_PARSE }, -1)) := by
  obtain ⟨l1, l2⟩ := load_lines_gives_twice env file h0 (Or.inl htw)
  unfold genders_load_data
  rw [unloaded_check_ok h0 hm hu]
  simp only [lt_self_iff_false, if_false, hfile]
  generalize genders_load_data_lines env file h0 = r at l1 l2
  have hneg : r.2 < 0 := by omega
  rw [if_pos hneg]
  refine ⟨rfl, fun htot => ?_⟩
  rw [load_cleanup_eq, l2 htot]

/-- C28.  For every file: when the load succeeds, no attribute name occurs
twice within one attrval list of the attrval-list table, nor within the
attrval lists that one node references taken together (hence none within any
single list a node references), and the lines read give no node the same
attribute name twice; and when the lines give some node the same attribute
name twice, on one line or on two, the load fails, with `PARSE` and the
handle reset when the expander does not fail. -/
theorem no_duplicate_attrs (env : Env) (e : Int) (filename : Option (List Char))
    (file : List (Int × List Char))
    (hfile : env.files (filename.getD GENDERS_DEFAULT_FILE) = some file) :
    (∀ hL h : genders,
      genders_load_data env (some { genders_handle_create with errnum := e }) filename
        = (some hL, 0) →
      h = { hL with errnum := h.errnum, valbuf := h.valbuf } →
      (∀ g ∈ h.attrvalslist, (g.map (fun av => av.attr)).Nodup) ∧
      (∀ n ∈ h.nodeslist, (n.attrlist.flatten.map (fun av => av.attr)).Nodup) ∧
      (∀ n ∈ h.nodeslist, ∀ g ∈ n.attrlist, (g.map (fun av => av.attr)).Nodup) ∧
      ¬ givesAttrTwice env (fileLines file)) ∧
    (givesAttrTwice env (fileLines file) →
      (genders_load_data env (some { genders_handle_create with errnum := e }) filename).2 = -1 ∧
      ((∀ tok, env.hostlist tok ≠ none) →
        genders_load_data env (some { genders_handle_create with errnum := e }) filename
          = (some { genders_handle_create with errnum := GENDERS_ERR_PARSE }, -1))) := by
  have hfail := load_gives_twice env { genders_handle_create with errnum := e } filename file
    rfl rfl hfile
  refine ⟨?_, hfail⟩
  intro hL h hload heq
  have hl : LoadedHandle env h := ⟨e, filename, hL, hload, heq⟩
  have hi := loadedInv_of_loaded env h hl
  have ht := tablesInv_of_loaded env h hl
  refine ⟨ht.nodup, hi.nodes.2, fun n hn g hg => ht.nodup g (ht.groups n hn g hg), ?_⟩
  intro htw
  have h1 := (hfail htw).1
  generalize genders_load_data env (some { genders_handle_create with errnum := e }) filename
    = res at hload h1
  rw [hload] at h1
  cases h1

theorem exampleHostlist_total (tok : List Char) : exampleHostlist tok ≠ none := by
  unfold exampleHostlist
  split
  · simp
  · split <;> simp

theorem no_duplicate_attrs_witness :
    (exampleEnv ["n1  a=1", "n1  a=2"]).files
        ((none : Option (List Char)).getD GENDERS_DEFAULT_FILE)
      = some [(8, "n1  a=1\n".toList), (8, "n1  a=2\n".toList)] ∧
    givesAttrTwice (exampleEnv ["n1  a=1", "n1  a=2"])
      (fileLines [(8, "n1  a=1\n".toList), (8, "n1  a=2\n".toList)]) ∧
    exampleLoad ["n1  a=1", "n1  a=2"]
      = (some { genders_handle_create with errnum := GENDERS_ERR_PARSE }, -1) ∧
    givesAttrTwice (exampleEnv ["n1  a=1,a=2"]) (fileLines [(12, "n1  a=1,a=2\n".toList)]) ∧
    exampleLoad ["n1  a=1,a=2"]
      = (some { genders_handle_create with errnum := GENDERS_ERR_PARSE }, -1) ∧
    (exampleLoad ["n[1-2]  a=1,b=2", "n1      c=3", "n3      d"]).2 = 0 ∧
    ¬ givesAttrTwice (exampleEnv ["n[1-2]  a=1,b=2", "n1      c=3", "n3      d"])
      (fileLines [(16, "n[1-2]  a=1,b=2\n".toList), (12, "n1      c=3\n".toList),
        (10, "n3      d\n".toList)]) ∧
    (∀ n ∈ (exampleHandle ["n[1-2]  a=1,b=2", "n1      c=3", "n3      d"]).nodeslist,
      (n.attrlist.flatten.map (fun av => av.attr)).Nodup) :=
  ⟨by decide, by unfold givesAttrTwice; decide,
    (no_duplicate_attrs (exampleEnv ["n1  a=1", "n1  a=2"]) GENDERS_ERR_SUCCESS none
      [(8, "n1  a=1\n".toList), (8, "n1  a=2\n".toList)] (by decide)).2
      (by unfold givesAttrTwice; decide) |>.2 exampleHostlist_total,
    by unfold givesAttrTwice; decide,
    (no_duplicate_attrs (exampleEnv ["n1  a=1,a=2"]) GENDERS_ERR_SUCCESS none
      [(12, "n1  a=1,a=2\n".toList)] (by decide)).2
      (by unfold givesAttrTwice; decide) |>.2 exampleHostlist_total,
    by decide,
    ((no_duplicate_attrs (exampleEnv ["n[1-2]  a=1,b=2", "n1      c=3", "n3      d"])
      GENDERS_ERR_SUCCESS none
      [(16, "n[1-2]  a=1,b=2\n".toList), (12, "n1      c=3\n".toList),
        (10, "n3      d\n".toList)] (by decide)).1
      (exampleHandle ["n[1-2]  a=1,b=2", "n1      c=3", "n3      d"])
      (exampleHandle ["n[1-2]  a=1,b=2", "n1      c=3", "n3      d"])
      (exampleLoad_eq _ (by decide) (by decide)) rfl).2.2.2,
    ((no_duplicate_attrs (exampleEnv ["n[1-2]  a=1,b=2", "n1      c=3", "n3      d"])
      GENDERS_ERR_SUCCESS none
      [(16, "n[1-2]  a=1,b=2\n".toList), (12, "n1      c=3\n".toList),
        (10, "n3      d\n".toList)] (by decide)).1
      (exampleHandle ["n[1-2]  a=1,b=2", "n1      c=3", "n3      d"])
      (exampleHandle ["n[1-2]  a=1,b=2", "n1      c=3", "n3      d"])
      (exampleLoad_eq _ (by decide) (by decide)) rfl).2.1⟩

/-! ## Queries change only the error code and the scratch buffer -/

theorem queryFrame_refl (h : genders) : QueryFrame h h := rfl

theorem queryFrame_errnum (h : genders) (e : Int) : QueryFrame h { h with errnum := e } := rfl

theorem queryFrame_trans {a b c : genders} (h1 : QueryFrame a b) (h2 : QueryFrame b c) :
    QueryFrame a c := by
  unfold QueryFrame at *
  calc c = { b with errnum := c.errnum, valbuf := c.valbuf } := h2
    _ = { a with errnum := c.errnum, valbuf := c.valbuf } := by rw [h1]

theorem queryFrame_set {a b : genders} (h1 : QueryFrame a b) (e : Int) :
    QueryFrame a { b with errnum := e } :=
  queryFrame_trans h1 (queryFrame_errnum b e)

theorem queryFrame_fields (h h1 : genders) (hf : QueryFrame h h1) :
    h1.magic = h.magic ∧ h1.is_loaded = h.is_loaded ∧ h1.numnodes = h.numnodes ∧
    h1.numattrs = h.numattrs ∧ h1.maxattrs = h.maxattrs ∧ h1.maxnodelen = h.maxnodelen ∧
    h1.maxattrlen = h.maxattrlen ∧ h1.maxvallen = h.maxvallen ∧ h1.nodename = h.nodename ∧
    h1.nodeslist = h.nodeslist ∧ h1.attrvalslist = h.attrvalslist ∧
    h1.attrslist = h.attrslist ∧ h1.node_index = h.node_index := by
  unfold QueryFrame at hf
  rw [hf]
  simp

theorem put_in_list_frame (h : genders) (str : List Char) (list : Option StrArray)
    (index : Nat) (len : Int) : QueryFrame h (_put_in_list h str list index len).1 := by
  unfold _put_in_list
  split
  · exact queryFrame_errnum h _
  · split
    · exact queryFrame_refl h
    · split
      · exact queryFrame_errnum h _
      · exact queryFrame_refl h

theorem loaded_check_frame (h : genders) :
    (_loaded_handle_error_check (some h) = (some h, 0)) ∨
    ((_loaded_handle_error_check (some h)).2 < 0 ∧
      ∃ h1, (_loaded_handle_error_check (some h)).1 = some h1 ∧ QueryFrame h h1) := by
  unfold _loaded_handle_error_check
  by_cases hc : _handle_error_check (some h) < 0
  · rw [if_pos hc]
    exact Or.inr ⟨by simp, h, rfl, queryFrame_refl h⟩
  · rw [if_neg hc]
    simp only
    by_cases hu : h.is_loaded = 0
    · rw [if_pos hu]
      exact Or.inr ⟨by simp, _, rfl, queryFrame_errnum h _⟩
    · rw [if_neg hu]
      exact Or.inl rfl

theorem getattr_all_loop_frame (len : Int) (l : List (List Char)) :
    ∀ (h1 : genders) (attrs : Option StrArray) (index : Nat),
      QueryFrame h1 (genders_getattr_all_loop len l h1 attrs index).1 := by
  induction l with
  | nil =>
    intro h1 attrs index
    exact queryFrame_refl h1
  | cons a rest ih =>
    intro h1 attrs index
    unfold genders_getattr_all_loop
    have hp := put_in_list_frame h1 a attrs index len
    generalize _put_in_list h1 a attrs index len = p at hp
    simp only
    split
    · exact hp
    · exact queryFrame_trans hp (ih _ _ _)

theorem getstat_frame (field : genders → Nat) (h : genders) :
    ∃ h1, (genders_getstat field (some h)).1 = some h1 ∧ QueryFrame h h1 := by
  unfold genders_getstat
  rcases loaded_check_frame h with e | ⟨hneg, h1, e1, hf⟩
  · rw [e]
    exact ⟨_, rfl, queryFrame_errnum h _⟩
  · simp only [hneg, if_true]
    exact ⟨h1, e1, hf⟩

theorem getnodename_frame (h : genders) (node : Option (List Char)) (len : Int) :
    ∃ h1, (genders_getnodename (some h) node len).1 = some h1 ∧ QueryFrame h h1 := by
  unfold genders_getnodename
  rcases loaded_check_frame h with e | ⟨hneg, h1, e1, hf⟩
  · rw [e]
    simp only [lt_self_iff_false, if_false]
    split
    · exact ⟨_, rfl, queryFrame_errnum h _⟩
    · split <;> exact ⟨_, rfl, queryFrame_errnum h _⟩
  · simp only [hneg, if_true]
    exact ⟨h1, e1, hf⟩

theorem getattr_all_frame (h : genders) (attrs : Option StrArray) (len : Int) :
    ∃ h1, (genders_getattr_all (some h) attrs len).1 = some h1 ∧ QueryFrame h h1 := by
  unfold genders_getattr_all
  rcases loaded_check_frame h with e | ⟨hneg, h1, e1, hf⟩
  · rw [e]
    simp only [lt_self_iff_false, if_false]
    split
    · exact ⟨_, rfl, queryFrame_errnum h _⟩
    · split
      · exact ⟨_, rfl, queryFrame_errnum h _⟩
      · have hl := getattr_all_loop_frame len h.attrslist h attrs 0
        rcases hrun : genders_getattr_all_loop len h.attrslist h attrs 0 with ⟨hx, ax, ix⟩
        rw [hrun] at hl
        cases ix with
        | none => exact ⟨hx, rfl, hl⟩
        | some k => exact ⟨_, rfl, queryFrame_set hl _⟩
  · simp only [hneg, if_true]
    exact ⟨h1, e1, hf⟩

theorem isnode_frame (h : genders) (node : Option (List Char)) :
    ∃ h1, (genders_isnode (some h) node).1 = some h1 ∧ QueryFrame h h1 := by
  unfold genders_isnode
  rcases loaded_check_frame h with e | ⟨hneg, h1, e1, hf⟩
  · rw [e]
    simp only [lt_self_iff_false, if_false]
    split
    · exact ⟨_, rfl, queryFrame_refl h⟩
    · exact ⟨_, rfl, queryFrame_errnum h _⟩
  · simp only [hneg, if_true]
    exact ⟨h1, e1, hf⟩

theorem isattr_frame (h : genders) (attr : Option (List Char)) :
    ∃ h1, (genders_isattr (some h) attr).1 = some h1 ∧ QueryFrame h h1 := by
  unfold genders_isattr
  rcases loaded_check_frame h with e | ⟨hneg, h1, e1, hf⟩
  · rw [e]
    simp only [lt_self_iff_false, if_false]
    cases attr with
    | none => exact ⟨_, rfl, queryFrame_errnum h _⟩
    | some a => exact ⟨_, rfl, queryFrame_errnum h _⟩
  · simp only [hneg, if_true]
    exact ⟨h1, e1, hf⟩

/-! ## The node table holds each name once, in order of first appearance -/

theorem find_node_isSome (l : List genders_node) (node : List Char) :
    (l.find? (fun x => _is_node x node)).isSome = true ↔ node ∈ l.map (fun n => n.name) := by
  induction l with
  | nil => simp
  | cons x rest ih =>
    rw [List.find?_cons]
    by_cases hx : x.name = node
    · have : _is_node x node = true := (is_node_iff x node).mpr hx
      simp [this, hx]
    · have : _is_node x node = false := by
        cases hb : _is_node x node with
        | false => rfl
        | true => exact absurd ((is_node_iff x node).mp hb) hx
      rw [this]
      simp only [List.map_cons, List.mem_cons]
      rw [ih]
      constructor
      · intro h; exact Or.inr h
      · rintro (h | h)
        · exact absurd h.symm hx
        · exact h

theorem insert_node_names (l : List genders_node) (node : List Char) :
    (_insert_node l node).1.map (fun n => n.name)
      = firstSeen (l.map (fun n => n.name)) [node] := by
  unfold _insert_node
  have hiff := find_node_isSome l node
  cases hf : l.find? (fun x => _is_node x node) with
  | some n =>
    rw [hf] at hiff
    have hmem : node ∈ l.map (fun n => n.name) := hiff.mp rfl
    simp only [firstSeen, if_pos hmem]
  | none =>
    rw [hf] at hiff
    have hmem : node ∉ l.map (fun n => n.name) := fun x => by
      have := hiff.mpr x
      cases this
    simp only [firstSeen, if_neg hmem, List.map_append, List.map_cons, List.map_nil]

theorem parse_line_node_names (attrvals : Option (List genders_attrval)) (node : List Char)
    (st : NodesOut) (hex : (_parse_line_node 0 attrvals node st).exit = none) :
    (_parse_line_node 0 attrvals node st).nodelist.map (fun n => n.name)
      = firstSeen (st.nodelist.map (fun n => n.name)) [node] := by
  rcases (parse_line_node_shape attrvals node st hex).1 with ⟨_, hl, _⟩ |
    ⟨avs, n, _, _, _, _, hl, _⟩
  · rw [hl, insert_node_names]
  · rw [hl, node_store_names, insert_node_names]

theorem parse_line_nodes_names (attrvals : Option (List genders_attrval))
    (names : List (List Char)) :
    ∀ st : NodesOut, (_parse_line_nodes 0 attrvals names st).exit = none →
      (_parse_line_nodes 0 attrvals names st).nodelist.map (fun n => n.name)
        = firstSeen (st.nodelist.map (fun n => n.name)) names := by
  induction names with
  | nil =>
    intro st _
    rfl
  | cons node rest ih =>
    intro st hex
    unfold _parse_line_nodes at hex ⊢
    by_cases hs : (_parse_line_node 0 attrvals node st).exit = none
    · rw [if_pos hs] at hex ⊢
      rw [ih _ hex, parse_line_node_names attrvals node st hs]
      exact (firstSeen_append _ [node] rest).symm
    · rw [if_neg hs] at hex
      exact absurd hex hs

/-- A line that the loader accepts adds to the node table, at its end and in
order, the names it lists that are not yet there. -/
theorem parse_line_names (env : Env) (h : genders) (line : List Char)
    (hok : ¬ (_parse_line env h line 0 [] [] []).retval < 0) :
    (_parse_line env h line 0 [] [] []).handle.nodeslist.map (fun n => n.name)
      = firstSeen (h.nodeslist.map (fun n => n.name)) (lineNodeNames env line) := by
  unfold lineNodeNames lineNodeToken
  unfold _parse_line at hok ⊢
  simp only at hok ⊢
  generalize ((line.takeWhile (fun c => c != '#')).reverse.dropWhile isspace).reverse = line2
    at hok ⊢
  by_cases hne : line2 = []
  · simp only [if_pos hne]
    rfl
  · simp only [if_neg hne] at hok ⊢
    generalize (strsep (line2.dropWhile isspace)).1 = nodenames at hok ⊢
    generalize (strsep (line2.dropWhile isspace)).2 = rest at hok ⊢
    have hfail := parse_line_attrlist_fail h rest
    have hinv := (parse_line_attrlist_inv h rest).2
    generalize _parse_line_attrlist h rest 0 [] = a at hok hfail hinv ⊢
    by_cases hak : a.1.ok = false
    · rw [if_pos hak] at hok
      have := (hfail hak).1
      simp only at hok
      omega
    · rw [if_neg hak] at hok ⊢
      have hak1 : a.1.ok = true := by simpa using hak
      have hnl := (hinv hak1).2.2
      cases hh : env.hostlist nodenames with
      | none => simp [hh] at hok
      | some names =>
        simp only [hh, if_true, Option.getD_some] at hok ⊢
        have hx := parse_line_nodes_exit_parse a.2.1 names
          ⟨a.1.handle.nodeslist, a.1.handle, 0, a.1.stream, none⟩ rfl
        have hc := parse_line_nodes_names a.2.1 names
          ⟨a.1.handle.nodeslist, a.1.handle, 0, a.1.stream, none⟩
        generalize _parse_line_nodes 0 a.2.1 names
          ⟨a.1.handle.nodeslist, a.1.handle, 0, a.1.stream, none⟩ = r at hok hx hc ⊢
        cases hex : r.exit with
        | some rv =>
          have := (hx (by rw [hex]; simp)).1
          rw [hex] at this
          cases this
          simp [hex] at hok
        | none =>
          simp only [hex, if_true]
          have := hc hex
          simp only at this
          rw [hnl] at this
          exact this

theorem load_lines_names (env : Env) (file : List (Int × List Char)) :
    ∀ h : genders, ¬ (genders_load_data_lines env file h).2 < 0 →
      (genders_load_data_lines env file h).1.nodeslist.map (fun n => n.name)
        = firstSeen (h.nodeslist.map (fun n => n.name))
            ((fileLines file).map (lineNodeNames env)).flatten := by
  induction file with
  | nil =>
    intro h _
    simp [genders_load_data_lines, fileLines, firstSeen]
  | cons ev rest ih =>
    intro h hok
    obtain ⟨ret, buf⟩ := ev
    by_cases hv : 0 < ret ∧ ret < GENDERS_READLINE_BUFLEN - 1
    · have hline : fileLines ((ret, buf) :: rest) = buf :: fileLines rest := by
        simp [fileLines, List.takeWhile, hv]
      rw [hline]
      unfold genders_load_data_lines at hok ⊢
      simp only at hok ⊢
      rw [readline_line h ret _ hv] at hok ⊢
      simp only at hok ⊢
      rw [if_pos hv.1] at hok ⊢
      by_cases hf : (_parse_line env h buf 0 [] [] []).retval < 0
      · rw [if_pos hf] at hok
        simp at hok
      · rw [if_neg hf] at hok ⊢
        rw [ih _ hok, parse_line_names env h buf hf]
        simp only [List.map_cons, List.flatten_cons]
        exact (firstSeen_append _ _ _).symm
    · have hline : fileLines ((ret, buf) :: rest) = [] := by
        simp [fileLines, List.takeWhile, hv]
      rw [hline]
      simp only [List.map_nil, List.flatten_nil, firstSeen]
      unfold genders_load_data_lines at hok ⊢
      simp only at hok ⊢
      by_cases hp : (_readline h ret GENDERS_READLINE_BUFLEN).2 > 0
      · have hnn : ¬ (_readline h ret GENDERS_READLINE_BUFLEN).2 < 0 := by omega
        obtain ⟨r1, r2, r3, r4⟩ := readline_nonneg h ret _ hnn
        rw [r2] at hp
        exact absurd ⟨hp, by omega⟩ hv
      · rw [if_neg hp] at hok ⊢
        by_cases hn : (_readline h ret GENDERS_READLINE_BUFLEN).2 < 0
        · rw [if_pos hn] at hok
          simp at hok
        · rw [if_neg hn]
          rw [(readline_nonneg h ret _ hn).1]

theorem load_finish_index (env : Env) (h : genders)
    (hok : (genders_load_data_finish env h).2 = 0) :
    (genders_load_data_finish env h).1.nodeslist = h.nodeslist ∧
    (genders_load_data_finish env h).1.node_index
      = some (genders_load_data_index h.nodeslist []) := by
  unfold genders_load_data_finish at hok ⊢
  by_cases hz : h.nodeslist.length = 0
  · rw [if_pos hz] at hok
    simp at hok
  · rw [if_neg hz] at hok ⊢
    cases hg : env.gethostname with
    | none => simp [hg] at hok
    | some host => exact ⟨rfl, rfl⟩

/-- A successful load on a valid unloaded handle leaves the names of the
handle followed, in order of first appearance, by the new names the lines
list, and an index built from the node table. -/
theorem load_names_gen (env : Env) (h0 : genders) (filename : Option (List Char))
    (hL : genders) (file : List (Int × List Char))
    (hm : h0.magic = GENDERS_MAGIC_NUM) (hu : h0.is_loaded = 0)
    (hfile : env.files (filename.getD GENDERS_DEFAULT_FILE) = some file)
    (hload : genders_load_data env (some h0) filename = (some hL, 0)) :
    hL.nodeslist.map (fun n => n.name)
      = firstSeen (h0.nodeslist.map (fun n => n.name))
          ((fileLines file).map (lineNodeNames env)).flatten ∧
    hL.node_index = some (genders_load_data_index hL.nodeslist []) := by
  unfold genders_load_data at hload
  rw [unloaded_check_ok h0 hm hu] at hload
  simp only [lt_self_iff_false, if_false, hfile] at hload
  have hl := load_lines_names env file h0
  generalize genders_load_data_lines env file h0 = r at hload hl
  by_cases h1 : r.2 < 0
  · simp [h1] at hload
  · rw [if_neg h1] at hload
    simp only [Prod.mk.injEq, Option.some.injEq] at hload
    obtain ⟨f1, f2⟩ := load_finish_index env r.1 hload.2
    rw [hload.1] at f1 f2
    rw [f1]
    exact ⟨hl h1, f2⟩

theorem find_none_of_not_mem (l : List genders_node) (k : List Char)
    (hk : k ∉ l.map (fun n => n.name)) : l.find? (fun x => _is_node x k) = none := by
  cases hf : l.find? (fun x => _is_node x k) with
  | none => rfl
  | some n =>
    have := (find_node_isSome l k).mp (by rw [hf]; rfl)
    exact absurd this hk

/-- The index built over a node list with pairwise distinct names, none of
them in the index yet, maps each name of the list to the one record bearing
it and keeps the other entries. -/
theorem index_build_single (nodes : List genders_node) :
    ∀ index : hash_t, (nodes.map (fun n => n.name)).Nodup →
      (∀ n ∈ nodes, hash_find index n.name = none) →
      ∀ k, hash_find (genders_load_data_index nodes index) k
        = match nodes.find? (fun x => _is_node x k) with
          | some n => some [n]
          | none => hash_find index k := by
  induction nodes with
  | nil =>
    intro index _ _ k
    rfl
  | cons n rest ih =>
    intro index hnd hnone k
    have hn := hnone n (List.mem_cons_self _ _)
    simp only [List.map_cons, List.nodup_cons] at hnd
    unfold genders_load_data_index
    rw [hn]
    simp only
    have hstep : ∀ k', hash_find (hash_list_append (hash_insert index n.name []) n.name n) k'
        = if k' = n.name then some [n] else hash_find index k' := by
      intro k'
      rw [hash_find_list_append, hash_find_insert index n.name k' [] hn]
      by_cases hk : k' = n.name
      · simp [hk]
      · simp [hk]
    rw [ih _ hnd.2 (by
      intro m hm
      rw [hstep]
      have hne : m.name ≠ n.name := by
        intro e
        exact hnd.1 (e ▸ List.mem_map.mpr ⟨m, hm, rfl⟩)
      rw [if_neg hne]
      exact hnone m (List.mem_cons_of_mem _ hm)) k]
    rw [List.find?_cons]
    by_cases hk : n.name = k
    · have h1 : _is_node n k = true := (is_node_iff n k).mpr hk
      rw [h1]
      have h2 : rest.find? (fun x => _is_node x k) = none := by
        apply find_none_of_not_mem
        rw [← hk]
        exact hnd.1
      rw [h2]
      simp only
      rw [hstep, if_pos hk.symm]
    · have h1 : _is_node n k = false := by
        cases hb : _is_node n k with
        | false => rfl
        | true => exact absurd ((is_node_iff n k).mp hb) hk
      rw [h1]
      simp only
      cases hf : rest.find? (fun x => _is_node x k) with
      | some m => rfl
      | none =>
        simp only
        rw [hstep, if_neg (fun e => hk e.symm)]

/-! ## Queries on unloaded, null and wrong-magic handles -/

/-- C10.  On every valid handle that is not loaded, each query returns -1,
sets the error code to `NOTLOADED` and changes nothing else: the handle
afterwards is the handle before with `errnum := NOTLOADED`, and the caller's
arrays and buffers are returned untouched. -/
theorem query_unloaded_notloaded (h : genders) (hm : h.magic = GENDERS_MAGIC_NUM)
    (hu : h.is_loaded = 0) (list : Option StrArray) (plist : Option (Option StrArray))
    (vals : Option StrArray) (buf node attr val : Option (List Char)) (len : Int) :
    let e : Option genders := some { h with errnum := GENDERS_ERR_NOTLOADED }
    genders_getnumnodes (some h) = (e, -1) ∧
    genders_getnumattrs (some h) = (e, -1) ∧
    genders_getmaxattrs (some h) = (e, -1) ∧
    genders_getmaxnodelen (some h) = (e, -1) ∧
    genders_getmaxattrlen (some h) = (e, -1) ∧
    genders_getmaxvallen (some h) = (e, -1) ∧
    genders_nodelist_create (some h) plist = (e, plist, -1) ∧
    genders_nodelist_clear (some h) list = (e, list, -1) ∧
    genders_nodelist_destroy (some h) list = (e, -1) ∧
    genders_attrlist_create (some h) plist = (e, plist, -1) ∧
    genders_attrlist_clear (some h) list = (e, list, -1) ∧
    genders_attrlist_destroy (some h) list = (e, -1) ∧
    genders_vallist_create (some h) plist = (e, plist, -1) ∧
    genders_vallist_clear (some h) list = (e, list, -1) ∧
    genders_vallist_destroy (some h) list = (e, -1) ∧
    genders_getnodename (some h) buf len = (e, buf, -1) ∧
    genders_getnodes (some h) list len attr val = some (e, list, -1) ∧
    genders_getattr (some h) list vals len node = some (e, list, vals, -1) ∧
    genders_getattr_all (some h) list len = (e, list, -1) ∧
    genders_testattr (some h) node attr buf len = some (e, buf, -1) ∧
    genders_testattrval (some h) node attr val = some (e, -1) ∧
    genders_isnode (some h) node = (e, -1) ∧
    genders_isattr (some h) attr = (e, -1) ∧
    genders_isattrval (some h) attr val = some (e, -1) := by
  have hc := loaded_check_unloaded h hm hu
  simp [genders_getnumnodes, genders_getnumattrs, genders_getmaxattrs, genders_getmaxnodelen,
    genders_getmaxattrlen, genders_getmaxvallen, genders_getstat, genders_nodelist_create,
    genders_nodelist_clear, genders_nodelist_destroy, genders_attrlist_create,
    genders_attrlist_clear, genders_attrlist_destroy, genders_vallist_create,
    genders_vallist_clear, genders_vallist_destroy, genders_list_create, genders_list_clear,
    genders_list_destroy, genders_getnodename, genders_getnodes, genders_getattr,
    genders_getattr_all, genders_testattr, genders_testattrval, genders_isnode, genders_isattr,
    genders_isattrval, hc]

theorem query_unloaded_notloaded_witness :
    genders_handle_create.magic = GENDERS_MAGIC_NUM ∧ genders_handle_create.is_loaded = 0 ∧
    genders_getnumnodes (some genders_handle_create)
      = (some { genders_handle_create with errnum := GENDERS_ERR_NOTLOADED }, -1) ∧
    genders_isattrval (some genders_handle_create) (some "a".toList) (some "1".toList)
      = some (some { genders_handle_create with errnum := GENDERS_ERR_NOTLOADED }, -1) :=
  have w := query_unloaded_notloaded genders_handle_create rfl rfl none none none none none
    (some "a".toList) (some "1".toList) 0
  ⟨rfl, rfl, w.1, w.2.2.2.2.2.2.2.2.2.2.2.2.2.2.2.2.2.2.2.2.2.2.2⟩

/-- C25.  `genders_errnum` returns `NULLHANDLE` for the NULL handle, `MAGIC`
for every handle whose magic number is not `GENDERS_MAGIC_NUM`, and the
stored error code otherwise; `genders_handle_destroy` of a valid handle
returns 0 and leaves a magic number for which `genders_errnum` returns
`MAGIC`; and every query called on a NULL or wrong-magic handle returns -1
(touching neither the handle nor the caller's arrays). -/
theorem errnum_total_bad_handle (handle : Option genders)
    (hbad : ∀ h, handle = some h → h.magic ≠ GENDERS_MAGIC_NUM)
    (list : Option StrArray) (plist : Option (Option StrArray))
    (vals : Option StrArray) (buf node attr val : Option (List Char)) (len : Int) :
    genders_errnum none = GENDERS_ERR_NULLHANDLE ∧
    (∀ h : genders, h.magic ≠ GENDERS_MAGIC_NUM → genders_errnum (some h) = GENDERS_ERR_MAGIC) ∧
    (∀ h : genders, h.magic = GENDERS_MAGIC_NUM → genders_errnum (some h) = h.errnum) ∧
    (∀ h : genders, h.magic = GENDERS_MAGIC_NUM →
      (genders_handle_destroy (some h)).2 = 0 ∧
      genders_errnum (genders_handle_destroy (some h)).1 = GENDERS_ERR_MAGIC) ∧
    genders_getnumnodes handle = (handle, -1) ∧
    genders_getnumattrs handle = (handle, -1) ∧
    genders_getmaxattrs handle = (handle, -1) ∧
    genders_getmaxnodelen handle = (handle, -1) ∧
    genders_getmaxattrlen handle = (handle, -1) ∧
    genders_getmaxvallen handle = (handle, -1) ∧
    genders_nodelist_create handle plist = (handle, plist, -1) ∧
    genders_nodelist_clear handle list = (handle, list, -1) ∧
    genders_nodelist_destroy handle list = (handle, -1) ∧
    genders_attrlist_create handle plist = (handle, plist, -1) ∧
    genders_attrlist_clear handle list = (handle, list, -1) ∧
    genders_attrlist_destroy handle list = (handle, -1) ∧
    genders_vallist_create handle plist = (handle, plist, -1) ∧
    genders_vallist_clear handle list = (handle, list, -1) ∧
    genders_vallist_destroy handle list = (handle, -1) ∧
    genders_getnodename handle buf len = (handle, buf, -1) ∧
    genders_getnodes handle list len attr val = some (handle, list, -1) ∧
    genders_getattr handle list vals len node = some (handle, list, vals, -1) ∧
    genders_getattr_all handle list len = (handle, list, -1) ∧
    genders_testattr handle node attr buf len = some (handle, buf, -1) ∧
    genders_testattrval handle node attr val = some (handle, -1) ∧
    genders_isnode handle node = (handle, -1) ∧
    genders_isattr handle attr = (handle, -1) ∧
    genders_isattrval handle attr val = some (handle, -1) := by
  have hc := loaded_check_bad handle (handle_check_bad handle hbad)
  refine ⟨rfl, ?_, ?_, ?_, ?_⟩
  · intro h hm
    simp [genders_errnum, hm]
  · intro h hm
    simp [genders_errnum, hm]
  · intro h hm
    simp [genders_handle_destroy, handle_check_valid h hm, genders_errnum, GENDERS_MAGIC_NUM]
  · simp [genders_getnumnodes, genders_getnumattrs, genders_getmaxattrs, genders_getmaxnodelen,
      genders_getmaxattrlen, genders_getmaxvallen, genders_getstat, genders_nodelist_create,
      genders_nodelist_clear, genders_nodelist_destroy, genders_attrlist_create,
      genders_attrlist_clear, genders_attrlist_destroy, genders_vallist_create,
      genders_vallist_clear, genders_vallist_destroy, genders_list_create, genders_list_clear,
      genders_list_destroy, genders_getnodename, genders_getnodes, genders_getattr,
      genders_getattr_all, genders_testattr, genders_testattrval, genders_isnode, genders_isattr,
      genders_isattrval, hc]

theorem errnum_total_bad_handle_witness :
    (∀ h, (genders_handle_destroy (exampleLoad ["n1 a=1"]).1).1 = some h →
      h.magic ≠ GENDERS_MAGIC_NUM) ∧
    genders_errnum (genders_handle_destroy (exampleLoad ["n1 a=1"]).1).1 = GENDERS_ERR_MAGIC ∧
    genders_isnode (genders_handle_destroy (exampleLoad ["n1 a=1"]).1).1 (some "n1".toList)
      = ((genders_handle_destroy (exampleLoad ["n1 a=1"]).1).1, -1) :=
  have hb : ∀ h, (genders_handle_destroy (exampleLoad ["n1 a=1"]).1).1 = some h →
      h.magic ≠ GENDERS_MAGIC_NUM := by
    intro h hh
    have e : (genders_handle_destroy (exampleLoad ["n1 a=1"]).1).1.map (fun g => g.magic)
        = some 0x21524110 := by decide
    rw [hh] at e
    simp at e
    rw [e]
    decide
  have w := errnum_total_bad_handle (genders_handle_destroy (exampleLoad ["n1 a=1"]).1).1 hb
    none none none none (some "n1".toList) none none 0
  ⟨hb, by decide, w.2.2.2.2.2.2.2.2.2.2.2.2.2.2.2.2.2.2.2.2.2.2.2.2.2.1⟩

/-! ## C2: size of the scratch buffer -/

/-- C2, at the file `node1 a=%n%n`: load accepts it with `maxvallen = 7`
(scratch buffer of 8 bytes), the node table holds `node1` with the value
`%n%n`, whose expansion against `node1` is the 10 bytes `node1node1`; the
size guard of `_get_val` (`4 - 2 + 5 > 8`) does not fire and the call writes
past the end of the buffer.  At the file `n1 a=x%n,b=%n` load accepts with
`maxvallen = 2` and `_get_val` returns 1 after writing the 3 bytes `xn1` for
the value of `a`: they fill the buffer of 3 bytes, which then holds no
terminator. -/
theorem expansion_longer_than_maxvallen :
    (exampleLoad ["node1 a=%n%n"]).2 = 0 ∧
    (exampleLoad ["node1 a=%n%n"]).1.map (fun h => (h.maxvallen, h.nodeslist))
      = some (7, [⟨"node1".toList, [[⟨"a".toList, some "%n%n".toList⟩]], 1⟩]) ∧
    expandSpec "node1".toList "%n%n".toList = "node1node1".toList ∧
    "node1node1".toList.length = 10 ∧
    ¬ ("%n%n".toList.length - 2 + "node1".toList.length > 7 + 1) ∧
    (exampleLoad ["node1 a=%n%n"]).1.map
      (fun h => _get_val h ⟨"node1".toList, [[⟨"a".toList, some "%n%n".toList⟩]], 1⟩
        "%n%n".toList)
      = some none ∧
    (exampleLoad ["n1 a=x%n,b=%n"]).2 = 0 ∧
    (exampleLoad ["n1 a=x%n,b=%n"]).1.map (fun h => (h.maxvallen, h.nodeslist))
      = some (2, [⟨"n1".toList,
          [[⟨"a".toList, some "x%n".toList⟩, ⟨"b".toList, some "%n".toList⟩]], 2⟩]) ∧
    (exampleLoad ["n1 a=x%n,b=%n"]).1.map
      (fun h => (_get_val h ⟨"n1".toList,
          [[⟨"a".toList, some "x%n".toList⟩, ⟨"b".toList, some "%n".toList⟩]], 2⟩
        "x%n".toList).map (fun r => (r.2, r.1.valbuf, valbuf_string r.1)))
      = some (some (1, some "xn1".toList, none)) ∧
    "xn1".toList.length = 2 + 1 := by
  refine ⟨by decide, by decide, by decide, by decide, by decide, by decide, by decide,
    by decide, by decide, by decide⟩

/-! ## C4: the size test of `genders_testattr` -/

/-- C4, at the file `node1 a=%n` and a caller buffer of `len = 3`:
`genders_testattr(handle, "node1", "a", out, 3)` returns 1 and writes the 5
bytes `node1` (6 with the terminator) although they do not fit.  At the file
`n1 a=%%%%` and `len = 3` it fails with `OVERFLOW` although the value it
would write, `%%`, fits with its terminator. -/
theorem testattr_size_test_uses_literal :
    (exampleLoad ["node1 a=%n"]).2 = 0 ∧
    (genders_testattr (exampleLoad ["node1 a=%n"]).1 (some "node1".toList) (some "a".toList)
      (some []) 3).map (fun r => r.2) = some (some "node1".toList, 1) ∧
    ¬ (("node1".toList.length : Int) + 1 ≤ 3) ∧
    (exampleLoad ["n1 a=%%%%"]).2 = 0 ∧
    (genders_testattr (exampleLoad ["n1 a=%%%%"]).1 (some "n1".toList) (some "a".toList)
      (some []) 3).map (fun r => r.2) = some (some [], -1) ∧
    (genders_testattr (exampleLoad ["n1 a=%%%%"]).1 (some "n1".toList) (some "a".toList)
      (some []) 3).map (fun r => r.1.map (fun h => h.errnum))
      = some (some GENDERS_ERR_OVERFLOW) ∧
    expandSpec "n1".toList "%%%%".toList = "%%".toList ∧
    (("%%".toList.length : Int) + 1 ≤ 3) := by
  refine ⟨by decide, by decide, by decide, by decide, by decide, by decide, by decide,
    by decide⟩

/-! ## C17: queries that succeed without recording it -/

/-- C17, on the handle loaded from the file `n1 a=1` after the failed query
`genders_testattr("zz", "a", NULL, 0)` has left `NOTFOUND`:
`genders_isnode("zz")` returns 0 and `genders_isattrval("a", "1")` returns 1,
and both leave the error code `NOTFOUND`, not `SUCCESS`. -/
theorem success_not_recorded :
    (exampleLoad ["n1 a=1"]).2 = 0 ∧
    (genders_testattr (exampleLoad ["n1 a=1"]).1 (some "zz".toList) (some "a".toList) none
      0).map (fun r => r.2.2) = some (-1) ∧
    (genders_testattr (exampleLoad ["n1 a=1"]).1 (some "zz".toList) (some "a".toList) none
      0).map (fun r => genders_errnum r.1) = some GENDERS_ERR_NOTFOUND ∧
    (genders_testattr (exampleLoad ["n1 a=1"]).1 (some "zz".toList) (some "a".toList) none
      0).map (fun r => (genders_isnode r.1 (some "zz".toList)).2) = some 0 ∧
    (genders_testattr (exampleLoad ["n1 a=1"]).1 (some "zz".toList) (some "a".toList) none
      0).map (fun r => genders_errnum (genders_isnode r.1 (some "zz".toList)).1)
      = some GENDERS_ERR_NOTFOUND ∧
    ((genders_testattr (exampleLoad ["n1 a=1"]).1 (some "zz".toList) (some "a".toList) none
      0).bind (fun r => genders_isattrval r.1 (some "a".toList) (some "1".toList))).map
      (fun r => r.2) = some 1 ∧
    ((genders_testattr (exampleLoad ["n1 a=1"]).1 (some "zz".toList) (some "a".toList) none
      0).bind (fun r => genders_isattrval r.1 (some "a".toList) (some "1".toList))).map
      (fun r => genders_errnum r.1) = some GENDERS_ERR_NOTFOUND := by
  refine ⟨by decide, by decide, by decide, by decide, by decide, by decide, by decide⟩

/-! ## C32: node names are pairwise distinct -/

theorem getnodes_loop_all (val : Option (List Char)) (len : Int) (ns : List genders_node) :
    ∀ (h1 : genders) (nodes : Option StrArray) (index : Nat),
      genders_getnodes_loop none val len ns h1 nodes index
        = some (genders_getattr_all_loop len (ns.map (fun n => n.name)) h1 nodes index) := by
  induction ns with
  | nil =>
    intro h1 nodes index
    rfl
  | cons n rest ih =>
    intro h1 nodes index
    unfold genders_getnodes_loop genders_getattr_all_loop
    simp only [genders_getnodes_save, List.map_cons]
    split
    · rfl
    · exact ih _ _ _

/-- C32.  For every file loaded successfully (into a freshly created handle,
whatever error code it held): the names of the records of the node table are
pairwise distinct and are, in order, the names the lines of the file list,
each at its first appearance; the node index has, for each record, one entry
under its name that holds exactly that record, and no other entry;
`genders_getnodes` with a NULL `attr`, `len >= numnodes` and the first
`numnodes` slots non-null returns `numnodes` and has written the names of the
node table, each once and in that order.  And after every line that the
loader accepts on a node table with pairwise distinct names, the names are
again pairwise distinct, the new ones appended in order of first appearance;
a record keeps the attributes it carried and every node the line lists
carries every attribute name of the line. -/
theorem node_names_distinct (env : Env) (e : Int) (filename : Option (List Char))
    (hL : genders) (file : List (Int × List Char))
    (hfile : env.files (filename.getD GENDERS_DEFAULT_FILE) = some file)
    (hload : genders_load_data env (some { genders_handle_create with errnum := e }) filename
      = (some hL, 0))
    (h : genders) (heq : h = { hL with errnum := h.errnum, valbuf := h.valbuf }) :
    (h.nodeslist.map (fun n => n.name)).Nodup ∧
    h.nodeslist.map (fun n => n.name)
      = firstSeen [] ((fileLines file).map (lineNodeNames env)).flatten ∧
    (∃ index, h.node_index = some index ∧
      (∀ n ∈ h.nodeslist, hash_find index n.name = some [n]) ∧
      (∀ k l, hash_find index k = some l → ∃ n ∈ h.nodeslist, n.name = k ∧ l = [n])) ∧
    (∀ (arr : StrArray) (len : Int) (val : Option (List Char)), (h.numnodes : Int) ≤ len →
      (∀ i, i < h.numnodes → arr i ≠ none) →
      ∃ arr2, genders_getnodes (some h) (some arr) len none val
          = some (some { h with errnum := GENDERS_ERR_SUCCESS }, some arr2, (h.numnodes : Int)) ∧
        (∀ i S, (h.nodeslist.map (fun n => n.name))[i]? = some S → arr2 i = some S) ∧
        (∀ j, h.numnodes ≤ j → arr2 j = arr j)) ∧
    (∀ (h0 : genders) (line : List Char), (h0.nodeslist.map (fun n => n.name)).Nodup →
      ¬ (_parse_line env h0 line 0 [] [] []).retval < 0 →
      ((_parse_line env h0 line 0 [] [] []).handle.nodeslist.map (fun n => n.name)).Nodup ∧
      (_parse_line env h0 line 0 [] [] []).handle.nodeslist.map (fun n => n.name)
        = firstSeen (h0.nodeslist.map (fun n => n.name)) (lineNodeNames env line) ∧
      (∀ N A, carriesAttr h0.nodeslist N A →
        carriesAttr (_parse_line env h0 line 0 [] [] []).handle.nodeslist N A) ∧
      (∀ N ∈ lineNodeNames env line, ∀ A ∈ lineAttrNames line,
        carriesAttr (_parse_line env h0 line 0 [] [] []).handle.nodeslist N A)) := by
  have hl : LoadedHandle env h := ⟨e, filename, hL, hload, heq⟩
  have hi := loadedInv_of_loaded env h hl
  obtain ⟨g1, g2⟩ := load_names_gen env { genders_handle_create with errnum := e } filename hL
    file rfl rfl hfile hload
  have hnl : h.nodeslist = hL.nodeslist := by rw [heq]
  have hni : h.node_index = hL.node_index := by rw [heq]
  refine ⟨hi.nodes.1, ?_, ?_, ?_, ?_⟩
  · rw [hnl, g1]
    rfl
  · refine ⟨genders_load_data_index h.nodeslist [], by rw [hni, g2, hnl], ?_, ?_⟩
    · intro n hn
      rw [index_build_single h.nodeslist [] hi.nodes.1 (fun _ _ => rfl) n.name,
        find_node_of_nodup h.nodeslist n hi.nodes.1 hn]
    · intro k l hk
      rw [index_build_single h.nodeslist [] hi.nodes.1 (fun _ _ => rfl) k] at hk
      cases hf : h.nodeslist.find? (fun x => _is_node x k) with
      | none =>
        rw [hf] at hk
        cases hk
      | some n =>
        rw [hf] at hk
        simp only [Option.some.injEq] at hk
        have hb : _is_node n k = true := by
          have := List.find?_some hf
          simpa using this
        exact ⟨n, List.mem_of_find?_eq_some hf, (is_node_iff n k).mp hb, hk.symm⟩
  · intro arr len val hlen hslots
    have hlen2 : (h.nodeslist.map (fun n => n.name)).length = h.numnodes := by
      rw [List.length_map, hi.numnodes]
    obtain ⟨arr2, hrun, hw, hfr⟩ := getattr_all_loop_spec len
      (h.nodeslist.map (fun n => n.name)) h arr 0
      (by rw [Nat.zero_add, hlen2]; exact hlen)
      (by intro i hi2; rw [Nat.zero_add]; exact hslots i (by rw [← hlen2]; exact hi2))
    have hpar : ¬ (((some arr : Option StrArray).isNone = true ∧ len > 0) ∨ len < 0) := by
      simp; omega
    rw [Nat.zero_add, hlen2] at hrun
    refine ⟨arr2, ?_, ?_, ?_⟩
    · unfold genders_getnodes
      rw [loaded_check_loaded h hi.magic hi.loaded]
      simp only [lt_self_iff_false, if_false, hpar, getnodes_loop_all, hrun]
    · intro i S hiS
      simpa using hw i S hiS
    · intro j hj
      exact hfr j (Or.inr (by rw [Nat.zero_add, hlen2]; exact hj))
  · intro h0 line hnd hok
    have hn := parse_line_names env h0 line hok
    obtain ⟨c1, c2⟩ := parse_line_carries env h0 line hok
    refine ⟨?_, hn, c1, c2⟩
    rw [hn]
    exact firstSeen_nodup _ _ hnd

theorem node_names_distinct_witness :
    (exampleEnv ["n[1-2]  a=1,b=2", "n1      c=3", "n3      d"]).files
        ((none : Option (List Char)).getD GENDERS_DEFAULT_FILE)
      = some [(16, "n[1-2]  a=1,b=2\n".toList), (12, "n1      c=3\n".toList),
          (10, "n3      d\n".toList)] ∧
    (exampleLoad ["n[1-2]  a=1,b=2", "n1      c=3", "n3      d"]).2 = 0 ∧
    ((exampleHandle ["n[1-2]  a=1,b=2", "n1      c=3", "n3      d"]).nodeslist.map
      (fun n => n.name)).Nodup ∧
    (exampleHandle ["n[1-2]  a=1,b=2", "n1      c=3", "n3      d"]).nodeslist.map
        (fun n => n.name)
      = firstSeen [] ((fileLines [(16, "n[1-2]  a=1,b=2\n".toList),
          (12, "n1      c=3\n".toList), (10, "n3      d\n".toList)]).map
          (lineNodeNames (exampleEnv ["n[1-2]  a=1,b=2", "n1      c=3", "n3      d"]))).flatten ∧
    ((fileLines [(16, "n[1-2]  a=1,b=2\n".toList), (12, "n1      c=3\n".toList),
        (10, "n3      d\n".toList)]).map
        (lineNodeNames (exampleEnv ["n[1-2]  a=1,b=2", "n1      c=3", "n3      d"]))).flatten
      = ["n1".toList, "n2".toList, "n1".toList, "n3".toList] ∧
    (exampleHandle ["n[1-2]  a=1,b=2", "n1      c=3", "n3      d"]).nodeslist.map
        (fun n => (n.name, n.attrlist.map (fun g => g.map (fun av => av.attr))))
      = [("n1".toList, [["a".toList, "b".toList], ["c".toList]]),
         ("n2".toList, [["a".toList, "b".toList]]), ("n3".toList, [["d".toList]])] ∧
    (genders_getnodes (some (exampleHandle ["n[1-2]  a=1,b=2", "n1      c=3", "n3      d"]))
      (some blankArray) 4 none none).map (fun r => r.2.1.map (fun a => [a 0, a 1, a 2, a 3]))
      = some (some [some "n1".toList, some "n2".toList, some "n3".toList, some []]) ∧
    (genders_getnodes (some (exampleHandle ["n[1-2]  a=1,b=2", "n1      c=3", "n3      d"]))
      (some blankArray) 4 none none).map (fun r => r.2.2) = some 3 ∧
    ((_parse_line { exampleEnv [] with hostlist := fun _ => some ["n1".toList, "n1".toList] }
      genders_handle_create "x\n".toList 0 [] [] []).retval,
     (_parse_line { exampleEnv [] with hostlist := fun _ => some ["n1".toList, "n1".toList] }
      genders_handle_create "x\n".toList 0 [] [] []).handle.nodeslist.map (fun n => n.name))
      = (0, ["n1".toList]) ∧
    (_parse_line { exampleEnv [] with hostlist := fun _ => some ["n1".toList, "n1".toList] }
      genders_handle_create "x a\n".toList 0 [] [] []).retval = -1 :=
  ⟨by decide, by decide,
    (node_names_distinct (exampleEnv ["n[1-2]  a=1,b=2", "n1      c=3", "n3      d"])
      GENDERS_ERR_SUCCESS none
      (exampleHandle ["n[1-2]  a=1,b=2", "n1      c=3", "n3      d"])
      [(16, "n[1-2]  a=1,b=2\n".toList), (12, "n1      c=3\n".toList),
        (10, "n3      d\n".toList)]
      (by decide) (exampleLoad_eq _ (by decide) (by decide))
      (exampleHandle ["n[1-2]  a=1,b=2", "n1      c=3", "n3      d"]) rfl).1,
    (node_names_distinct (exampleEnv ["n[1-2]  a=1,b=2", "n1      c=3", "n3      d"])
      GENDERS_ERR_SUCCESS none
      (exampleHandle ["n[1-2]  a=1,b=2", "n1      c=3", "n3      d"])
      [(16, "n[1-2]  a=1,b=2\n".toList), (12, "n1      c=3\n".toList),
        (10, "n3      d\n".toList)]
      (by decide) (exampleLoad_eq _ (by decide) (by decide))
      (exampleHandle ["n[1-2]  a=1,b=2", "n1      c=3", "n3      d"]) rfl).2.1,
    by decide, by decide, by decide, by decide, by decide, by decide⟩

/-! ## The loops of `genders_getnodes` and `genders_getattr` with `len` from the statistics -/

/-- The outcomes of a call of `_get_val` whose behaviour is defined. -/
theorem get_val_cases (h : genders) (n : genders_node) (v : List Char) (r : genders × Int)
    (hr : _get_val h n v = some r) :
    r = (h, 0) ∨
    (∃ out, r = ({ h with valbuf := some out }, 1)) ∨
    (∃ out, r = ({ h with valbuf := some out, errnum := GENDERS_ERR_INTERNAL }, -1)) := by
  unfold _get_val at hr
  split at hr
  · left
    simpa using hr.symm
  · rcases hl : _get_val_loop v.length n.name h.maxvallen v [] with _ | ⟨o, b⟩
    · rw [hl] at hr
      cases hr
    · rw [hl] at hr
      cases b with
      | true =>
        right; left
        exact ⟨o, by simpa using hr.symm⟩
      | false =>
        right; right
        exact ⟨o, by simpa using hr.symm⟩

/-- C1, at the file `n1234567 a=%n%n` / `n12345 a=%n%n`: load accepts it with
`maxvallen = 10` (scratch buffer of 11 bytes); the value `%n%n` expands to
16 bytes against `n1234567` and to the 12 bytes `n12345n12345` against
`n12345`, and the guard of `_get_val` (`4 - 2 + 8 > 11`) fires for neither.
`genders_getnodes(attr = "a", val = "n12345n12345")` and
`genders_testattrval("n12345", "a", "n12345n12345")` both write past the end
of the scratch buffer: neither call has a defined result, so the names the
first writes are not determined by the results of the second. -/
theorem getnodes_testattrval_overrun :
    (exampleLoad ["n1234567 a=%n%n", "n12345 a=%n%n"]).2 = 0 ∧
    (exampleLoad ["n1234567 a=%n%n", "n12345 a=%n%n"]).1.map
      (fun h => (h.numnodes, h.maxvallen)) = some (2, 10) ∧
    (expandSpec "n1234567".toList "%n%n".toList).length = 16 ∧
    expandSpec "n12345".toList "%n%n".toList = "n12345n12345".toList ∧
    "n12345n12345".toList.length = 12 ∧
    ¬ ("%n%n".toList.length - 2 + "n1234567".toList.length > 10 + 1) ∧
    (genders_getnodes (exampleLoad ["n1234567 a=%n%n", "n12345 a=%n%n"]).1 (some blankArray) 2
      (some "a".toList) (some "n12345n12345".toList)).isNone = true ∧
    genders_testattrval (exampleLoad ["n1234567 a=%n%n", "n12345 a=%n%n"]).1
      (some "n12345".toList) (some "a".toList) (some "n12345n12345".toList) = none ∧
    genders_testattrval (exampleLoad ["n1234567 a=%n%n", "n12345 a=%n%n"]).1
      (some "n1234567".toList) (some "a".toList) (some "n12345n12345".toList) = none := by
  refine ⟨by decide, by decide, by decide, by decide, by decide, by decide, by decide,
    by decide, by decide⟩

/-- C3, at the files `node1 a=%n%n` and `node1 a=%n%n%n`: load accepts them
with `maxvallen = 7` and `maxvallen = 9`.  On the node `node1`, `_get_val`
does not fail on the values `%n%n` and `%n%n%n` (its guard compares
`4 - 2 + 5` with 8 and `6 - 2 + 5` with 10), and the scans of the two values
have 10 and 15 bytes: the scratch buffers of 8 and 10 bytes cannot hold
them, and the call writes past their end. -/
theorem get_val_overrun :
    (exampleLoad ["node1 a=%n%n"]).2 = 0 ∧
    (exampleLoad ["node1 a=%n%n"]).1.map (fun h => h.maxvallen) = some 7 ∧
    expandSpec "node1".toList "%n%n".toList = "node1node1".toList ∧
    ¬ ("%n%n".toList.length - 2 + "node1".toList.length > 7 + 1) ∧
    ¬ ((expandSpec "node1".toList "%n%n".toList).length ≤ 7 + 1) ∧
    _get_val_loop "%n%n".toList.length "node1".toList 7 "%n%n".toList [] = none ∧
    (exampleLoad ["node1 a=%n%n"]).1.map
      (fun h => h.nodeslist.map (fun n => (n.name, _get_val h n "%n%n".toList)))
      = some [("node1".toList, none)] ∧
    (exampleLoad ["node1 a=%n%n%n"]).2 = 0 ∧
    (exampleLoad ["node1 a=%n%n%n"]).1.map (fun h => h.maxvallen) = some 9 ∧
    expandSpec "node1".toList "%n%n%n".toList = "node1node1node1".toList ∧
    ¬ ("%n%n%n".toList.length - 2 + "node1".toList.length > 9 + 1) ∧
    (exampleLoad ["node1 a=%n%n%n"]).1.map
      (fun h => h.nodeslist.map (fun n => (n.name, _get_val h n "%n%n%n".toList)))
      = some [("node1".toList, none)] := by
  refine ⟨by decide, by decide, by decide, by decide, by decide, by decide, by decide,
    by decide, by decide, by decide, by decide, by decide⟩

/-- C5, at the file `n1 a=xx%n,b=%n`: load accepts it with `maxvallen = 2`
(line 689 keeps the length of the last value with `%n`, here 2).  The node
`n1` carries `a` with the value `xx%n`, whose expansion `xxn1` and whose
literal both fit a buffer of 64 bytes, yet
`genders_testattr("n1", "a", out, 64)` returns -1 with the error code
`INTERNAL` and leaves `out` as it was: the guard of `_get_val` compares
`4 - 2 + 2` with `maxvallen + 1 = 3`.  For `b` the same call returns 1 and
writes `n1`. -/
theorem testattr_internal_guard :
    (exampleLoad ["n1 a=xx%n,b=%n"]).2 = 0 ∧
    (exampleLoad ["n1 a=xx%n,b=%n"]).1.map (fun h => (h.maxvallen, h.nodeslist))
      = some (2, [⟨"n1".toList,
          [[⟨"a".toList, some "xx%n".toList⟩, ⟨"b".toList, some "%n".toList⟩]], 2⟩]) ∧
    expandSpec "n1".toList "xx%n".toList = "xxn1".toList ∧
    (("xxn1".toList.length : Int) + 1 ≤ 64 ∧ ("xx%n".toList.length : Int) + 1 ≤ 64) ∧
    (genders_testattr (exampleLoad ["n1 a=xx%n,b=%n"]).1 (some "n1".toList) (some "a".toList)
      (some []) 64).map (fun r => (r.1.map (fun h => h.errnum), r.2))
      = some (some GENDERS_ERR_INTERNAL, some [], -1) ∧
    (genders_testattr (exampleLoad ["n1 a=xx%n,b=%n"]).1 (some "n1".toList) (some "b".toList)
      (some []) 64).map (fun r => (r.1.map (fun h => h.errnum), r.2))
      = some (some GENDERS_ERR_SUCCESS, some "n1".toList, 1) := by
  refine ⟨by decide, by decide, by decide, by decide, by decide, by decide⟩

/-- C6, at the file `n1 a=xx%n,b=%n` (`maxvallen = 2`): the node `n1` carries
`a` with the value `xx%n`, whose expansion against `n1` is `xxn1`, yet
`genders_testattrval("n1", "a", "xxn1")` returns -1 with the error code
`INTERNAL`, and so does the call with the literal `xx%n`; with a NULL `val`
the call returns 1, as `genders_testattr` with a NULL buffer does.  At the
file `n1 a=x%n,b=%n` the expansion `xn1` fills the scratch buffer of 3 bytes
and `genders_testattrval("n1", "a", "xn1")` compares a buffer that holds no
terminator. -/
theorem testattrval_internal_guard :
    (exampleLoad ["n1 a=xx%n,b=%n"]).2 = 0 ∧
    (exampleLoad ["n1 a=xx%n,b=%n"]).1.map (fun h => h.maxvallen) = some 2 ∧
    expandSpec "n1".toList "xx%n".toList = "xxn1".toList ∧
    (genders_testattrval (exampleLoad ["n1 a=xx%n,b=%n"]).1 (some "n1".toList)
      (some "a".toList) (some "xxn1".toList)).map (fun r => (r.1.map (fun h => h.errnum), r.2))
      = some (some GENDERS_ERR_INTERNAL, -1) ∧
    (genders_testattrval (exampleLoad ["n1 a=xx%n,b=%n"]).1 (some "n1".toList)
      (some "a".toList) (some "xx%n".toList)).map (fun r => (r.1.map (fun h => h.errnum), r.2))
      = some (some GENDERS_ERR_INTERNAL, -1) ∧
    (genders_testattrval (exampleLoad ["n1 a=xx%n,b=%n"]).1 (some "n1".toList)
      (some "a".toList) none).map (fun r => r.2) = some 1 ∧
    (genders_testattr (exampleLoad ["n1 a=xx%n,b=%n"]).1 (some "n1".toList)
      (some "a".toList) none 0).map (fun r => r.2.2) = some 1 ∧
    (exampleLoad ["n1 a=x%n,b=%n"]).2 = 0 ∧
    (exampleLoad ["n1 a=x%n,b=%n"]).1.map (fun h => h.maxvallen) = some 2 ∧
    expandSpec "n1".toList "x%n".toList = "xn1".toList ∧
    genders_testattrval (exampleLoad ["n1 a=x%n,b=%n"]).1 (some "n1".toList)
      (some "a".toList) (some "xn1".toList) = none := by
  refine ⟨by decide, by decide, by decide, by decide, by decide, by decide, by decide,
    by decide, by decide, by decide, by decide⟩

/-- C7, at the file `n1 a=xx%n,b=%n` (`maxvallen = 2`, `numattrs = 2`): the
node `n1` is in the node index and carries `a=xx%n` and `b=%n`, yet
`genders_getattr(attrs, vals, 2, "n1")` with both arrays non-null returns -1
with the error code `INTERNAL`, having written the name `a` into `attrs[0]`
and nothing into `vals`; with a NULL `vals` the call returns 2 and writes
`a`, `b`. -/
theorem getattr_internal_guard :
    (exampleLoad ["n1 a=xx%n,b=%n"]).2 = 0 ∧
    (exampleLoad ["n1 a=xx%n,b=%n"]).1.map (fun h => (h.maxvallen, h.numattrs)) = some (2, 2) ∧
    (exampleLoad ["n1 a=xx%n,b=%n"]).1.map (fun h => (node_lookup h "n1".toList).map
      (fun n => n.attrlist)) = some (some
        [[⟨"a".toList, some "xx%n".toList⟩, ⟨"b".toList, some "%n".toList⟩]]) ∧
    (genders_getattr (exampleLoad ["n1 a=xx%n,b=%n"]).1 (some blankArray) (some blankArray) 2
      (some "n1".toList)).map (fun r => (r.1.map (fun h => h.errnum), r.2.2.2))
      = some (some GENDERS_ERR_INTERNAL, -1) ∧
    (genders_getattr (exampleLoad ["n1 a=xx%n,b=%n"]).1 (some blankArray) (some blankArray) 2
      (some "n1".toList)).map (fun r => r.2.1.map (fun a => [a 0, a 1]))
      = some (some [some "a".toList, some []]) ∧
    (genders_getattr (exampleLoad ["n1 a=xx%n,b=%n"]).1 (some blankArray) (some blankArray) 2
      (some "n1".toList)).map (fun r => r.2.2.1.map (fun a => [a 0, a 1]))
      = some (some [some [], some []]) ∧
    (genders_getattr (exampleLoad ["n1 a=xx%n,b=%n"]).1 (some blankArray) none 2
      (some "n1".toList)).map (fun r => (r.2.1.map (fun a => [a 0, a 1]), r.2.2.2))
      = some (some [some "a".toList, some "b".toList], 2) := by
  refine ⟨by decide, by decide, by decide, by decide, by decide, by decide, by decide⟩

/-- C19, at the file `n1 a=xx%n,b=%n` / `n2 a=q` / `n3 a=q` (`maxvallen = 2`):
`attr = "a"`, `val = "q"` select the two nodes `n2` and `n3`
(`genders_testattrval` returns 1 on them), yet `genders_getnodes` with
`len = 1` and a non-null slot returns -1 with the error code `INTERNAL`, not
`OVERFLOW`, and has written no name: the guard of `_get_val` stops the loop
at the node `n1`, before the first selected node is reached. -/
theorem getnodes_internal_before_overflow :
    (exampleLoad ["n1 a=xx%n,b=%n", "n2 a=q", "n3 a=q"]).2 = 0 ∧
    (exampleLoad ["n1 a=xx%n,b=%n", "n2 a=q", "n3 a=q"]).1.map
      (fun h => (h.numnodes, h.maxvallen, h.nodeslist.map (fun n => n.name)))
      = some (3, 2, ["n1".toList, "n2".toList, "n3".toList]) ∧
    ["n1".toList, "n2".toList, "n3".toList].map (fun N =>
      (genders_testattrval (exampleLoad ["n1 a=xx%n,b=%n", "n2 a=q", "n3 a=q"]).1 (some N)
        (some "a".toList) (some "q".toList)).map (fun r => r.2))
      = [some (-1), some 1, some 1] ∧
    (genders_getnodes (exampleLoad ["n1 a=xx%n,b=%n", "n2 a=q", "n3 a=q"]).1
      (some blankArray) 1 (some "a".toList) (some "q".toList)).map
        (fun r => (r.1.map (fun h => h.errnum), r.2.2))
      = some (some GENDERS_ERR_INTERNAL, -1) ∧
    GENDERS_ERR_INTERNAL ≠ GENDERS_ERR_OVERFLOW ∧
    (genders_getnodes (exampleLoad ["n1 a=xx%n,b=%n", "n2 a=q", "n3 a=q"]).1
      (some blankArray) 1 (some "a".toList) (some "q".toList)).map
        (fun r => r.2.1.map (fun a => [a 0, a 1]))
      = some (some [blankArray 0, blankArray 1]) := by
  refine ⟨by decide, by decide, by decide, by decide, by decide, by decide⟩

/-- C20, at the file `n1 a=xx%n,b=%n`: load accepts it with `numnodes = 1`
and `maxattrs = 2`; the only node, `n1`, references one group of two pairs
and has the cached `attrcount = 2`, yet `genders_getattr` for `n1` with
`len = 2` and a non-null `vals` returns -1 (error code `INTERNAL`), not 2;
with a NULL `vals` it returns 2. -/
theorem getattr_count_internal_guard :
    (exampleLoad ["n1 a=xx%n,b=%n"]).2 = 0 ∧
    (exampleLoad ["n1 a=xx%n,b=%n"]).1.map
      (fun h => (h.numnodes, h.maxattrs, h.nodeslist.map
        (fun n => (n.name, n.attrcount, (n.attrlist.map List.length).sum))))
      = some (1, 2, [("n1".toList, 2, 2)]) ∧
    (genders_getattr (exampleLoad ["n1 a=xx%n,b=%n"]).1 (some blankArray) (some blankArray) 2
      (some "n1".toList)).map (fun r => r.2.2.2) = some (-1) ∧
    (genders_getattr (exampleLoad ["n1 a=xx%n,b=%n"]).1 (some blankArray) (some blankArray) 2
      (some "n1".toList)).map (fun r => genders_errnum r.1) = some GENDERS_ERR_INTERNAL ∧
    (genders_getattr (exampleLoad ["n1 a=xx%n,b=%n"]).1 (some blankArray) none 2
      (some "n1".toList)).map (fun r => r.2.2.2) = some 2 := by
  refine ⟨by decide, by decide, by decide, by decide, by decide⟩

/-- C24, at the file `n1234567 a=%n%n` / `n12345 a=%n%n` (`maxvallen = 10`)
and `val = "n12345n12345"`, the expansion of the value of `a` against
`n12345`: `genders_isattrval("a", val)` expands the value against `n1234567`
first and writes 16 bytes into the scratch buffer of 11, and
`genders_testattrval("n12345", "a", val)` writes 12 bytes into it; neither
call has a defined result.  The same holds at the file `node1 a=%n%n` with
`val = "node1node1"`. -/
theorem isattrval_overrun :
    (exampleLoad ["n1234567 a=%n%n", "n12345 a=%n%n"]).2 = 0 ∧
    (exampleLoad ["n1234567 a=%n%n", "n12345 a=%n%n"]).1.map
      (fun h => (h.maxvallen, h.nodeslist.map (fun n => (n.name, expandSpec n.name
        "%n%n".toList))))
      = some (10, [("n1234567".toList, "n1234567n1234567".toList),
          ("n12345".toList, "n12345n12345".toList)]) ∧
    genders_isattrval (exampleLoad ["n1234567 a=%n%n", "n12345 a=%n%n"]).1 (some "a".toList)
      (some "n12345n12345".toList) = none ∧
    ["n1234567".toList, "n12345".toList].map (fun N =>
      genders_testattrval (exampleLoad ["n1234567 a=%n%n", "n12345 a=%n%n"]).1 (some N)
        (some "a".toList) (some "n12345n12345".toList)) = [none, none] ∧
    (exampleLoad ["node1 a=%n%n"]).2 = 0 ∧
    genders_isattrval (exampleLoad ["node1 a=%n%n"]).1 (some "a".toList)
      (some "node1node1".toList) = none ∧
    genders_testattrval (exampleLoad ["node1 a=%n%n"]).1 (some "node1".toList)
      (some "a".toList) (some "node1node1".toList) = none := by
  refine ⟨by decide, by decide, by decide, by decide, by decide, by decide, by decide⟩

/-- C31, at the file `node1 a=%n%n` (`maxvallen = 7`, scratch buffer of 8
bytes): every query that expands the value of `a` against `node1`
(`genders_testattrval`, `genders_testattr` with a buffer,
`genders_getnodes` with a value, `genders_getattr` with a `vals` array,
`genders_isattrval`) writes the 10 bytes `node1node1` through the scratch
pointer, two of them past the end of the buffer: the call changes memory
that is neither the error code nor the scratch buffer, and has no defined
result.  The calls that do not expand a value are defined and leave the
handle as it was, error code apart. -/
theorem queries_overrun :
    (exampleLoad ["node1 a=%n%n"]).2 = 0 ∧
    (exampleLoad ["node1 a=%n%n"]).1.map (fun h => h.maxvallen) = some 7 ∧
    (expandSpec "node1".toList "%n%n".toList).length = 7 + 1 + 2 ∧
    genders_testattrval (exampleLoad ["node1 a=%n%n"]).1 (some "node1".toList)
      (some "a".toList) (some "x".toList) = none ∧
    (genders_testattr (exampleLoad ["node1 a=%n%n"]).1 (some "node1".toList)
      (some "a".toList) (some []) 64).isNone = true ∧
    (genders_getnodes (exampleLoad ["node1 a=%n%n"]).1 (some blankArray) 1
      (some "a".toList) (some "x".toList)).isNone = true ∧
    (genders_getattr (exampleLoad ["node1 a=%n%n"]).1 (some blankArray) (some blankArray) 1
      (some "node1".toList)).isNone = true ∧
    genders_isattrval (exampleLoad ["node1 a=%n%n"]).1 (some "a".toList)
      (some "x".toList) = none ∧
    genders_testattrval (exampleLoad ["node1 a=%n%n"]).1 (some "node1".toList)
      (some "a".toList) none
      = some ((exampleLoad ["node1 a=%n%n"]).1.map
          (fun h => { h with errnum := GENDERS_ERR_SUCCESS }), 1) ∧
    (genders_testattr (exampleLoad ["node1 a=%n%n"]).1 (some "node1".toList)
      (some "a".toList) none 0).map (fun r => (r.1, r.2.2))
      = some ((exampleLoad ["node1 a=%n%n"]).1.map
          (fun h => { h with errnum := GENDERS_ERR_SUCCESS }), 1) := by
  refine ⟨by decide, by decide, by decide, by decide, by decide, by decide, by decide,
    by decide, by decide, by decide⟩

/-! ## Expansion of a value that fits the scratch buffer -/

/-- A value with neither `%n` nor `%%` is used as it is: `_get_val` returns 0
and leaves the handle, scratch buffer included, as it was. -/
theorem get_val_literal (h : genders) (n : genders_node) (v : List Char)
    (h1 : ¬ "%n".toList <:+: v) (h2 : ¬ "%%".toList <:+: v) :
    _get_val h n v = some (h, 0) := by
  have e1 : strstr v "%n".toList = false := by
    rw [← Bool.not_eq_true, strstr_iff]; exact h1
  have e2 : strstr v "%%".toList = false := by
    rw [← Bool.not_eq_true, strstr_iff]; exact h2
  unfold _get_val
  rw [e1, e2]
  rfl

theorem get_val_frame (h : genders) (n : genders_node) (v : List Char) (r : genders × Int)
    (hr : _get_val h n v = some r) : QueryFrame h r.1 := by
  rcases get_val_cases h n v r hr with e | ⟨out, e⟩ | ⟨out, e⟩
  · rw [e]; exact queryFrame_refl h
  · rw [e]; rfl
  · rw [e]; rfl

theorem getnodes_save_frame (h : genders) (n : genders_node) (attr val : Option (List Char))
    (r : genders × Option Bool) (hr : genders_getnodes_save h n attr val = some r) :
    QueryFrame h r.1 := by
  unfold genders_getnodes_save at hr
  cases attr with
  | none =>
    simp only [Option.some.injEq] at hr
    subst hr
    exact queryFrame_refl h
  | some a =>
    simp only at hr
    cases hf : _find_attrval_in_attrlist n.attrlist a with
    | none =>
      rw [hf] at hr
      simp only [Option.some.injEq] at hr
      subst hr
      exact queryFrame_refl h
    | some av =>
      rw [hf] at hr
      cases val with
      | none =>
        simp only [Option.some.injEq] at hr
        subst hr
        exact queryFrame_refl h
      | some v =>
        simp only at hr
        cases hv : av.val with
        | none =>
          rw [hv] at hr
          simp only [Option.some.injEq] at hr
          subst hr
          exact queryFrame_refl h
        | some avval =>
          rw [hv] at hr
          simp only at hr
          rcases hg : _get_val h n avval with _ | g
          · rw [hg] at hr
            cases hr
          · rw [hg] at hr
            have hgf := get_val_frame h n avval g hg
            simp only at hr
            split at hr
            · simp only [Option.some.injEq] at hr
              subst hr
              exact hgf
            · split at hr
              · cases hr
              · simp only [Option.some.injEq] at hr
                subst hr
                exact hgf

theorem getnodes_loop_frame (attr val : Option (List Char)) (len : Int)
    (ns : List genders_node) :
    ∀ (h1 : genders) (nodes : Option StrArray) (index : Nat)
      (r : genders × Option StrArray × Option Nat),
      genders_getnodes_loop attr val len ns h1 nodes index = some r → QueryFrame h1 r.1 := by
  induction ns with
  | nil =>
    intro h1 nodes index r hr
    simp only [genders_getnodes_loop, Option.some.injEq] at hr
    subst hr
    exact queryFrame_refl h1
  | cons n rest ih =>
    intro h1 nodes index r hr
    unfold genders_getnodes_loop at hr
    rcases hsv : genders_getnodes_save h1 n attr val with _ | ⟨h1a, sv⟩
    · rw [hsv] at hr
      cases hr
    · have hs := getnodes_save_frame h1 n attr val _ hsv
      rw [hsv] at hr
      simp only at hs
      cases sv with
      | none =>
        simp only [Option.some.injEq] at hr
        subst hr
        exact hs
      | some b =>
        cases b with
        | false => exact queryFrame_trans hs (ih h1a nodes index r hr)
        | true =>
          simp only at hr
          have hp := put_in_list_frame h1a n.name nodes index len
          split at hr
          · simp only [Option.some.injEq] at hr
            subst hr
            exact queryFrame_trans hs hp
          · exact queryFrame_trans hs (queryFrame_trans hp (ih _ _ _ r hr))

theorem getattr_avs_frame (n : genders_node) (len : Int) (avs : List genders_attrval) :
    ∀ (h1 : genders) (attrs vals : Option StrArray) (index : Nat) (r : GetattrOut),
      genders_getattr_avs n len avs h1 attrs vals index = some r →
      QueryFrame h1 r.handle := by
  induction avs with
  | nil =>
    intro h1 attrs vals index r hr
    simp only [genders_getattr_avs, Option.some.injEq] at hr
    subst hr
    exact queryFrame_refl h1
  | cons av rest ih =>
    intro h1 attrs vals index r
    unfold genders_getattr_avs
    have hp := put_in_list_frame h1 av.attr attrs index len
    generalize _put_in_list h1 av.attr attrs index len = p at hp
    simp only
    by_cases hneg : p.2.2 < 0
    · rw [if_pos hneg]
      intro hr
      simp only [Option.some.injEq] at hr
      subst hr
      exact hp
    · rw [if_neg hneg]
      cases vals with
      | none => exact fun hr => queryFrame_trans hp (ih _ _ _ _ r hr)
      | some arrV =>
        cases hv : av.val with
        | none => exact fun hr => queryFrame_trans hp (ih _ _ _ _ r hr)
        | some avval =>
          simp only
          rcases hg : _get_val p.1 n avval with _ | g
          · intro hr
            cases hr
          · have hgf := get_val_frame p.1 n avval g hg
            simp only
            by_cases hr : g.2 < 0
            · rw [if_pos hr]
              intro hrun
              simp only [Option.some.injEq] at hrun
              subst hrun
              exact queryFrame_trans hp hgf
            · rw [if_neg hr]
              generalize (if g.2 ≠ 0 then valbuf_string g.1 else some avval) = str
              have hq := put_in_list_frame g.1 (str.getD []) (some arrV) index len
              generalize _put_in_list g.1 (str.getD []) (some arrV) index len = q at hq
              by_cases hqn : q.2.2 < 0
              · rw [if_pos hqn]
                intro hrun
                simp only [Option.some.injEq] at hrun
                subst hrun
                exact queryFrame_trans hp (queryFrame_trans hgf hq)
              · rw [if_neg hqn]
                cases str with
                | none =>
                  intro hrun
                  cases hrun
                | some s =>
                  exact fun hrun => queryFrame_trans hp
                    (queryFrame_trans hgf (queryFrame_trans hq (ih _ _ _ _ r hrun)))

theorem getattr_lists_frame (n : genders_node) (len : Int)
    (lists : List (List genders_attrval)) :
    ∀ (h1 : genders) (attrs vals : Option StrArray) (index : Nat) (r : GetattrOut),
      genders_getattr_lists n len lists h1 attrs vals index = some r →
      QueryFrame h1 r.handle := by
  induction lists with
  | nil =>
    intro h1 attrs vals index r hr
    simp only [genders_getattr_lists, Option.some.injEq] at hr
    subst hr
    exact queryFrame_refl h1
  | cons g rest ih =>
    intro h1 attrs vals index r hr
    unfold genders_getattr_lists at hr
    rcases hrun : genders_getattr_avs n len g h1 attrs vals index
      with _ | ⟨hx, attrsx, valsx, ix⟩
    · rw [hrun] at hr
      cases hr
    · have ha := getattr_avs_frame n len g h1 attrs vals index _ hrun
      rw [hrun] at hr
      simp only at ha
      cases ix with
      | none =>
        simp only [Option.some.injEq] at hr
        subst hr
        exact ha
      | some k => exact queryFrame_trans ha (ih _ _ _ _ r hr)

theorem isattrval_loop_frame (attr val : List Char) (ns : List genders_node) :
    ∀ (h1 : genders) (r : genders × Int),
      genders_isattrval_loop attr val ns h1 = some r → QueryFrame h1 r.1 := by
  induction ns with
  | nil =>
    intro h1 r hr
    simp only [genders_isattrval_loop, Option.some.injEq] at hr
    subst hr
    exact queryFrame_errnum h1 _
  | cons n rest ih =>
    intro h1 r
    unfold genders_isattrval_loop
    cases hf : _find_attrval_in_attrlist n.attrlist attr with
    | none => exact ih h1 r
    | some av =>
      simp only
      cases hv : av.val with
      | none => exact ih h1 r
      | some avval =>
        simp only
        rcases hg : _get_val h1 n avval with _ | g
        · intro hr
          cases hr
        · have hgf := get_val_frame h1 n avval g hg
          simp only
          by_cases hr : g.2 < 0
          · rw [if_pos hr]
            intro hrun
            simp only [Option.some.injEq] at hrun
            subst hrun
            exact hgf
          · rw [if_neg hr]
            rcases value_test g.1 g.2 avval val with _ | b
            · intro hrun
              cases hrun
            · cases b with
              | true =>
                intro hrun
                simp only [Option.some.injEq] at hrun
                subst hrun
                exact hgf
              | false => exact fun hrun => queryFrame_trans hgf (ih _ r hrun)

theorem getnodes_frame (h : genders) (nodes : Option StrArray) (len : Int)
    (attr val : Option (List Char)) (r : Option genders × Option StrArray × Int)
    (hr : genders_getnodes (some h) nodes len attr val = some r) :
    ∃ h1, r.1 = some h1 ∧ QueryFrame h h1 := by
  unfold genders_getnodes at hr
  rcases loaded_check_frame h with e | ⟨hneg, h1, e1, hf⟩
  · rw [e] at hr
    simp only [lt_self_iff_false, if_false] at hr
    split at hr
    · simp only [Option.some.injEq] at hr
      subst hr
      exact ⟨_, rfl, queryFrame_errnum h _⟩
    · rcases hrun : genders_getnodes_loop attr val len h.nodeslist h nodes 0
        with _ | ⟨hx, nx, ix⟩
      · rw [hrun] at hr
        cases hr
      · have hl := getnodes_loop_frame attr val len h.nodeslist h nodes 0 _ hrun
        rw [hrun] at hr
        cases ix with
        | none =>
          simp only [Option.some.injEq] at hr
          subst hr
          exact ⟨hx, rfl, hl⟩
        | some k =>
          simp only [Option.some.injEq] at hr
          subst hr
          exact ⟨_, rfl, queryFrame_set hl _⟩
  · simp only [hneg, if_true, Option.some.injEq] at hr
    subst hr
    exact ⟨h1, e1, hf⟩

theorem getattr_frame (h : genders) (attrs vals : Option StrArray) (len : Int)
    (node : Option (List Char)) (r : Option genders × Option StrArray × Option StrArray × Int)
    (hr : genders_getattr (some h) attrs vals len node = some r) :
    ∃ h1, r.1 = some h1 ∧ QueryFrame h h1 := by
  unfold genders_getattr at hr
  rcases loaded_check_frame h with e | ⟨hneg, h1, e1, hf⟩
  · rw [e] at hr
    simp only [lt_self_iff_false, if_false] at hr
    split at hr
    · simp only [Option.some.injEq] at hr
      subst hr
      exact ⟨_, rfl, queryFrame_errnum h _⟩
    · cases hlook : node_lookup h (node.getD h.nodename) with
      | none =>
        rw [hlook] at hr
        simp only [Option.some.injEq] at hr
        subst hr
        exact ⟨_, rfl, queryFrame_errnum h _⟩
      | some n =>
        rw [hlook] at hr
        simp only at hr
        rcases hrun : genders_getattr_lists n len n.attrlist h attrs vals 0
          with _ | ⟨hx, ax, vx, ix⟩
        · rw [hrun] at hr
          cases hr
        · have hl := getattr_lists_frame n len n.attrlist h attrs vals 0 _ hrun
          rw [hrun] at hr
          cases ix with
          | none =>
            simp only [Option.some.injEq] at hr
            subst hr
            exact ⟨hx, rfl, hl⟩
          | some k =>
            simp only [Option.some.injEq] at hr
            subst hr
            exact ⟨_, rfl, queryFrame_set hl _⟩
  · simp only [hneg, if_true, Option.some.injEq] at hr
    subst hr
    exact ⟨h1, e1, hf⟩

theorem testattr_frame (h : genders) (node attr val : Option (List Char)) (len : Int)
    (r : Option genders × Option (List Char) × Int)
    (hr : genders_testattr (some h) node attr val len = some r) :
    ∃ h1, r.1 = some h1 ∧ QueryFrame h h1 := by
  unfold genders_testattr at hr
  rcases loaded_check_frame h with e | ⟨hneg, h1, e1, hf⟩
  · rw [e] at hr
    simp only [lt_self_iff_false, if_false] at hr
    have hstop : ∀ (e0 : Int) (b : Option (List Char)) (k : Int),
        some ((some { h with errnum := e0 } : Option genders), b, k) = some r →
        ∃ h1, r.1 = some h1 ∧ QueryFrame h h1 := by
      intro e0 b k hx
      simp only [Option.some.injEq] at hx
      subst hx
      exact ⟨_, rfl, queryFrame_errnum h _⟩
    cases attr with
    | none => exact hstop _ _ _ hr
    | some a =>
      simp only at hr
      split at hr
      · exact hstop _ _ _ hr
      · cases hlook : node_lookup h (node.getD h.nodename) with
        | none =>
          rw [hlook] at hr
          exact hstop _ _ _ hr
        | some n =>
          rw [hlook] at hr
          simp only at hr
          cases hfind : _find_attrval_in_attrlist n.attrlist a with
          | none =>
            rw [hfind] at hr
            exact hstop _ _ _ hr
          | some av =>
            rw [hfind] at hr
            simp only at hr
            cases val with
            | none => exact hstop _ _ _ hr
            | some b =>
              cases hv : av.val with
              | none =>
                rw [hv] at hr
                exact hstop _ _ _ hr
              | some avval =>
                rw [hv] at hr
                simp only at hr
                rcases hg : _get_val h n avval with _ | g
                · rw [hg] at hr
                  cases hr
                · have hgf := get_val_frame h n avval g hg
                  rw [hg] at hr
                  simp only at hr
                  by_cases hneg : g.2 < 0
                  · rw [if_pos hneg] at hr
                    simp only [Option.some.injEq] at hr
                    subst hr
                    exact ⟨_, rfl, hgf⟩
                  · rw [if_neg hneg] at hr
                    generalize (if g.2 > 0 then valbuf_string g.1 else some avval) = str at hr
                    cases str with
                    | none => cases hr
                    | some s =>
                      simp only at hr
                      split_ifs at hr <;>
                        (cases hr; exact ⟨_, rfl, queryFrame_set hgf _⟩)
  · simp only [hneg, if_true, Option.some.injEq] at hr
    subst hr
    exact ⟨h1, e1, hf⟩

theorem testattrval_frame (h : genders) (node attr val : Option (List Char))
    (r : Option genders × Int)
    (hr : genders_testattrval (some h) node attr val = some r) :
    ∃ h1, r.1 = some h1 ∧ QueryFrame h h1 := by
  unfold genders_testattrval at hr
  rcases loaded_check_frame h with e | ⟨hneg, h1, e1, hf⟩
  · rw [e] at hr
    simp only [lt_self_iff_false, if_false] at hr
    have hstop : ∀ (e0 : Int) (k : Int),
        some ((some { h with errnum := e0 } : Option genders), k) = some r →
        ∃ h1, r.1 = some h1 ∧ QueryFrame h h1 := by
      intro e0 k hx
      simp only [Option.some.injEq] at hx
      subst hx
      exact ⟨_, rfl, queryFrame_errnum h _⟩
    cases attr with
    | none => exact hstop _ _ hr
    | some a =>
      simp only at hr
      cases hlook : node_lookup h (node.getD h.nodename) with
      | none =>
        rw [hlook] at hr
        exact hstop _ _ hr
      | some n =>
        rw [hlook] at hr
        simp only at hr
        cases hfind : _find_attrval_in_attrlist n.attrlist a with
        | none =>
          rw [hfind] at hr
          exact hstop _ _ hr
        | some av =>
          rw [hfind] at hr
          simp only at hr
          cases val with
          | none => exact hstop _ _ hr
          | some v =>
            simp only at hr
            cases hv : av.val with
            | none =>
              rw [hv] at hr
              exact hstop _ _ hr
            | some avval =>
              rw [hv] at hr
              simp only at hr
              rcases hg : _get_val h n avval with _ | g
              · rw [hg] at hr
                cases hr
              · have hgf := get_val_frame h n avval g hg
                rw [hg] at hr
                simp only at hr
                by_cases hneg : g.2 < 0
                · rw [if_pos hneg] at hr
                  simp only [Option.some.injEq] at hr
                  subst hr
                  exact ⟨_, rfl, hgf⟩
                · rw [if_neg hneg] at hr
                  generalize value_test g.1 g.2 avval v = vt at hr
                  rcases vt with _ | b
                  · cases hr
                  · cases b with
                    | true =>
                      cases hr
                      exact ⟨_, rfl, queryFrame_set hgf _⟩
                    | false =>
                      cases hr
                      exact ⟨_, rfl, queryFrame_set hgf _⟩
  · simp only [hneg, if_true, Option.some.injEq] at hr
    subst hr
    exact ⟨h1, e1, hf⟩

theorem isattrval_frame (h : genders) (attr val : Option (List Char))
    (r : Option genders × Int) (hr : genders_isattrval (some h) attr val = some r) :
    ∃ h1, r.1 = some h1 ∧ QueryFrame h h1 := by
  unfold genders_isattrval at hr
  rcases loaded_check_frame h with e | ⟨hneg, h1, e1, hf⟩
  · rw [e] at hr
    simp only [lt_self_iff_false, if_false] at hr
    cases attr with
    | none =>
      simp only [Option.some.injEq] at hr
      subst hr
      exact ⟨_, rfl, queryFrame_errnum h _⟩
    | some a =>
      cases val with
      | none =>
        simp only [Option.some.injEq] at hr
        subst hr
        exact ⟨_, rfl, queryFrame_errnum h _⟩
      | some v =>
        simp only at hr
        rcases hrun : genders_isattrval_loop a v h.nodeslist h with _ | x
        · rw [hrun] at hr
          cases hr
        · have hl := isattrval_loop_frame a v h.nodeslist h x hrun
          rw [hrun] at hr
          simp only [Option.some.injEq] at hr
          subst hr
          exact ⟨_, rfl, hl⟩
  · simp only [hneg, if_true, Option.some.injEq] at hr
    subst hr
    exact ⟨h1, e1, hf⟩

/-- Every query whose behaviour is defined leaves a handle that differs from
the one it was given at most in the error code and the scratch buffer; the
queries that expand no value are always defined. -/
theorem queries_frame_defined (h : genders) (nodes attrs vals : Option StrArray)
    (buf node attr val : Option (List Char)) (len : Int) :
    (∃ h1, (genders_getnumnodes (some h)).1 = some h1 ∧ QueryFrame h h1) ∧
    (∃ h1, (genders_getnumattrs (some h)).1 = some h1 ∧ QueryFrame h h1) ∧
    (∃ h1, (genders_getmaxattrs (some h)).1 = some h1 ∧ QueryFrame h h1) ∧
    (∃ h1, (genders_getmaxnodelen (some h)).1 = some h1 ∧ QueryFrame h h1) ∧
    (∃ h1, (genders_getmaxattrlen (some h)).1 = some h1 ∧ QueryFrame h h1) ∧
    (∃ h1, (genders_getmaxvallen (some h)).1 = some h1 ∧ QueryFrame h h1) ∧
    (∃ h1, (genders_getnodename (some h) buf len).1 = some h1 ∧ QueryFrame h h1) ∧
    (∀ r, genders_getnodes (some h) nodes len attr val = some r →
      ∃ h1, r.1 = some h1 ∧ QueryFrame h h1) ∧
    (∀ r, genders_getattr (some h) attrs vals len node = some r →
      ∃ h1, r.1 = some h1 ∧ QueryFrame h h1) ∧
    (∃ h1, (genders_getattr_all (some h) attrs len).1 = some h1 ∧ QueryFrame h h1) ∧
    (∀ r, genders_testattr (some h) node attr buf len = some r →
      ∃ h1, r.1 = some h1 ∧ QueryFrame h h1) ∧
    (∀ r, genders_testattrval (some h) node attr val = some r →
      ∃ h1, r.1 = some h1 ∧ QueryFrame h h1) ∧
    (∃ h1, (genders_isnode (some h) node).1 = some h1 ∧ QueryFrame h h1) ∧
    (∃ h1, (genders_isattr (some h) attr).1 = some h1 ∧ QueryFrame h h1) ∧
    (∀ r, genders_isattrval (some h) attr val = some r →
      ∃ h1, r.1 = some h1 ∧ QueryFrame h h1) ∧
    (∀ h1, QueryFrame h h1 →
      h1.magic = h.magic ∧ h1.is_loaded = h.is_loaded ∧ h1.numnodes = h.numnodes ∧
      h1.numattrs = h.numattrs ∧ h1.maxattrs = h.maxattrs ∧ h1.maxnodelen = h.maxnodelen ∧
      h1.maxattrlen = h.maxattrlen ∧ h1.maxvallen = h.maxvallen ∧ h1.nodename = h.nodename ∧
      h1.nodeslist = h.nodeslist ∧ h1.attrvalslist = h.attrvalslist ∧
      h1.attrslist = h.attrslist ∧ h1.node_index = h.node_index) :=
  ⟨getstat_frame _ h, getstat_frame _ h, getstat_frame _ h, getstat_frame _ h,
    getstat_frame _ h, getstat_frame _ h, getnodename_frame h buf len,
    getnodes_frame h nodes len attr val, getattr_frame h attrs vals len node,
    getattr_all_frame h attrs len, testattr_frame h node attr buf len,
    testattrval_frame h node attr val, isnode_frame h node, isattr_frame h attr,
    isattrval_frame h attr val, queryFrame_fields h⟩

/-! ## Queries are defined when the expansions fit the scratch buffer -/

end Genders
